import Mathlib

/-!
# NES emulator: processor core, bus and picture unit

A shallow embedding of `CPU.cpp`, `Memory.cpp`, `PPU.cpp`, `Cartridge.cpp` and
`Controller.cpp`.

Conventions of the embedding

* `uint8_t` is `Byte = Fin 256`, `uint16_t` is `Word = Fin 65536`.  All arithmetic is done on
  the underlying natural numbers (C++ promotes the operands to `int`); every store into a
  `uint8_t`/`uint16_t` object is an explicit reduction `u8`/`u16` (`% 256`, `% 65536`), or
  `u8i`/`u16i` when the `int` value can be negative.
* `~x` on a promoted `int` is `cnot x`, the 32-bit two's-complement pattern of `-x-1`.
* Fixed arrays (`RAM`, `OAM`, `palette`, ...) are functions from the index; `std::vector`s are
  lists, an out-of-range `operator[]` (undefined in C++) reads as `0`.
* Objects reached through pointers are stored by value: the bus (`Memory`) carries the
  picture unit, the controller and the cartridge, the processor carries the bus.
* Member functions take the object state and return the new state (paired with the returned
  value when there is one).  `printf` output is not part of the state.
-/

namespace NES

abbrev Byte := Fin 256
abbrev Word := Fin 65536
abbrev DWord := Fin 4294967296

/-- Conversion of a non-negative `int` value to `uint8_t`. -/
def u8 (n : Nat) : Byte := ⟨n % 256, Nat.mod_lt n (by decide)⟩

/-- Conversion of a non-negative `int` value to `uint16_t`. -/
def u16 (n : Nat) : Word := ⟨n % 65536, Nat.mod_lt n (by decide)⟩

/-- Conversion of a possibly negative `int` value to `uint8_t`. -/
def u8i (z : Int) : Byte := u8 (z % 256).toNat

/-- Conversion of a possibly negative `int` value to `uint16_t`. -/
def u16i (z : Int) : Word := u16 (z % 65536).toNat

/-- Bitwise complement of a non-negative 32-bit `int`, as a bit pattern. -/
def cnot (x : Nat) : Nat := 0xFFFFFFFF ^^^ x

/-! ## Cartridge -/

inductive Mirror where
  | HORIZONTAL
  | VERTICAL
  | FOUR_SCREEN
  | SINGLE_SCREEN
  deriving DecidableEq, Repr

structure Cartridge where
  PRG_ROM : List Byte
  CHR_ROM : List Byte
  mapperID : Byte
  mirror : Mirror

/-- The constructor `Cartridge::Cartridge`: both vectors empty and `mirror(HORIZONTAL)`;
`mapperID` has no initialiser and keeps the value of the raw object. -/
def Cartridge.new (raw : Cartridge) : Cartridge :=
  { raw with PRG_ROM := [], CHR_ROM := [], mirror := Mirror.HORIZONTAL }

/-- An opened `std::ifstream`: the bytes from the read position on, and whether the stream
is still good. -/
structure FileStream where
  rest : List Byte
  good : Bool

namespace FileStream

/-- The call `file.read(buf, n)` on a buffer of at least `n` bytes: the available bytes, at
most `n`, replace the front of the buffer; a short read leaves the stream failed, and a failed
stream reads nothing. -/
def read (f : FileStream) (buf : List Byte) (n : Nat) : List Byte × FileStream :=
  if f.good then
    let got := f.rest.take n
    (got ++ buf.drop got.length, { rest := f.rest.drop n, good := decide (n ≤ f.rest.length) })
  else (buf, f)

/-- The call `file.seekg(n, std::ios::cur)`. -/
def seekg (f : FileStream) (n : Nat) : FileStream :=
  if f.good then { f with rest := f.rest.drop n } else f

end FileStream

namespace Cartridge

/-- The call `resize(n)` on a `std::vector<uint8_t>`: truncated, or padded with zero bytes. -/
def resize (v : List Byte) (n : Nat) : List Byte :=
  (v ++ List.replicate (n - v.length) 0).take n

/-- The member function `Cartridge::Load`.  `file` is the content of the file when it can be
opened.  The header buffer is not initialised in the source; the bytes a short file leaves
unread are taken as 0 here.  Console output is left out. -/
def Load (c : Cartridge) (file : Option (List Byte)) : Bool × Cartridge :=
  match file with
  | none => (false, c)
  | some img =>
    let f : FileStream := { rest := img, good := true }
    let r := f.read (List.replicate 16 0) 16
    let header := r.1
    let f := r.2
    if header.getD 0 0 ≠ 0x4E ∨ header.getD 1 0 ≠ 0x45 ∨ header.getD 2 0 ≠ 0x53 ∨
        header.getD 3 0 ≠ 0x1A then (false, c)
    else
      let prgSize := header.getD 4 0
      let chrSize := header.getD 5 0
      let c : Cartridge := { c with
        mapperID := u8 ((((header.getD 6 0).val >>> 4) &&& 0x0F)
          ||| ((header.getD 7 0).val &&& 0xF0)) }
      let c : Cartridge :=
        if ((header.getD 6 0).val &&& 0x01) ≠ 0 then { c with mirror := Mirror.VERTICAL }
        else { c with mirror := Mirror.HORIZONTAL }
      let f := if ((header.getD 6 0).val &&& 0x04) ≠ 0 then f.seekg 512 else f
      let c : Cartridge := { c with PRG_ROM := resize c.PRG_ROM (prgSize.val * 16384) }
      let r := f.read c.PRG_ROM c.PRG_ROM.length
      let c : Cartridge := { c with PRG_ROM := r.1 }
      let f := r.2
      let c : Cartridge :=
        if chrSize.val = 0 then
          { c with CHR_ROM := resize c.CHR_ROM 8192 }
        else
          let c : Cartridge := { c with CHR_ROM := resize c.CHR_ROM (chrSize.val * 8192) }
          { c with CHR_ROM := (f.read c.CHR_ROM c.CHR_ROM.length).1 }
      if c.mapperID.val ≠ 0 then (false, c) else (true, c)

end Cartridge

/-! ## Controller -/

structure Controller where
  buttonStates : Byte
  shiftRegister : Byte
  strobe : Bool

namespace Controller

def Write (c : Controller) (data : Byte) : Controller :=
  let c := { c with strobe := (data.val &&& 1) != 0 }
  if c.strobe then { c with shiftRegister := c.buttonStates } else c

def Read (c : Controller) : Byte × Controller :=
  let c := if c.strobe then { c with shiftRegister := c.buttonStates } else c
  let value := u8 (c.shiftRegister.val &&& 1)
  let c := { c with shiftRegister := u8 (c.shiftRegister.val >>> 1) }
  (u8 (value.val ||| 0x40), c)

end Controller

/-! ## Picture unit: state, internal memory and register file -/

structure PPU where
  nmi : Bool
  OAM : Nat → Byte
  regOAMAddr : Byte
  nameTable : Nat → Nat → Byte
  palette : Nat → Byte
  vramAddr : Word
  tempAddr : Word
  fineX : Byte
  writeToggle : Byte
  ppuDataBuffer : Byte
  regControl : Byte
  regMask : Byte
  regStatus : Byte
  frameBuffer : Nat → DWord
  scanline : Int
  cycle : Int
  frameComplete : Bool
  bgNextTileID : Byte
  bgNextTileAttrib : Byte
  bgNextTileLsb : Byte
  bgNextTileMsb : Byte
  bgShiftPatternLow : Word
  bgShiftPatternHigh : Word
  bgShiftAttribLow : Word
  bgShiftAttribHigh : Word
  chrRam : Nat → Byte

namespace PPU

def MirrorAddress (cart : Cartridge) (addr : Word) : Word :=
  if cart.mirror = Mirror.VERTICAL then addr
  else if cart.mirror = Mirror.HORIZONTAL then
    if addr.val ≥ 0x0000 ∧ addr.val < 0x0400 then addr
    else if addr.val ≥ 0x0400 ∧ addr.val < 0x0800 then u16i ((addr.val : Int) - 0x0400)
    else if addr.val ≥ 0x0800 ∧ addr.val < 0x0C00 then u16i ((addr.val : Int) - 0x0800)
    else u16i ((addr.val : Int) - 0x0C00)
  else addr

/-- Palette index after `addr &= 0x001F` and the four alias replacements. -/
def paletteIndex (addr : Nat) : Nat :=
  let addr := addr &&& 0x001F
  let addr := if addr = 0x0010 then 0x0000 else addr
  let addr := if addr = 0x0014 then 0x0004 else addr
  let addr := if addr = 0x0018 then 0x0008 else addr
  let addr := if addr = 0x001C then 0x000C else addr
  addr

def PPURead (cart : Cartridge) (p : PPU) (addr : Word) : Byte :=
  let addr := u16 (addr.val &&& 0x3FFF)
  if addr.val < 0x2000 then
    if cart.CHR_ROM.length = 0 then p.chrRam addr.val
    else cart.CHR_ROM.getD addr.val 0
  else if addr.val ≥ 0x2000 ∧ addr.val < 0x3F00 then
    let addr := u16 (addr.val &&& 0x0FFF)
    let mirroredAddr := MirrorAddress cart addr
    p.nameTable ((mirroredAddr.val / 0x0400) % 2) (mirroredAddr.val % 0x0400)
  else if addr.val ≥ 0x3F00 ∧ addr.val < 0x4000 then
    p.palette (paletteIndex addr.val)
  else 0x00

def PPUWrite (cart : Cartridge) (p : PPU) (addr : Word) (data : Byte) : PPU :=
  let addr := u16 (addr.val &&& 0x3FFF)
  if addr.val < 0x2000 then
    if cart.CHR_ROM.length = 0 then
      { p with chrRam := fun k => if k = addr.val then data else p.chrRam k }
    else p
  else if addr.val ≥ 0x2000 ∧ addr.val < 0x3F00 then
    let addr := u16 (addr.val &&& 0x0FFF)
    let mirroredAddr := MirrorAddress cart addr
    let t := (mirroredAddr.val / 0x0400) % 2
    let o := mirroredAddr.val % 0x0400
    { p with nameTable := fun a b => if a = t ∧ b = o then data else p.nameTable a b }
  else if addr.val ≥ 0x3F00 ∧ addr.val < 0x4000 then
    let i := paletteIndex addr.val
    { p with palette := fun k => if k = i then data else p.palette k }
  else p

/-- The step `vramAddr += (regControl & 0x04) ? 32 : 1`. -/
def bumpVramAddr (p : PPU) : PPU :=
  { p with vramAddr := u16 (p.vramAddr.val + (if (p.regControl.val &&& 0x04) ≠ 0 then 32 else 1)) }

def CPURead (cart : Cartridge) (p : PPU) (addr : Word) : Byte × PPU :=
  let addr := u16 (addr.val &&& 0x2007)
  if addr.val = 0x2002 then
    let data := p.regStatus
    (data, { p with regStatus := u8 (p.regStatus.val &&& cnot 0x80), writeToggle := 0 })
  else if addr.val = 0x2004 then
    (p.OAM p.regOAMAddr.val, p)
  else if addr.val = 0x2007 then
    let data := p.ppuDataBuffer
    let p := { p with ppuDataBuffer := PPURead cart p p.vramAddr }
    let data := if p.vramAddr.val ≥ 0x3F00 then p.ppuDataBuffer else data
    (data, bumpVramAddr p)
  else (0x00, p)

def CPUWrite (cart : Cartridge) (p : PPU) (addr : Word) (data : Byte) : PPU :=
  let addr := u16 (addr.val &&& 0x2007)
  if addr.val = 0x2000 then
    { p with regControl := data,
             tempAddr := u16 ((p.tempAddr.val &&& 0xF3FF) ||| ((data.val &&& 0x03) <<< 10)) }
  else if addr.val = 0x2001 then
    { p with regMask := data }
  else if addr.val = 0x2003 then
    { p with regOAMAddr := data }
  else if addr.val = 0x2004 then
    { p with OAM := fun k => if k = p.regOAMAddr.val then data else p.OAM k,
             regOAMAddr := u8 (p.regOAMAddr.val + 1) }
  else if addr.val = 0x2005 then
    if p.writeToggle.val = 0 then
      { p with fineX := u8 (data.val &&& 0x07),
               tempAddr := u16 ((p.tempAddr.val &&& 0xFFE0) ||| (data.val >>> 3)),
               writeToggle := 1 }
    else
      let t := u16 ((p.tempAddr.val &&& 0x8FFF) ||| ((data.val &&& 0x07) <<< 12))
      let t := u16 ((t.val &&& 0xFC1F) ||| ((data.val &&& 0xF8) <<< 2))
      { p with tempAddr := t, writeToggle := 0 }
  else if addr.val = 0x2006 then
    if p.writeToggle.val = 0 then
      { p with tempAddr := u16 ((p.tempAddr.val &&& 0x00FF) ||| ((data.val &&& 0x3F) <<< 8)),
               writeToggle := 1 }
    else
      let t := u16 ((p.tempAddr.val &&& 0xFF00) ||| data.val)
      { p with tempAddr := t, vramAddr := t, writeToggle := 0 }
  else if addr.val = 0x2007 then
    bumpVramAddr (PPUWrite cart p p.vramAddr data)
  else p

/-! ### Reset and construction -/

def Reset (p : PPU) : PPU :=
  { p with
    nameTable := fun _ _ => 0, palette := fun _ => 0, OAM := fun _ => 0,
    frameBuffer := fun _ => 0, chrRam := fun _ => 0,
    vramAddr := 0, tempAddr := 0, fineX := 0, writeToggle := 0, ppuDataBuffer := 0,
    regControl := 0, regMask := 0, regStatus := 0, regOAMAddr := 0,
    bgNextTileID := 0, bgNextTileAttrib := 0, bgNextTileLsb := 0, bgNextTileMsb := 0,
    bgShiftPatternLow := 0, bgShiftPatternHigh := 0, bgShiftAttribLow := 0,
    bgShiftAttribHigh := 0 }

/-- The constructor `PPU::PPU`: the member initialisers, then `Reset()`.  The argument stands
for the uninitialised object. -/
def new (raw : PPU) : PPU :=
  Reset { raw with frameComplete := false, scanline := 0, cycle := 0, nmi := false }

/-! ### Rendering -/

/-- The colour table `nesPalette[64]`. -/
def nesPalette : List DWord :=
  [ 0xFF757575, 0xFF271B8F, 0xFF0000AB, 0xFF47009F, 0xFF8F0077, 0xFFAB0013, 0xFFA70000, 0xFF7F0B00,
    0xFF432F00, 0xFF004700, 0xFF005100, 0xFF003F17, 0xFF1B3F5F, 0xFF000000, 0xFF000000, 0xFF000000,
    0xFFBCBCBC, 0xFF0073EF, 0xFF233BEF, 0xFF8300F3, 0xFFBF00BF, 0xFFE7005B, 0xFFDB2B00, 0xFFCB4F0F,
    0xFF8B7300, 0xFF009700, 0xFF00AB00, 0xFF00933B, 0xFF00838B, 0xFF000000, 0xFF000000, 0xFF000000,
    0xFFFFFFFF, 0xFF3FBFFF, 0xFF5F97FF, 0xFFA78BFD, 0xFFF77BFF, 0xFFFF77B7, 0xFFFF7763, 0xFFFF9B3B,
    0xFFF3BF3F, 0xFF83D313, 0xFF4FDF4B, 0xFF58F898, 0xFF00EBDB, 0xFF000000, 0xFF000000, 0xFF000000,
    0xFFFFFFFF, 0xFFABE7FF, 0xFFC7D7FF, 0xFFD7CBFF, 0xFFFFC7FF, 0xFFFFC7DB, 0xFFFFBFB3, 0xFFFFDBAB,
    0xFFFFE7A3, 0xFFE3FFA3, 0xFFABF3BF, 0xFFB3FFCF, 0xFF9FFFF3, 0xFF000000, 0xFF000000, 0xFF000000 ]

def GetColorFromPaletteRAM (cart : Cartridge) (p : PPU) (paletteNum pixel : Byte) : Byte :=
  if pixel.val = 0 then
    u8 ((PPURead cart p 0x3F00).val &&& 0x3F)
  else
    u8 ((PPURead cart p (u16 (0x3F00 + (paletteNum.val <<< 2) + pixel.val))).val &&& 0x3F)

def SetPixel (p : PPU) (x y : Int) (color : Byte) : PPU :=
  if x ≥ 0 ∧ x < 256 ∧ y ≥ 0 ∧ y < 240 then
    { p with frameBuffer := fun k => if k = (y * 256 + x).toNat then nesPalette.getD color.val 0
                                     else p.frameBuffer k }
  else p

def FineY (p : PPU) : Byte := u8 ((p.vramAddr.val >>> 12) &&& 0x07)

def FetchBackgroundTile (cart : Cartridge) (p : PPU) : PPU :=
  { p with bgNextTileID := PPURead cart p (u16 (0x2000 ||| (p.vramAddr.val &&& 0x0FFF))) }

def FetchBackgroundTileAttrib (cart : Cartridge) (p : PPU) : PPU :=
  let attribAddr := u16 (0x23C0 ||| (p.vramAddr.val &&& 0x0C00)
    ||| ((p.vramAddr.val >>> 4) &&& 0x38) ||| ((p.vramAddr.val >>> 2) &&& 0x07))
  let attrib := PPURead cart p attribAddr
  let attrib := if (p.vramAddr.val &&& 0x0040) ≠ 0 then u8 (attrib.val >>> 4) else attrib
  let attrib := if (p.vramAddr.val &&& 0x0002) ≠ 0 then u8 (attrib.val >>> 2) else attrib
  { p with bgNextTileAttrib := u8 (attrib.val &&& 0x03) }

def FetchBackgroundTileLsb (cart : Cartridge) (p : PPU) : PPU :=
  let baseAddr := u16 ((p.regControl.val &&& 0x10) <<< 8)
  let tileAddr := u16 (baseAddr.val + (p.bgNextTileID.val <<< 4) + (FineY p).val)
  { p with bgNextTileLsb := PPURead cart p tileAddr }

def FetchBackgroundTileMsb (cart : Cartridge) (p : PPU) : PPU :=
  let baseAddr := u16 ((p.regControl.val &&& 0x10) <<< 8)
  let tileAddr := u16 (baseAddr.val + (p.bgNextTileID.val <<< 4) + (FineY p).val + 8)
  { p with bgNextTileMsb := PPURead cart p tileAddr }

def LoadBackgroundShifters (p : PPU) : PPU :=
  let p : PPU := { p with
    bgShiftPatternLow := u16 ((p.bgShiftPatternLow.val &&& 0xFF00) ||| p.bgNextTileLsb.val) }
  let p : PPU := { p with
    bgShiftPatternHigh := u16 ((p.bgShiftPatternHigh.val &&& 0xFF00) ||| p.bgNextTileMsb.val) }
  let attrib := p.bgNextTileAttrib
  let p : PPU := { p with
    bgShiftAttribLow := u16 ((p.bgShiftAttribLow.val &&& 0xFF00)
      ||| (if (attrib.val &&& 0x01) ≠ 0 then 0xFF else 0x00)) }
  { p with
    bgShiftAttribHigh := u16 ((p.bgShiftAttribHigh.val &&& 0xFF00)
      ||| (if (attrib.val &&& 0x02) ≠ 0 then 0xFF else 0x00)) }

def UpdateShifters (p : PPU) : PPU :=
  if (p.regMask.val &&& 0x08) ≠ 0 then
    { p with bgShiftPatternLow := u16 (p.bgShiftPatternLow.val <<< 1),
             bgShiftPatternHigh := u16 (p.bgShiftPatternHigh.val <<< 1),
             bgShiftAttribLow := u16 (p.bgShiftAttribLow.val <<< 1),
             bgShiftAttribHigh := u16 (p.bgShiftAttribHigh.val <<< 1) }
  else p

/-- The background pixel value and sub-palette selector that `RenderPixel` composes. -/
def backgroundPixel (p : PPU) : Byte × Byte :=
  if (p.regMask.val &&& 0x08) ≠ 0 then
    let bitMux := u16 (0x8000 >>> p.fineX.val)
    let p0_pixel : Nat := if (p.bgShiftPatternLow.val &&& bitMux.val) > 0 then 1 else 0
    let p1_pixel : Nat := if (p.bgShiftPatternHigh.val &&& bitMux.val) > 0 then 1 else 0
    let attrib0 : Nat := if (p.bgShiftAttribLow.val &&& bitMux.val) > 0 then 1 else 0
    let attrib1 : Nat := if (p.bgShiftAttribHigh.val &&& bitMux.val) > 0 then 1 else 0
    (u8 ((p1_pixel <<< 1) ||| p0_pixel), u8 ((attrib1 <<< 1) ||| attrib0))
  else (0, 0)

def RenderPixel (cart : Cartridge) (p : PPU) : PPU :=
  let x := p.cycle - 1
  let y := p.scanline
  let bg := backgroundPixel p
  let color := GetColorFromPaletteRAM cart p bg.2 bg.1
  SetPixel p x y color

def IncrementScrollX (p : PPU) : PPU :=
  if (p.regMask.val &&& 0x08) ≠ 0 ∨ (p.regMask.val &&& 0x10) ≠ 0 then
    if (p.vramAddr.val &&& 0x001F) = 31 then
      let p : PPU := { p with vramAddr := u16 (p.vramAddr.val &&& cnot 0x001F) }
      { p with vramAddr := u16 (p.vramAddr.val ^^^ 0x0400) }
    else
      { p with vramAddr := u16 (p.vramAddr.val + 1) }
  else p

def IncrementScrollY (p : PPU) : PPU :=
  if (p.regMask.val &&& 0x08) ≠ 0 ∨ (p.regMask.val &&& 0x10) ≠ 0 then
    if (p.vramAddr.val &&& 0x7000) ≠ 0x7000 then
      { p with vramAddr := u16 (p.vramAddr.val + 0x1000) }
    else
      let p : PPU := { p with vramAddr := u16 (p.vramAddr.val &&& cnot 0x7000) }
      let y := u16 ((p.vramAddr.val &&& 0x03E0) >>> 5)
      if y.val = 29 then
        let p : PPU := { p with vramAddr := u16 (p.vramAddr.val ^^^ 0x0800) }
        { p with vramAddr := u16 ((p.vramAddr.val &&& cnot 0x03E0) ||| ((0 : Nat) <<< 5)) }
      else if y.val = 31 then
        { p with vramAddr := u16 ((p.vramAddr.val &&& cnot 0x03E0) ||| ((0 : Nat) <<< 5)) }
      else
        let y := u16 (y.val + 1)
        { p with vramAddr := u16 ((p.vramAddr.val &&& cnot 0x03E0) ||| (y.val <<< 5)) }
  else p

def TransferAddressX (p : PPU) : PPU :=
  if (p.regMask.val &&& 0x08) ≠ 0 ∨ (p.regMask.val &&& 0x10) ≠ 0 then
    { p with vramAddr := u16 ((p.vramAddr.val &&& 0xFBE0) ||| (p.tempAddr.val &&& 0x041F)) }
  else p

def TransferAddressY (p : PPU) : PPU :=
  if (p.regMask.val &&& 0x08) ≠ 0 ∨ (p.regMask.val &&& 0x10) ≠ 0 then
    { p with vramAddr := u16 ((p.vramAddr.val &&& 0x841F) ||| (p.tempAddr.val &&& 0x7BE0)) }
  else p

/-! ### The dot clock -/

/-- The vertical-blank block at the head of `Clock`. -/
def clockVBlank (p : PPU) : PPU :=
  if p.scanline = 241 ∧ p.cycle = 1 then
    let p : PPU := { p with regStatus := u8 (p.regStatus.val ||| 0x80) }
    if (p.regControl.val &&& 0x80) ≠ 0 then { p with nmi := true } else p
  else p

/-- The pre-render block of `Clock`. -/
def clockPreRender (p : PPU) : PPU :=
  if p.scanline = -1 ∧ p.cycle = 1 then
    { p with regStatus := u8 (p.regStatus.val &&& cnot 0x80), frameComplete := false }
  else p

/-- The eight-dot fetch cadence, `switch ((cycle - 1) % 8)`, entered with `cycle ≥ 2`. -/
def clockFetch (cart : Cartridge) (p : PPU) : PPU :=
  let k := (p.cycle - 1) % 8
  if k = 0 then FetchBackgroundTile cart (LoadBackgroundShifters p)
  else if k = 2 then FetchBackgroundTileAttrib cart p
  else if k = 4 then FetchBackgroundTileLsb cart p
  else if k = 6 then FetchBackgroundTileMsb cart p
  else if k = 7 then IncrementScrollX p
  else p

/-- The visible-scanline block of `Clock`. -/
def clockVisible (cart : Cartridge) (p : PPU) : PPU :=
  if p.scanline ≥ 0 ∧ p.scanline < 240 then
    let p : PPU :=
      if (p.cycle ≥ 2 ∧ p.cycle ≤ 257) ∨ (p.cycle ≥ 321 ∧ p.cycle ≤ 337) then
        clockFetch cart (UpdateShifters p)
      else p
    let p : PPU := if p.cycle = 256 then IncrementScrollY p else p
    let p : PPU := if p.cycle = 257 then TransferAddressX (LoadBackgroundShifters p) else p
    let p : PPU :=
      if p.scanline = -1 ∧ p.cycle ≥ 280 ∧ p.cycle ≤ 304 then TransferAddressY p else p
    if p.cycle ≥ 1 ∧ p.cycle ≤ 256 then RenderPixel cart p else p
  else p

/-- The counter block at the tail of `Clock`. -/
def clockAdvance (p : PPU) : PPU :=
  let p : PPU := { p with cycle := p.cycle + 1 }
  if p.cycle ≥ 341 then
    let p : PPU := { p with cycle := 0 }
    let p : PPU := { p with scanline := p.scanline + 1 }
    if p.scanline ≥ 261 then { p with scanline := -1, frameComplete := true } else p
  else p

/-- The member function `PPU::Clock`: its four blocks in source order. -/
def Clock (cart : Cartridge) (p : PPU) : PPU :=
  clockAdvance (clockVisible cart (clockPreRender (clockVBlank p)))

def FrameReady (p : PPU) : Bool := p.frameComplete

end PPU

/-! ## Bus -/

structure Memory where
  RAM : Nat → Byte
  cartridge : Cartridge
  ppu : PPU
  controller : Controller

namespace Memory

def Read (m : Memory) (address : Word) : Byte × Memory :=
  if address.val < 0x2000 then
    (m.RAM (address.val % 0x0800), m)
  else if address.val ≥ 0x2000 ∧ address.val < 0x4000 then
    let r := PPU.CPURead m.cartridge m.ppu (u16 (0x2000 + address.val % 8))
    (r.1, { m with ppu := r.2 })
  else if address.val = 0x4016 then
    let r := m.controller.Read
    (r.1, { m with controller := r.2 })
  else if address.val ≥ 0x8000 then
    let index := (address.val - 0x8000) % m.cartridge.PRG_ROM.length
    (m.cartridge.PRG_ROM.getD index 0, m)
  else
    (0x00, m)

/-- One iteration of the OAM burst copy, `ppu->OAM[ppu->regOAMAddr++] = Read(dmaAddress + i)`;
the right-hand side of the assignment is evaluated first. -/
def dmaStep (dmaAddress : Word) (m : Memory) (i : Nat) : Memory :=
  let r := Read m (u16 (dmaAddress.val + i))
  let m := r.2
  let k := m.ppu.regOAMAddr
  { m with ppu := { m.ppu with OAM := fun j => if j = k.val then r.1 else m.ppu.OAM j,
                               regOAMAddr := u8 (k.val + 1) } }

def Write (m : Memory) (address : Word) (data : Byte) : Memory :=
  if address.val < 0x2000 then
    { m with RAM := fun k => if k = address.val % 0x0800 then data else m.RAM k }
  else if address.val ≥ 0x2000 ∧ address.val < 0x4000 then
    { m with ppu := PPU.CPUWrite m.cartridge m.ppu (u16 (0x2000 + address.val % 8)) data }
  else if address.val = 0x4014 then
    let dmaAddress := u16 (data.val <<< 8)
    (List.range 256).foldl (dmaStep dmaAddress) m
  else if address.val = 0x4016 then
    { m with controller := m.controller.Write data }
  else if address.val ≥ 0x8000 then
    m
  else
    m

end Memory

/-! ## Processor core -/

/-- The thirteen addressing-mode member functions a table slot can point to. -/
inductive AddrMode where
  | Implied | Accumulator | Immediate | ZeroPage | ZeroPageX | ZeroPageY | Relative
  | Absolute | AbsoluteX | AbsoluteY | Indirect | IndirectX | IndirectY
  deriving DecidableEq, Repr

/-- The fifty-six operation member functions a table slot can point to. -/
inductive Operation where
  | ADC | AND | ASL | BCC | BCS | BEQ | BIT | BMI | BNE | BPL | BRKInstruction | BVC | BVS
  | CLC | CLD | CLI | CLV | CMP | CPX | CPY | DEC | DEX | DEY | EOR | INC | INX | INY
  | JMP | JSR | LDA | LDX | LDY | LSR | NOP | ORA | PHA | PHP | PLA | PLP | ROL | ROR
  | RTI | RTS | SBC | SEC | SED | SEI | STA | STX | STY | TAX | TAY | TSX | TXA | TXS | TYA
  deriving DecidableEq, Repr

/-- One slot of the opcode table; a member-function pointer is `none` when null. -/
structure Instruction where
  name : String
  operate : Option Operation
  addrmode : Option AddrMode
  cycles : Byte
  deriving DecidableEq

/-- The value-initialised slot that `lookup.resize(256)` creates. -/
instance : Inhabited Instruction := ⟨{ name := "", operate := none, addrmode := none, cycles := 0 }⟩

structure CPU where
  A : Byte
  X : Byte
  Y : Byte
  SP : Byte
  PC : Word
  P : Byte
  cycles : Byte
  running : Bool
  mem : Memory
  lookup : List Instruction
  opcode : Byte
  fetched : Byte
  addr_abs : Word
  addr_rel : Word

namespace CPU

def CARRY : Byte := 0x01
def ZERO : Byte := 0x02
def INTERRUPT : Byte := 0x04
def DECIMAL : Byte := 0x08
def BREAK_FLAG : Byte := 0x10
def UNUSED : Byte := 0x20
def OVERFLOW_FLAG : Byte := 0x40
def NEGATIVE : Byte := 0x80

def Read (s : CPU) (address : Word) : Byte × CPU :=
  let r := s.mem.Read address
  (r.1, { s with mem := r.2 })

def Write (s : CPU) (address : Word) (data : Byte) : CPU :=
  { s with mem := s.mem.Write address data }

def FetchByte (s : CPU) : Byte × CPU :=
  let r := Read s s.PC
  (r.1, { r.2 with PC := u16 (r.2.PC.val + 1) })

def FetchWord (s : CPU) : Word × CPU :=
  let l := FetchByte s
  let h := FetchByte l.2
  (u16 ((h.1.val <<< 8) ||| l.1.val), h.2)

def SetFlag (s : CPU) (flag : Byte) (condition : Bool) : CPU :=
  if condition then { s with P := u8 (s.P.val ||| flag.val) }
  else { s with P := u8 (s.P.val &&& cnot flag.val) }

def GetFlag (s : CPU) (flag : Byte) : Bool :=
  (s.P.val &&& flag.val) != 0

/-- The table slot `lookup[i]`. -/
def slot (s : CPU) (i : Nat) : Instruction := s.lookup.getD i default

def Fetch (s : CPU) : CPU :=
  if !((slot s s.opcode.val).addrmode = some AddrMode.Implied
        || (slot s s.opcode.val).addrmode = some AddrMode.Accumulator) then
    let r := Read s s.addr_abs
    { r.2 with fetched := r.1 }
  else
    { s with fetched := s.A }

/-! ### Addressing modes -/

def Implied (s : CPU) : Byte × CPU := (0, { s with fetched := s.A })

def Accumulator (s : CPU) : Byte × CPU := (0, { s with fetched := s.A })

def Immediate (s : CPU) : Byte × CPU :=
  (0, { s with addr_abs := s.PC, PC := u16 (s.PC.val + 1) })

def ZeroPage (s : CPU) : Byte × CPU :=
  let r := FetchByte s
  let s : CPU := { r.2 with addr_abs := u16 r.1.val }
  (0, { s with addr_abs := u16 (s.addr_abs.val &&& 0x00FF) })

def ZeroPageX (s : CPU) : Byte × CPU :=
  let r := FetchByte s
  (0, { r.2 with addr_abs := u16 ((r.1.val + r.2.X.val) &&& 0x00FF) })

def ZeroPageY (s : CPU) : Byte × CPU :=
  let r := FetchByte s
  (0, { r.2 with addr_abs := u16 ((r.1.val + r.2.Y.val) &&& 0x00FF) })

def Relative (s : CPU) : Byte × CPU :=
  let r := FetchByte s
  let s : CPU := { r.2 with addr_rel := u16 r.1.val }
  if (s.addr_rel.val &&& 0x80) ≠ 0 then
    (0, { s with addr_rel := u16 (s.addr_rel.val ||| 0xFF00) })
  else (0, s)

def Absolute (s : CPU) : Byte × CPU :=
  let l := FetchByte s
  let h := FetchByte l.2
  let low := u16 l.1.val
  let high := u16 h.1.val
  (0, { h.2 with addr_abs := u16 ((high.val <<< 8) ||| low.val) })

def AbsoluteX (s : CPU) : Byte × CPU :=
  let l := FetchByte s
  let h := FetchByte l.2
  let low := u16 l.1.val
  let high := u16 h.1.val
  let s : CPU := { h.2 with addr_abs := u16 ((high.val <<< 8) ||| low.val) }
  let s : CPU := { s with addr_abs := u16 (s.addr_abs.val + s.X.val) }
  if (s.addr_abs.val &&& 0xFF00) ≠ (high.val <<< 8) then (1, s) else (0, s)

def AbsoluteY (s : CPU) : Byte × CPU :=
  let l := FetchByte s
  let h := FetchByte l.2
  let low := u16 l.1.val
  let high := u16 h.1.val
  let s : CPU := { h.2 with addr_abs := u16 ((high.val <<< 8) ||| low.val) }
  let s : CPU := { s with addr_abs := u16 (s.addr_abs.val + s.Y.val) }
  if (s.addr_abs.val &&& 0xFF00) ≠ (high.val <<< 8) then (1, s) else (0, s)

/-- The two reads that are operands of one `|` are taken left to right. -/
def Indirect (s : CPU) : Byte × CPU :=
  let l := FetchByte s
  let ptr := u16 l.1.val
  let h := FetchByte l.2
  let ptr := u16 (ptr.val ||| (h.1.val <<< 8))
  if (ptr.val &&& 0x00FF) = 0x00FF then
    let a := Read h.2 (u16 (ptr.val &&& 0xFF00))
    let b := Read a.2 ptr
    (0, { b.2 with addr_abs := u16 ((a.1.val <<< 8) ||| b.1.val) })
  else
    let a := Read h.2 (u16 (ptr.val + 1))
    let b := Read a.2 ptr
    (0, { b.2 with addr_abs := u16 ((a.1.val <<< 8) ||| b.1.val) })

def IndirectX (s : CPU) : Byte × CPU :=
  let z := FetchByte s
  let zp_addr := z.1
  let ptr := u8 ((zp_addr.val + z.2.X.val) &&& 0x00FF)
  let l := Read z.2 (u16 (ptr.val &&& 0x00FF))
  let h := Read l.2 (u16 ((ptr.val + 1) &&& 0x00FF))
  (0, { h.2 with addr_abs := u16 ((h.1.val <<< 8) ||| l.1.val) })

def IndirectY (s : CPU) : Byte × CPU :=
  let z := FetchByte s
  let zp_addr := z.1
  let l := Read z.2 (u16 (zp_addr.val &&& 0x00FF))
  let h := Read l.2 (u16 ((zp_addr.val + 1) &&& 0x00FF))
  let s : CPU := { h.2 with addr_abs := u16 ((h.1.val <<< 8) ||| l.1.val) }
  let s : CPU := { s with addr_abs := u16 (s.addr_abs.val + s.Y.val) }
  if (s.addr_abs.val &&& 0xFF00) ≠ (h.1.val <<< 8) then (1, s) else (0, s)

/-! ### Operations -/

def ADC (s : CPU) : Byte × CPU :=
  let s := Fetch s
  let temp := u16 (s.A.val + s.fetched.val + (if GetFlag s CARRY then 1 else 0))
  let a := s.A.val
  let s := SetFlag s CARRY (temp.val > 255)
  let s := SetFlag s ZERO ((temp.val &&& 0x00FF) = 0)
  let s := SetFlag s OVERFLOW_FLAG
    (((cnot (a ^^^ s.fetched.val) &&& (a ^^^ temp.val)) &&& 0x0080) ≠ 0)
  let s := SetFlag s NEGATIVE ((temp.val &&& 0x80) ≠ 0)
  (1, { s with A := u8 (temp.val &&& 0x00FF) })

def AND (s : CPU) : Byte × CPU :=
  let s := Fetch s
  let s : CPU := { s with A := u8 (s.A.val &&& s.fetched.val) }
  let s := SetFlag s ZERO (s.A.val = 0x00)
  let s := SetFlag s NEGATIVE ((s.A.val &&& 0x80) ≠ 0)
  (1, s)

def ASL (s : CPU) : Byte × CPU :=
  let s := Fetch s
  let temp := u16 (s.fetched.val <<< 1)
  let s := SetFlag s CARRY ((temp.val &&& 0xFF00) > 0)
  let s := SetFlag s ZERO ((temp.val &&& 0x00FF) = 0x00)
  let s := SetFlag s NEGATIVE ((temp.val &&& 0x80) ≠ 0)
  if (slot s s.opcode.val).addrmode = some AddrMode.Accumulator then
    (0, { s with A := u8 (temp.val &&& 0x00FF) })
  else
    (0, Write s s.addr_abs (u8 (temp.val &&& 0x00FF)))

def BCC (s : CPU) : Byte × CPU :=
  if !GetFlag s CARRY then
    let s : CPU := { s with cycles := u8 (s.cycles.val + 1) }
    let s : CPU := { s with addr_abs := u16 (s.PC.val + s.addr_rel.val) }
    let s : CPU := if (s.addr_abs.val &&& 0xFF00) ≠ (s.PC.val &&& 0xFF00)
      then { s with cycles := u8 (s.cycles.val + 1) } else s
    (0, { s with PC := s.addr_abs })
  else (0, s)

def BCS (s : CPU) : Byte × CPU :=
  if GetFlag s CARRY then
    let s : CPU := { s with cycles := u8 (s.cycles.val + 1) }
    let s : CPU := { s with addr_abs := u16 (s.PC.val + s.addr_rel.val) }
    let s : CPU := if (s.addr_abs.val &&& 0xFF00) ≠ (s.PC.val &&& 0xFF00)
      then { s with cycles := u8 (s.cycles.val + 1) } else s
    (0, { s with PC := s.addr_abs })
  else (0, s)

def BEQ (s : CPU) : Byte × CPU :=
  if GetFlag s ZERO then
    let s : CPU := { s with cycles := u8 (s.cycles.val + 1) }
    let s : CPU := { s with addr_abs := u16 (s.PC.val + s.addr_rel.val) }
    let s : CPU := if (s.addr_abs.val &&& 0xFF00) ≠ (s.PC.val &&& 0xFF00)
      then { s with cycles := u8 (s.cycles.val + 1) } else s
    (0, { s with PC := s.addr_abs })
  else (0, s)

def BIT (s : CPU) : Byte × CPU :=
  let s := Fetch s
  let temp := u8 (s.A.val &&& s.fetched.val)
  let s := SetFlag s ZERO ((temp.val &&& 0x00FF) = 0x00)
  let s := SetFlag s NEGATIVE ((s.fetched.val &&& (1 <<< 7)) ≠ 0)
  let s := SetFlag s OVERFLOW_FLAG ((s.fetched.val &&& (1 <<< 6)) ≠ 0)
  (0, s)

def BMI (s : CPU) : Byte × CPU :=
  if GetFlag s NEGATIVE then
    let s : CPU := { s with cycles := u8 (s.cycles.val + 1) }
    let s : CPU := { s with addr_abs := u16 (s.PC.val + s.addr_rel.val) }
    let s : CPU := if (s.addr_abs.val &&& 0xFF00) ≠ (s.PC.val &&& 0xFF00)
      then { s with cycles := u8 (s.cycles.val + 1) } else s
    (0, { s with PC := s.addr_abs })
  else (0, s)

def BNE (s : CPU) : Byte × CPU :=
  if !GetFlag s ZERO then
    let s : CPU := { s with cycles := u8 (s.cycles.val + 1) }
    let s : CPU := { s with addr_abs := u16 (s.PC.val + s.addr_rel.val) }
    let s : CPU := if (s.addr_abs.val &&& 0xFF00) ≠ (s.PC.val &&& 0xFF00)
      then { s with cycles := u8 (s.cycles.val + 1) } else s
    (0, { s with PC := s.addr_abs })
  else (0, s)

def BPL (s : CPU) : Byte × CPU :=
  if !GetFlag s NEGATIVE then
    let s : CPU := { s with cycles := u8 (s.cycles.val + 1) }
    let s : CPU := { s with addr_abs := u16 (s.PC.val + s.addr_rel.val) }
    let s : CPU := if (s.addr_abs.val &&& 0xFF00) ≠ (s.PC.val &&& 0xFF00)
      then { s with cycles := u8 (s.cycles.val + 1) } else s
    (0, { s with PC := s.addr_abs })
  else (0, s)

/-- The two vector reads that are operands of one `|` are taken left to right. -/
def BRKInstruction (s : CPU) : Byte × CPU :=
  let s : CPU := { s with PC := u16 (s.PC.val + 1) }
  let s := Write s (u16 (0x0100 + s.SP.val)) (u8 ((s.PC.val >>> 8) &&& 0xFF))
  let s : CPU := { s with SP := u8i ((s.SP.val : Int) - 1) }
  let s := Write s (u16 (0x0100 + s.SP.val)) (u8 (s.PC.val &&& 0xFF))
  let s : CPU := { s with SP := u8i ((s.SP.val : Int) - 1) }
  let s := SetFlag s BREAK_FLAG true
  let s := Write s (u16 (0x0100 + s.SP.val)) (u8 (s.P.val ||| BREAK_FLAG.val ||| UNUSED.val))
  let s : CPU := { s with SP := u8i ((s.SP.val : Int) - 1) }
  let s := SetFlag s INTERRUPT true
  let s := SetFlag s BREAK_FLAG false
  let l := Read s 0xFFFE
  let h := Read l.2 0xFFFF
  (0, { h.2 with PC := u16 (l.1.val ||| (h.1.val <<< 8)), cycles := 7 })

def BVC (s : CPU) : Byte × CPU :=
  if !GetFlag s OVERFLOW_FLAG then
    let s : CPU := { s with cycles := u8 (s.cycles.val + 1) }
    let s : CPU := { s with addr_abs := u16 (s.PC.val + s.addr_rel.val) }
    let s : CPU := if (s.addr_abs.val &&& 0xFF00) ≠ (s.PC.val &&& 0xFF00)
      then { s with cycles := u8 (s.cycles.val + 1) } else s
    (0, { s with PC := s.addr_abs })
  else (0, s)

def BVS (s : CPU) : Byte × CPU :=
  if GetFlag s OVERFLOW_FLAG then
    let s : CPU := { s with cycles := u8 (s.cycles.val + 1) }
    let s : CPU := { s with addr_abs := u16 (s.PC.val + s.addr_rel.val) }
    let s : CPU := if (s.addr_abs.val &&& 0xFF00) ≠ (s.PC.val &&& 0xFF00)
      then { s with cycles := u8 (s.cycles.val + 1) } else s
    (0, { s with PC := s.addr_abs })
  else (0, s)

def CLC (s : CPU) : Byte × CPU := (0, SetFlag s CARRY false)

def CLD (s : CPU) : Byte × CPU := (0, SetFlag s DECIMAL false)

def CLI (s : CPU) : Byte × CPU := (0, SetFlag s INTERRUPT false)

def CLV (s : CPU) : Byte × CPU := (0, SetFlag s OVERFLOW_FLAG false)

def CMP (s : CPU) : Byte × CPU :=
  let s := Fetch s
  let temp := u16i ((s.A.val : Int) - (s.fetched.val : Int))
  let s := SetFlag s CARRY (s.A.val ≥ s.fetched.val)
  let s := SetFlag s ZERO ((temp.val &&& 0x00FF) = 0x0000)
  let s := SetFlag s NEGATIVE ((temp.val &&& 0x0080) ≠ 0)
  (1, s)

def CPX (s : CPU) : Byte × CPU :=
  let s := Fetch s
  let temp := u16i ((s.X.val : Int) - (s.fetched.val : Int))
  let s := SetFlag s CARRY (s.X.val ≥ s.fetched.val)
  let s := SetFlag s ZERO ((temp.val &&& 0x00FF) = 0x0000)
  let s := SetFlag s NEGATIVE ((temp.val &&& 0x0080) ≠ 0)
  (0, s)

def CPY (s : CPU) : Byte × CPU :=
  let s := Fetch s
  let temp := u16i ((s.Y.val : Int) - (s.fetched.val : Int))
  let s := SetFlag s CARRY (s.Y.val ≥ s.fetched.val)
  let s := SetFlag s ZERO ((temp.val &&& 0x00FF) = 0x0000)
  let s := SetFlag s NEGATIVE ((temp.val &&& 0x0080) ≠ 0)
  (0, s)

def DEC (s : CPU) : Byte × CPU :=
  let s := Fetch s
  let temp := u8i ((s.fetched.val : Int) - 1)
  let s := Write s s.addr_abs temp
  let s := SetFlag s ZERO (temp.val = 0x00)
  let s := SetFlag s NEGATIVE ((temp.val &&& 0x80) ≠ 0)
  (0, s)

def DEX (s : CPU) : Byte × CPU :=
  let s : CPU := { s with X := u8i ((s.X.val : Int) - 1) }
  let s := SetFlag s ZERO (s.X.val = 0x00)
  let s := SetFlag s NEGATIVE ((s.X.val &&& 0x80) ≠ 0)
  (0, s)

def DEY (s : CPU) : Byte × CPU :=
  let s : CPU := { s with Y := u8i ((s.Y.val : Int) - 1) }
  let s := SetFlag s ZERO (s.Y.val = 0x00)
  let s := SetFlag s NEGATIVE ((s.Y.val &&& 0x80) ≠ 0)
  (0, s)

def EOR (s : CPU) : Byte × CPU :=
  let s := Fetch s
  let s : CPU := { s with A := u8 (s.A.val ^^^ s.fetched.val) }
  let s := SetFlag s ZERO (s.A.val = 0x00)
  let s := SetFlag s NEGATIVE ((s.A.val &&& 0x80) ≠ 0)
  (1, s)

def INC (s : CPU) : Byte × CPU :=
  let s := Fetch s
  let temp := u8 (s.fetched.val + 1)
  let s := Write s s.addr_abs temp
  let s := SetFlag s ZERO (temp.val = 0x00)
  let s := SetFlag s NEGATIVE ((temp.val &&& 0x80) ≠ 0)
  (0, s)

def INX (s : CPU) : Byte × CPU :=
  let s : CPU := { s with X := u8 (s.X.val + 1) }
  let s := SetFlag s ZERO (s.X.val = 0x00)
  let s := SetFlag s NEGATIVE ((s.X.val &&& 0x80) ≠ 0)
  (0, s)

def INY (s : CPU) : Byte × CPU :=
  let s : CPU := { s with Y := u8 (s.Y.val + 1) }
  let s := SetFlag s ZERO (s.Y.val = 0x00)
  let s := SetFlag s NEGATIVE ((s.Y.val &&& 0x80) ≠ 0)
  (0, s)

def JMP (s : CPU) : Byte × CPU := (0, { s with PC := s.addr_abs })

def JSR (s : CPU) : Byte × CPU :=
  let s : CPU := { s with PC := u16i ((s.PC.val : Int) - 1) }
  let s := Write s (u16 (0x0100 + s.SP.val)) (u8 ((s.PC.val >>> 8) &&& 0xFF))
  let s : CPU := { s with SP := u8i ((s.SP.val : Int) - 1) }
  let s := Write s (u16 (0x0100 + s.SP.val)) (u8 (s.PC.val &&& 0xFF))
  let s : CPU := { s with SP := u8i ((s.SP.val : Int) - 1) }
  (0, { s with PC := s.addr_abs })

def LDA (s : CPU) : Byte × CPU :=
  let s := Fetch s
  let s : CPU := { s with A := s.fetched }
  let s := SetFlag s ZERO (s.A.val = 0x00)
  let s := SetFlag s NEGATIVE ((s.A.val &&& 0x80) ≠ 0)
  (1, s)

def LDX (s : CPU) : Byte × CPU :=
  let s := Fetch s
  let s : CPU := { s with X := s.fetched }
  let s := SetFlag s ZERO (s.X.val = 0x00)
  let s := SetFlag s NEGATIVE ((s.X.val &&& 0x80) ≠ 0)
  (1, s)

def LDY (s : CPU) : Byte × CPU :=
  let s := Fetch s
  let s : CPU := { s with Y := s.fetched }
  let s := SetFlag s ZERO (s.Y.val = 0x00)
  let s := SetFlag s NEGATIVE ((s.Y.val &&& 0x80) ≠ 0)
  (1, s)

def LSR (s : CPU) : Byte × CPU :=
  let s := Fetch s
  let s := SetFlag s CARRY ((s.fetched.val &&& 0x01) ≠ 0)
  let temp := u8 (s.fetched.val >>> 1)
  let s := SetFlag s ZERO (temp.val = 0x00)
  let s := SetFlag s NEGATIVE ((temp.val &&& 0x80) ≠ 0)
  if (slot s s.opcode.val).addrmode = some AddrMode.Accumulator then
    (0, { s with A := temp })
  else
    (0, Write s s.addr_abs temp)

def NOP (s : CPU) : Byte × CPU := (0, s)

def ORA (s : CPU) : Byte × CPU :=
  let s := Fetch s
  let s : CPU := { s with A := u8 (s.A.val ||| s.fetched.val) }
  let s := SetFlag s ZERO (s.A.val = 0x00)
  let s := SetFlag s NEGATIVE ((s.A.val &&& 0x80) ≠ 0)
  (1, s)

def PHA (s : CPU) : Byte × CPU :=
  let s := Write s (u16 (0x0100 + s.SP.val)) s.A
  (0, { s with SP := u8i ((s.SP.val : Int) - 1) })

def PHP (s : CPU) : Byte × CPU :=
  let s := Write s (u16 (0x0100 + s.SP.val)) (u8 (s.P.val ||| BREAK_FLAG.val ||| UNUSED.val))
  (0, { s with SP := u8i ((s.SP.val : Int) - 1) })

def PLA (s : CPU) : Byte × CPU :=
  let s : CPU := { s with SP := u8 (s.SP.val + 1) }
  let r := Read s (u16 (0x0100 + s.SP.val))
  let s : CPU := { r.2 with A := r.1 }
  let s := SetFlag s ZERO (s.A.val = 0x00)
  let s := SetFlag s NEGATIVE ((s.A.val &&& 0x80) ≠ 0)
  (0, s)

def PLP (s : CPU) : Byte × CPU :=
  let s : CPU := { s with SP := u8 (s.SP.val + 1) }
  let r := Read s (u16 (0x0100 + s.SP.val))
  let s : CPU := { r.2 with P := r.1 }
  (0, SetFlag s UNUSED true)

def ROL (s : CPU) : Byte × CPU :=
  let s := Fetch s
  let temp := u16 ((u16 (s.fetched.val <<< 1)).val ||| (if GetFlag s CARRY then 1 else 0))
  let s := SetFlag s CARRY ((temp.val &&& 0xFF00) ≠ 0)
  let s := SetFlag s ZERO ((temp.val &&& 0x00FF) = 0x00)
  let s := SetFlag s NEGATIVE ((temp.val &&& 0x80) ≠ 0)
  if (slot s s.opcode.val).addrmode = some AddrMode.Accumulator then
    (0, { s with A := u8 (temp.val &&& 0x00FF) })
  else
    (0, Write s s.addr_abs (u8 (temp.val &&& 0x00FF)))

def ROR (s : CPU) : Byte × CPU :=
  let s := Fetch s
  let temp := u16 ((u16 (if GetFlag s CARRY then 0x80 else 0x00)).val ||| (s.fetched.val >>> 1))
  let s := SetFlag s CARRY ((s.fetched.val &&& 0x01) ≠ 0)
  let s := SetFlag s ZERO ((temp.val &&& 0x00FF) = 0x00)
  let s := SetFlag s NEGATIVE ((temp.val &&& 0x80) ≠ 0)
  if (slot s s.opcode.val).addrmode = some AddrMode.Accumulator then
    (0, { s with A := u8 (temp.val &&& 0x00FF) })
  else
    (0, Write s s.addr_abs (u8 (temp.val &&& 0x00FF)))

def RTI (s : CPU) : Byte × CPU :=
  let s : CPU := { s with SP := u8 (s.SP.val + 1) }
  let r := Read s (u16 (0x0100 + s.SP.val))
  let s : CPU := { r.2 with P := r.1 }
  let s : CPU := { s with P := u8 (s.P.val &&& cnot BREAK_FLAG.val) }
  let s : CPU := { s with P := u8 (s.P.val &&& cnot UNUSED.val) }
  let s : CPU := { s with SP := u8 (s.SP.val + 1) }
  let l := Read s (u16 (0x0100 + s.SP.val))
  let s : CPU := { l.2 with SP := u8 (l.2.SP.val + 1) }
  let h := Read s (u16 (0x0100 + s.SP.val))
  let low := u16 l.1.val
  let high := u16 h.1.val
  (0, { h.2 with PC := u16 ((high.val <<< 8) ||| low.val) })

def RTS (s : CPU) : Byte × CPU :=
  let s : CPU := { s with SP := u8 (s.SP.val + 1) }
  let l := Read s (u16 (0x0100 + s.SP.val))
  let s : CPU := { l.2 with SP := u8 (l.2.SP.val + 1) }
  let h := Read s (u16 (0x0100 + s.SP.val))
  let low := u16 l.1.val
  let high := u16 h.1.val
  let s : CPU := { h.2 with PC := u16 ((high.val <<< 8) ||| low.val) }
  (0, { s with PC := u16 (s.PC.val + 1) })

def SBC (s : CPU) : Byte × CPU :=
  let s := Fetch s
  let value := u16 (s.fetched.val ^^^ 0x00FF)
  let temp := u16 (s.A.val + value.val + (if GetFlag s CARRY then 1 else 0))
  let a := s.A.val
  let s := SetFlag s CARRY ((temp.val &&& 0xFF00) ≠ 0)
  let s := SetFlag s ZERO ((temp.val &&& 0x00FF) = 0)
  let s := SetFlag s OVERFLOW_FLAG
    ((((temp.val ^^^ a) &&& (temp.val ^^^ value.val)) &&& 0x0080) ≠ 0)
  let s := SetFlag s NEGATIVE ((temp.val &&& 0x80) ≠ 0)
  (1, { s with A := u8 (temp.val &&& 0x00FF) })

def SEC (s : CPU) : Byte × CPU := (0, SetFlag s CARRY true)

def SED (s : CPU) : Byte × CPU := (0, SetFlag s DECIMAL true)

def SEI (s : CPU) : Byte × CPU := (0, SetFlag s INTERRUPT true)

def STA (s : CPU) : Byte × CPU := (0, Write s s.addr_abs s.A)

def STX (s : CPU) : Byte × CPU := (0, Write s s.addr_abs s.X)

def STY (s : CPU) : Byte × CPU := (0, Write s s.addr_abs s.Y)

def TAX (s : CPU) : Byte × CPU :=
  let s : CPU := { s with X := s.A }
  let s := SetFlag s ZERO (s.X.val = 0x00)
  let s := SetFlag s NEGATIVE ((s.X.val &&& 0x80) ≠ 0)
  (0, s)

def TAY (s : CPU) : Byte × CPU :=
  let s : CPU := { s with Y := s.A }
  let s := SetFlag s ZERO (s.Y.val = 0x00)
  let s := SetFlag s NEGATIVE ((s.Y.val &&& 0x80) ≠ 0)
  (0, s)

def TSX (s : CPU) : Byte × CPU :=
  let s : CPU := { s with X := s.SP }
  let s := SetFlag s ZERO (s.X.val = 0x00)
  let s := SetFlag s NEGATIVE ((s.X.val &&& 0x80) ≠ 0)
  (0, s)

def TXA (s : CPU) : Byte × CPU :=
  let s : CPU := { s with A := s.X }
  let s := SetFlag s ZERO (s.A.val = 0x00)
  let s := SetFlag s NEGATIVE ((s.A.val &&& 0x80) ≠ 0)
  (0, s)

def TXS (s : CPU) : Byte × CPU := (0, { s with SP := s.X })

def TYA (s : CPU) : Byte × CPU :=
  let s : CPU := { s with A := s.Y }
  let s := SetFlag s ZERO (s.A.val = 0x00)
  let s := SetFlag s NEGATIVE ((s.A.val &&& 0x80) ≠ 0)
  (0, s)

/-! ### Dispatch through the member-function pointers of a table slot -/

/-- Call through an addressing-mode pointer, `(this->*addrmode)()`.  A call through a null
pointer is undefined in C++; it is given the value `(0, s)` here. -/
def callAddrmode (f : Option AddrMode) (s : CPU) : Byte × CPU :=
  match f with
  | none => (0, s)
  | some AddrMode.Implied => Implied s
  | some AddrMode.Accumulator => Accumulator s
  | some AddrMode.Immediate => Immediate s
  | some AddrMode.ZeroPage => ZeroPage s
  | some AddrMode.ZeroPageX => ZeroPageX s
  | some AddrMode.ZeroPageY => ZeroPageY s
  | some AddrMode.Relative => Relative s
  | some AddrMode.Absolute => Absolute s
  | some AddrMode.AbsoluteX => AbsoluteX s
  | some AddrMode.AbsoluteY => AbsoluteY s
  | some AddrMode.Indirect => Indirect s
  | some AddrMode.IndirectX => IndirectX s
  | some AddrMode.IndirectY => IndirectY s

/-- Call through an operation pointer, `(this->*operate)()`.  The null case is excluded by the
guard in `ExecuteInstruction`; it is given the value `(0, s)` here. -/
def callOperate (f : Option Operation) (s : CPU) : Byte × CPU :=
  match f with
  | none => (0, s)
  | some Operation.ADC => ADC s
  | some Operation.AND => AND s
  | some Operation.ASL => ASL s
  | some Operation.BCC => BCC s
  | some Operation.BCS => BCS s
  | some Operation.BEQ => BEQ s
  | some Operation.BIT => BIT s
  | some Operation.BMI => BMI s
  | some Operation.BNE => BNE s
  | some Operation.BPL => BPL s
  | some Operation.BRKInstruction => BRKInstruction s
  | some Operation.BVC => BVC s
  | some Operation.BVS => BVS s
  | some Operation.CLC => CLC s
  | some Operation.CLD => CLD s
  | some Operation.CLI => CLI s
  | some Operation.CLV => CLV s
  | some Operation.CMP => CMP s
  | some Operation.CPX => CPX s
  | some Operation.CPY => CPY s
  | some Operation.DEC => DEC s
  | some Operation.DEX => DEX s
  | some Operation.DEY => DEY s
  | some Operation.EOR => EOR s
  | some Operation.INC => INC s
  | some Operation.INX => INX s
  | some Operation.INY => INY s
  | some Operation.JMP => JMP s
  | some Operation.JSR => JSR s
  | some Operation.LDA => LDA s
  | some Operation.LDX => LDX s
  | some Operation.LDY => LDY s
  | some Operation.LSR => LSR s
  | some Operation.NOP => NOP s
  | some Operation.ORA => ORA s
  | some Operation.PHA => PHA s
  | some Operation.PHP => PHP s
  | some Operation.PLA => PLA s
  | some Operation.PLP => PLP s
  | some Operation.ROL => ROL s
  | some Operation.ROR => ROR s
  | some Operation.RTI => RTI s
  | some Operation.RTS => RTS s
  | some Operation.SBC => SBC s
  | some Operation.SEC => SEC s
  | some Operation.SED => SED s
  | some Operation.SEI => SEI s
  | some Operation.STA => STA s
  | some Operation.STX => STX s
  | some Operation.STY => STY s
  | some Operation.TAX => TAX s
  | some Operation.TAY => TAY s
  | some Operation.TSX => TSX s
  | some Operation.TXA => TXA s
  | some Operation.TXS => TXS s
  | some Operation.TYA => TYA s

/-! ### The opcode table -/

/-- The vector after `resize(n)`: truncated, or padded with value-initialised slots. -/
def resize (l : List Instruction) (n : Nat) : List Instruction :=
  (l ++ List.replicate (n - l.length) default).take n

/-- One round of the default-fill loop: slot `i` becomes the NOP descriptor when its name is
empty. -/
def fillNOP (t : List Instruction) (i : Nat) : List Instruction :=
  if (t.getD i default).name = "" then
    t.set i { name := "NOP", operate := some Operation.NOP, addrmode := some AddrMode.Implied,
              cycles := 2 }
  else t

/-- The assignments `lookup[op] = { name, operate, addrmode, cycles }`, in source order. -/
def assigned : List (Nat × Instruction) :=
  [
    (0x69, { name := "ADC", operate := some Operation.ADC, addrmode := some AddrMode.Immediate, cycles := 2 }),
    (0x65, { name := "ADC", operate := some Operation.ADC, addrmode := some AddrMode.ZeroPage, cycles := 3 }),
    (0x75, { name := "ADC", operate := some Operation.ADC, addrmode := some AddrMode.ZeroPageX, cycles := 4 }),
    (0x6D, { name := "ADC", operate := some Operation.ADC, addrmode := some AddrMode.Absolute, cycles := 4 }),
    (0x7D, { name := "ADC", operate := some Operation.ADC, addrmode := some AddrMode.AbsoluteX, cycles := 4 }),
    (0x79, { name := "ADC", operate := some Operation.ADC, addrmode := some AddrMode.AbsoluteY, cycles := 4 }),
    (0x61, { name := "ADC", operate := some Operation.ADC, addrmode := some AddrMode.IndirectX, cycles := 6 }),
    (0x71, { name := "ADC", operate := some Operation.ADC, addrmode := some AddrMode.IndirectY, cycles := 5 }),
    (0x29, { name := "AND", operate := some Operation.AND, addrmode := some AddrMode.Immediate, cycles := 2 }),
    (0x25, { name := "AND", operate := some Operation.AND, addrmode := some AddrMode.ZeroPage, cycles := 3 }),
    (0x35, { name := "AND", operate := some Operation.AND, addrmode := some AddrMode.ZeroPageX, cycles := 4 }),
    (0x2D, { name := "AND", operate := some Operation.AND, addrmode := some AddrMode.Absolute, cycles := 4 }),
    (0x3D, { name := "AND", operate := some Operation.AND, addrmode := some AddrMode.AbsoluteX, cycles := 4 }),
    (0x39, { name := "AND", operate := some Operation.AND, addrmode := some AddrMode.AbsoluteY, cycles := 4 }),
    (0x21, { name := "AND", operate := some Operation.AND, addrmode := some AddrMode.IndirectX, cycles := 6 }),
    (0x31, { name := "AND", operate := some Operation.AND, addrmode := some AddrMode.IndirectY, cycles := 5 }),
    (0x0A, { name := "ASL", operate := some Operation.ASL, addrmode := some AddrMode.Accumulator, cycles := 2 }),
    (0x06, { name := "ASL", operate := some Operation.ASL, addrmode := some AddrMode.ZeroPage, cycles := 5 }),
    (0x16, { name := "ASL", operate := some Operation.ASL, addrmode := some AddrMode.ZeroPageX, cycles := 6 }),
    (0x0E, { name := "ASL", operate := some Operation.ASL, addrmode := some AddrMode.Absolute, cycles := 6 }),
    (0x1E, { name := "ASL", operate := some Operation.ASL, addrmode := some AddrMode.AbsoluteX, cycles := 7 }),
    (0x90, { name := "BCC", operate := some Operation.BCC, addrmode := some AddrMode.Relative, cycles := 2 }),
    (0xA9, { name := "LDA", operate := some Operation.LDA, addrmode := some AddrMode.Immediate, cycles := 2 }),
    (0xA5, { name := "LDA", operate := some Operation.LDA, addrmode := some AddrMode.ZeroPage, cycles := 3 }),
    (0xB5, { name := "LDA", operate := some Operation.LDA, addrmode := some AddrMode.ZeroPageX, cycles := 4 }),
    (0xAD, { name := "LDA", operate := some Operation.LDA, addrmode := some AddrMode.Absolute, cycles := 4 }),
    (0xBD, { name := "LDA", operate := some Operation.LDA, addrmode := some AddrMode.AbsoluteX, cycles := 4 }),
    (0xB9, { name := "LDA", operate := some Operation.LDA, addrmode := some AddrMode.AbsoluteY, cycles := 4 }),
    (0xA1, { name := "LDA", operate := some Operation.LDA, addrmode := some AddrMode.IndirectX, cycles := 6 }),
    (0xB1, { name := "LDA", operate := some Operation.LDA, addrmode := some AddrMode.IndirectY, cycles := 5 }) ]

/-- The table that `InitializeOpcodeTable` builds from the vector `old`: `resize(256)`, the
assignments, then the default-fill loop over `i = 0 .. 255`. -/
@[irreducible] def opcodeTable (old : List Instruction) : List Instruction :=
  let t := resize old 256
  let t := assigned.foldl (fun t e => t.set e.1 e.2) t
  (List.range 256).foldl fillNOP t

def InitializeOpcodeTable (s : CPU) : CPU :=
  { s with lookup := opcodeTable s.lookup }

/-! ### Reset, step and interrupt -/

def Reset (s : CPU) : CPU :=
  let s : CPU := { s with A := 0, X := 0, Y := 0 }
  let s : CPU := { s with SP := 0xFD }
  let s : CPU := { s with P := 0x24 }
  let l := Read s 0xFFFC
  let h := Read l.2 0xFFFD
  let low := u16 l.1.val
  let high := u16 h.1.val
  let s : CPU := { h.2 with PC := u16 ((high.val <<< 8) ||| low.val) }
  { s with addr_abs := 0, addr_rel := 0, fetched := 0, cycles := 8 }

def ExecuteInstruction (s : CPU) : CPU :=
  if !s.running then s
  else if s.cycles.val = 0 then
    let r := FetchByte s
    let s : CPU := { r.2 with opcode := r.1 }
    if s.opcode.val ≥ s.lookup.length ∨ (slot s s.opcode.val).operate = none then
      { s with running := false }
    else
      let s : CPU := { s with cycles := (slot s s.opcode.val).cycles }
      let a1 := callAddrmode (slot s s.opcode.val).addrmode s
      let a2 := callOperate (slot a1.2 a1.2.opcode.val).operate a1.2
      let s : CPU := { a2.2 with cycles := u8 (a2.2.cycles.val + (a1.1.val &&& a2.1.val)) }
      { s with cycles := u8i ((s.cycles.val : Int) - 1) }
  else
    { s with cycles := u8i ((s.cycles.val : Int) - 1) }

def NMI (s : CPU) : CPU :=
  let s := Write s (u16 (0x0100 + s.SP.val)) (u8 ((s.PC.val >>> 8) &&& 0xFF))
  let s : CPU := { s with SP := u8i ((s.SP.val : Int) - 1) }
  let s := Write s (u16 (0x0100 + s.SP.val)) (u8 (s.PC.val &&& 0xFF))
  let s : CPU := { s with SP := u8i ((s.SP.val : Int) - 1) }
  let s := SetFlag s BREAK_FLAG false
  let s := SetFlag s UNUSED true
  let s := SetFlag s INTERRUPT true
  let s := Write s (u16 (0x0100 + s.SP.val)) (u8 (s.P.val ||| UNUSED.val))
  let s : CPU := { s with SP := u8i ((s.SP.val : Int) - 1) }
  let l := Read s 0xFFFA
  let h := Read l.2 0xFFFB
  let low := u16 l.1.val
  let high := u16 h.1.val
  { h.2 with PC := u16 ((high.val <<< 8) ||| low.val), cycles := 7 }

end CPU

end NES

/-! # Specification vocabulary and example states -/

namespace NES

namespace CPU

/-- The status byte that `SetFlag(flag, condition)` leaves. -/
def setP (P flag : Byte) (b : Bool) : Byte :=
  if b then u8 (P.val ||| flag.val) else u8 (P.val &&& cnot flag.val)

/-- Two's-complement reading of a byte. -/
def signed8 (x : Nat) : Int := if x < 128 then (x : Int) else (x : Int) - 256

/-- What a compare of the register value `R` with the operand `M` leaves: `s` is the state on
entry and `r` the state on exit.  The storage arrays on the bus (RAM, cartridge, OAM,
nametables, palette, pattern RAM) are the memory that stays unchanged. -/
def CompareSpec (R M : Nat) (s r : CPU) : Prop :=
  (GetFlag r CARRY = true ↔ R ≥ M) ∧
  (GetFlag r ZERO = true ↔ R = M) ∧
  GetFlag r NEGATIVE = (((R : Int) - (M : Int)) % 256).toNat.testBit 7 ∧
  r.A = s.A ∧ r.X = s.X ∧ r.Y = s.Y ∧ r.SP = s.SP ∧
  GetFlag r OVERFLOW_FLAG = GetFlag s OVERFLOW_FLAG ∧
  r.mem.RAM = s.mem.RAM ∧ r.mem.cartridge = s.mem.cartridge ∧
  r.mem.ppu.OAM = s.mem.ppu.OAM ∧ r.mem.ppu.nameTable = s.mem.ppu.nameTable ∧
  r.mem.ppu.palette = s.mem.ppu.palette ∧ r.mem.ppu.chrRam = s.mem.ppu.chrRam

/-- The body shared by the eight branch routines, entered when the tested condition holds. -/
def branchTaken (s : CPU) : Byte × CPU :=
  let s : CPU := { s with cycles := u8 (s.cycles.val + 1) }
  let s : CPU := { s with addr_abs := u16 (s.PC.val + s.addr_rel.val) }
  let s : CPU := if (s.addr_abs.val &&& 0xFF00) ≠ (s.PC.val &&& 0xFF00)
    then { s with cycles := u8 (s.cycles.val + 1) } else s
  (0, { s with PC := s.addr_abs })

/-- What a branch routine leaves.  `s` is the state after the offset byte `off` was fetched,
`r` the state on exit, `taken` the tested flag condition; `T` is the branch target.  The cycle
counter is an 8-bit counter. -/
def BranchSpec (taken : Bool) (off : Nat) (s r : CPU) : Prop :=
  let T := (((s.PC.val : Int) + signed8 off) % 65536).toNat
  if taken then
    r.PC.val = T ∧
    r.cycles.val = (s.cycles.val + (if T / 256 = s.PC.val / 256 then 1 else 2)) % 256 ∧
    r.A = s.A ∧ r.X = s.X ∧ r.Y = s.Y ∧ r.SP = s.SP ∧ r.P = s.P ∧ r.mem = s.mem ∧
    r.running = s.running
  else r = s

/-- What `NMI` leaves, from state `s` to state `r`: the three pushes in order (program
counter high byte at `0x0100 + SP`, low byte one below, then the status byte with break clear
and unused and interrupt-disable set, each index wrapping within page 1), the stack pointer
three lower, the program counter loaded from the vector at `0xFFFA`/`0xFFFB`, seven pending
cycles, and `A`, `X`, `Y` unchanged. -/
def NMISpec (s r : CPU) : Prop :=
  let a1 := 0x0100 + s.SP.val
  let a2 := 0x0100 + (((s.SP.val : Int) - 1) % 256).toNat
  let a3 := 0x0100 + (((s.SP.val : Int) - 2) % 256).toNat
  let hi : Byte := u8 (s.PC.val / 256)
  let lo : Byte := u8 (s.PC.val % 256)
  let st : Byte := u8 ((s.P.val &&& 0xEF) ||| 0x24)
  r.mem = ((s.mem.Write (u16 a1) hi).Write (u16 a2) lo).Write (u16 a3) st ∧
  r.mem.RAM = (fun k => if k = a3 then st else if k = a2 then lo else if k = a1 then hi
    else s.mem.RAM k) ∧
  r.mem.cartridge = s.mem.cartridge ∧ r.mem.ppu = s.mem.ppu ∧
  r.mem.controller = s.mem.controller ∧
  r.SP.val = (((s.SP.val : Int) - 3) % 256).toNat ∧
  r.PC.val = (s.mem.Read 0xFFFA).1.val ||| ((s.mem.Read 0xFFFB).1.val <<< 8) ∧
  (s.mem.Read 0xFFFA).1 =
    s.mem.cartridge.PRG_ROM.getD (0x7FFA % s.mem.cartridge.PRG_ROM.length) 0 ∧
  (s.mem.Read 0xFFFB).1 =
    s.mem.cartridge.PRG_ROM.getD (0x7FFB % s.mem.cartridge.PRG_ROM.length) 0 ∧
  r.cycles.val = 7 ∧ r.P = st ∧ r.A = s.A ∧ r.X = s.X ∧ r.Y = s.Y

/-- The code byte at `PC`. -/
def codeLo (s : CPU) : Byte := (s.mem.Read s.PC).1

/-- The code byte at `PC + 1`, read after the byte at `PC`. -/
def codeHi (s : CPU) : Byte := ((s.mem.Read s.PC).2.Read (u16 (s.PC.val + 1))).1

/-- The bus after the two code bytes at `PC` and `PC + 1` were read. -/
def busAfterOperand (s : CPU) : Memory := ((s.mem.Read s.PC).2.Read (u16 (s.PC.val + 1))).2

/-- The 16-bit little-endian word formed by the two code bytes at `PC`. -/
def operand16 (s : CPU) : Nat := (codeLo s).val + 256 * (codeHi s).val

/-- A bus address whose read leaves the bus as it was: outside the picture-unit register
window `0x2000 .. 0x3FFF` and not the controller port `0x4016`. -/
def sideEffectFree (a : Nat) : Prop := ¬ (0x2000 ≤ a ∧ a < 0x4000) ∧ a ≠ 0x4016

instance (a : Nat) : Decidable (sideEffectFree a) := by
  unfold sideEffectFree
  exact inferInstance

/-- The address the high byte of an indirect target is read from: the start of the pointer's
own page when the pointer's low byte is `0xFF`, the next address otherwise. -/
def indirectHigh (p : Nat) : Nat :=
  if p % 256 = 0xFF then p &&& 0xFF00 else (p + 1) % 65536

/-- What `Indirect` returns from state `s`, with `p` the pointer in the two code bytes at
`PC` and the target bytes read from the bus as it is after those two code reads. -/
def IndirectSpec (s : CPU) (r : Byte × CPU) : Prop :=
  let p := operand16 s
  let m := busAfterOperand s
  r.1 = 0 ∧ r.2.PC.val = (s.PC.val + 2) % 65536 ∧
  r.2.addr_abs.val = (m.Read (u16 p)).1.val ||| ((m.Read (u16 (indirectHigh p))).1.val <<< 8) ∧
  r.2.mem = m

/-- The opcode bytes that `InitializeOpcodeTable` assigns before its default-fill loop. -/
def assignedOpcodes : List Nat := assigned.map Prod.fst

/-- The descriptor the default-fill loop stores. -/
def nopDescriptor : Instruction :=
  { name := "NOP", operate := some Operation.NOP, addrmode := some AddrMode.Implied, cycles := 2 }

/-- The state in which `ExecuteInstruction` enters the addressing-mode routine: the opcode at
`PC` is fetched and latched and the counter holds the descriptor's base cost. -/
def decoded (s : CPU) : CPU :=
  { (FetchByte s).2 with opcode := (FetchByte s).1,
                         cycles := (slot s (FetchByte s).1.val).cycles }

/-- Penalty signal and state that the opcode's addressing-mode routine returns. -/
def afterAddr (s : CPU) : Byte × CPU :=
  callAddrmode (slot s (FetchByte s).1.val).addrmode (decoded s)

/-- Penalty signal and state that the opcode's operation routine returns. -/
def afterOp (s : CPU) : Byte × CPU :=
  callOperate (slot s (FetchByte s).1.val).operate (afterAddr s).2

/-- What `Reset` leaves, from state `s` to state `r`: cleared registers, stack pointer `0xFD`,
status `0x24`, the program counter loaded from the vector at `0xFFFC`/`0xFFFD` (two bytes of
program storage), eight pending cycles and the bus as it was. -/
def ResetSpec (s r : CPU) : Prop :=
  r.A.val = 0 ∧ r.X.val = 0 ∧ r.Y.val = 0 ∧ r.SP.val = 0xFD ∧ r.P.val = 0x24 ∧
  r.PC.val = (s.mem.Read 0xFFFC).1.val ||| ((s.mem.Read 0xFFFD).1.val <<< 8) ∧
  (s.mem.Read 0xFFFC).1 =
    s.mem.cartridge.PRG_ROM.getD (0x7FFC % s.mem.cartridge.PRG_ROM.length) 0 ∧
  (s.mem.Read 0xFFFD).1 =
    s.mem.cartridge.PRG_ROM.getD (0x7FFD % s.mem.cartridge.PRG_ROM.length) 0 ∧
  r.cycles.val = 8 ∧ r.mem = s.mem

/-- What `BRKInstruction` leaves, from state `s` (program counter just past the opcode) to
state `r`: the return address `(PC + 1) mod 65536` pushed high byte first, then the status
byte with break and unused forced set, each at its page-1 address; the stack pointer three
lower; interrupt-disable set and break clear in the status register; the program counter
loaded from the vector at `0xFFFE`/`0xFFFF`; seven pending cycles. -/
def BRKSpec (s r : CPU) : Prop :=
  let ret := (s.PC.val + 1) % 65536
  let a1 := 0x0100 + s.SP.val
  let a2 := 0x0100 + (((s.SP.val : Int) - 1) % 256).toNat
  let a3 := 0x0100 + (((s.SP.val : Int) - 2) % 256).toNat
  let hi : Byte := u8 (ret / 256)
  let lo : Byte := u8 (ret % 256)
  let st : Byte := u8 (s.P.val ||| 0x30)
  r.mem = ((s.mem.Write (u16 a1) hi).Write (u16 a2) lo).Write (u16 a3) st ∧
  r.mem.RAM = (fun k => if k = a3 then st else if k = a2 then lo else if k = a1 then hi
    else s.mem.RAM k) ∧
  r.SP.val = (((s.SP.val : Int) - 3) % 256).toNat ∧
  GetFlag r INTERRUPT = true ∧ GetFlag r BREAK_FLAG = false ∧
  r.P = u8 ((s.P.val ||| 0x04) &&& 0xEF) ∧
  r.PC.val = (s.mem.Read 0xFFFE).1.val ||| ((s.mem.Read 0xFFFF).1.val <<< 8) ∧
  r.cycles.val = 7 ∧ r.A = s.A ∧ r.X = s.X ∧ r.Y = s.Y

/-- What `RTI` leaves, from state `s` to state `r`: the status register pulled from
`0x0100 + (SP + 1) mod 256` with break and unused cleared, the program counter pulled low byte
first from the next two page-1 addresses, the stack pointer three higher, and `A`, `X`, `Y`
and the bus unchanged. -/
def RTISpec (s r : CPU) : Prop :=
  let a1 := 0x0100 + (s.SP.val + 1) % 256
  let a2 := 0x0100 + (s.SP.val + 2) % 256
  let a3 := 0x0100 + (s.SP.val + 3) % 256
  r.P = u8 ((s.mem.Read (u16 a1)).1.val &&& 0xCF) ∧
  r.PC.val = (s.mem.Read (u16 a2)).1.val ||| ((s.mem.Read (u16 a3)).1.val <<< 8) ∧
  (s.mem.Read (u16 a1)).1 = s.mem.RAM a1 ∧ (s.mem.Read (u16 a2)).1 = s.mem.RAM a2 ∧
  (s.mem.Read (u16 a3)).1 = s.mem.RAM a3 ∧
  r.SP.val = (s.SP.val + 3) % 256 ∧
  r.A = s.A ∧ r.X = s.X ∧ r.Y = s.Y ∧ r.mem = s.mem

end CPU

/-- What a write of the page value `v` to `0x4014` leaves, from bus `m` to bus `r`: the 256
bytes `RAM[((v << 8) + i) mod 0x0800]` stored at `OAM[(OAM address + i) mod 256]`, the OAM
address register as before, and RAM, cartridge, controller and the rest of the picture unit
unchanged. -/
def DMASpec (m r : Memory) (v : Byte) : Prop :=
  (∀ i, i < 256 →
    r.ppu.OAM ((m.ppu.regOAMAddr.val + i) % 256) = m.RAM (((v.val <<< 8) + i) % 0x0800)) ∧
  r.ppu.regOAMAddr = m.ppu.regOAMAddr ∧
  r.RAM = m.RAM ∧ r.cartridge = m.cartridge ∧ r.controller = m.controller ∧
  r.ppu = { m.ppu with OAM := r.ppu.OAM }

/-- The OAM contents after the first `n` rounds of the burst copy from address `d`, started
with the OAM address register at `r`. -/
def dmaOAM (m : Memory) (d r n : Nat) : Nat → Byte :=
  fun j => if j < 256 ∧ (j + 256 - r) % 256 < n then m.RAM ((d + (j + 256 - r) % 256) % 0x0800)
           else m.ppu.OAM j

/-! ## The dot clock -/

namespace PPU

/-- The fields that the rendering helpers of `Clock` never write: the timing counters, the
frame-complete flag, the interrupt signal and the processor-facing registers. -/
def SameControl (p r : PPU) : Prop :=
  r.scanline = p.scanline ∧ r.cycle = p.cycle ∧ r.frameComplete = p.frameComplete ∧
  r.regStatus = p.regStatus ∧ r.nmi = p.nmi ∧ r.regControl = p.regControl ∧
  r.regMask = p.regMask ∧ r.tempAddr = p.tempAddr

/-- First statement of the visible block: shift and fetch. -/
def visibleFetch (cart : Cartridge) (p : PPU) : PPU :=
  if (p.cycle ≥ 2 ∧ p.cycle ≤ 257) ∨ (p.cycle ≥ 321 ∧ p.cycle ≤ 337) then
    clockFetch cart (UpdateShifters p)
  else p

/-- Second statement of the visible block: the vertical increment at dot 256. -/
def visibleScrollY (p : PPU) : PPU :=
  if p.cycle = 256 then IncrementScrollY p else p

/-- Third statement of the visible block: reload and horizontal copy at dot 257. -/
def visibleReload (p : PPU) : PPU :=
  if p.cycle = 257 then TransferAddressX (LoadBackgroundShifters p) else p

/-- Fourth statement of the visible block: the vertical copy guarded by `scanline == -1`. -/
def visibleTransferY (p : PPU) : PPU :=
  if p.scanline = -1 ∧ p.cycle ≥ 280 ∧ p.cycle ≤ 304 then TransferAddressY p else p

/-- Fifth statement of the visible block: pixel output at dots 1 .. 256. -/
def visibleRender (cart : Cartridge) (p : PPU) : PPU :=
  if p.cycle ≥ 1 ∧ p.cycle ≤ 256 then RenderPixel cart p else p

/-- The state after `n` calls of `Clock`. -/
def runClock (cart : Cartridge) : Nat → PPU → PPU
  | 0, p => p
  | n + 1, p => Clock cart (runClock cart n p)

/-- The scanline counter after `k ≤ 89342` calls of `Clock` from scanline 0, dot 0. -/
def scanlineAfter (k : Nat) : Int :=
  if k < 89001 then (k / 341 : Nat) else if k < 89342 then -1 else 0

/-- The frame-complete flag after `k ≤ 89342` calls of `Clock` from scanline 0, dot 0 with
the flag clear. -/
def frameCompleteAfter (k : Nat) : Bool := decide (89001 ≤ k ∧ k ≤ 89002)

/-- What one frame of `Clock` calls does to a picture unit `p`: the flag after each number of
calls, its single rise on the 89001st call (entered at scanline 260, dot 340, left at the
pre-render line), and the counters back at scanline 0, dot 0 after 89342 calls. -/
def FrameSpec (cart : Cartridge) (p : PPU) : Prop :=
  (∀ k, k ≤ 89342 → (runClock cart k p).frameComplete = frameCompleteAfter k) ∧
  (∀ k, k < 89342 →
    ((runClock cart k p).frameComplete = false ∧
      (runClock cart (k + 1) p).frameComplete = true ↔ k + 1 = 89001)) ∧
  ((runClock cart 89000 p).scanline = 260 ∧ (runClock cart 89000 p).cycle = 340) ∧
  ((runClock cart 89001 p).scanline = -1 ∧ (runClock cart 89001 p).cycle = 0) ∧
  ((runClock cart 89342 p).scanline = 0 ∧ (runClock cart 89342 p).cycle = 0)

/-- What one `Clock` call does to the vertical-blank bit, the interrupt signal and the
frame-complete flag, from state `p` to state `r`. -/
def VBlankSpec (p r : PPU) : Prop :=
  (p.scanline = 241 ∧ p.cycle = 1 →
    r.regStatus = u8 (p.regStatus.val ||| 0x80) ∧ r.regStatus.val.testBit 7 = true ∧
    r.nmi = (if p.regControl.val.testBit 7 then true else p.nmi)) ∧
  (p.scanline = -1 ∧ p.cycle = 1 →
    r.regStatus = u8 (p.regStatus.val &&& 0x7F) ∧ r.regStatus.val.testBit 7 = false ∧
    r.frameComplete = false ∧ r.nmi = p.nmi) ∧
  (¬ (p.scanline = 241 ∧ p.cycle = 1) → ¬ (p.scanline = -1 ∧ p.cycle = 1) →
    r.regStatus = p.regStatus ∧ r.nmi = p.nmi)

/-! ## Picture-unit memory, register traffic and scrolling -/

/-- The memories of the picture unit that the fetch and scroll helpers of `Clock` never
write, together with the mask register they consult. -/
def SameStore (p r : PPU) : Prop :=
  r.palette = p.palette ∧ r.frameBuffer = p.frameBuffer ∧ r.nameTable = p.nameTable ∧
  r.chrRam = p.chrRam ∧ r.OAM = p.OAM ∧ r.regMask = p.regMask ∧ r.scanline = p.scanline ∧
  r.cycle = p.cycle

/-- The palette cell an address in `0x3F00 .. 0x3FFF` names: the low five bits, with `0x10`,
`0x14`, `0x18` and `0x1C` standing for `0x00`, `0x04`, `0x08` and `0x0C`. -/
def normIndex (z : Nat) : Nat :=
  if z % 32 = 0x10 then 0x00 else if z % 32 = 0x14 then 0x04
  else if z % 32 = 0x18 then 0x08 else if z % 32 = 0x1C then 0x0C else z % 32

/-- One call from outside on the picture unit: a processor-side register read, a
processor-side register write, or one dot of `Clock`. -/
inductive Action where
  | read (addr : Word)
  | write (addr : Word) (data : Byte)
  | clock

/-- The state after one `Action`. -/
def act (cart : Cartridge) (p : PPU) : Action → PPU
  | Action.read addr => (CPURead cart p addr).2
  | Action.write addr data => CPUWrite cart p addr data
  | Action.clock => Clock cart p

/-- The state after a sequence of actions, first action first. -/
def run (cart : Cartridge) (acts : List Action) (p : PPU) : PPU :=
  acts.foldl (act cart) p

/-- Fine-Y field (bits 12 .. 14) of a VRAM address. -/
def fineYOf (v : Nat) : Nat := v / 0x1000 % 8

/-- Coarse-Y field (bits 5 .. 9) of a VRAM address. -/
def coarseYOf (v : Nat) : Nat := v / 0x20 % 32

/-- Vertical name-table bit (bit 11, mask `0x0800`) of a VRAM address. -/
def ntYOf (v : Nat) : Nat := v / 0x0800 % 2

/-- Horizontal fields (mask `0x041F`: horizontal name-table bit and coarse-X). -/
def horizontalOf (v : Nat) : Nat := v / 0x0400 % 2 * 0x0400 + v % 32

/-- What `IncrementScrollY` does to the current VRAM address, from state `p` to state `r`. -/
def ScrollYSpec (p r : PPU) : Prop :=
  let v := p.vramAddr.val
  let w := r.vramAddr.val
  r = { p with vramAddr := r.vramAddr } ∧
  horizontalOf w = horizontalOf v ∧ w / 0x8000 = v / 0x8000 ∧
  (((p.regMask.val &&& 0x08) = 0 ∧ (p.regMask.val &&& 0x10) = 0) → w = v) ∧
  (((p.regMask.val &&& 0x08) ≠ 0 ∨ (p.regMask.val &&& 0x10) ≠ 0) →
    (fineYOf v < 7 →
      fineYOf w = fineYOf v + 1 ∧ coarseYOf w = coarseYOf v ∧ ntYOf w = ntYOf v ∧
      w = v + 0x1000) ∧
    (fineYOf v = 7 →
      fineYOf w = 0 ∧
      (coarseYOf v = 29 → coarseYOf w = 0 ∧ ntYOf w = 1 - ntYOf v) ∧
      (coarseYOf v = 31 → coarseYOf w = 0 ∧ ntYOf w = ntYOf v) ∧
      (coarseYOf v ≠ 29 → coarseYOf v ≠ 31 →
        coarseYOf w = coarseYOf v + 1 ∧ ntYOf w = ntYOf v)))

/-- The current VRAM address after `IncrementScrollX` when rendering is enabled: the two
branches of its inner `if`. -/
def coarseXStep (v : Word) : Word :=
  if (v.val &&& 0x001F) = 31 then
    u16 ((u16 (v.val &&& cnot 0x001F)).val ^^^ 0x0400)
  else
    u16 (v.val + 1)

end PPU

/-! ## Subscripts, divisors and shift counts

For each member function named below, the list of array subscripts (with the length of the
array), of divisors of `%` that are not constants and of shift counts of `int` operands that
the function evaluates, in source order, nested calls included. -/

/-- One obligation of a C++ evaluation. -/
inductive Check where
  | index (size : Nat) (i : Int)
  | divisor (d : Nat)
  | shift (n : Nat)

/-- The obligation is met: the subscript is inside the array, the divisor is not zero, the
shift count is below the width of `int`. -/
def Check.ok : Check → Prop
  | Check.index size i => 0 ≤ i ∧ i < size
  | Check.divisor d => d ≠ 0
  | Check.shift n => n < 32

namespace PPU

/-- Subscripts of `PPURead(addr)`: `chrRam[8192]`, `CHR_ROM`, `nameTable[2][1024]`,
`palette[32]`. -/
def PPUReadChecks (cart : Cartridge) (addr : Word) : List Check :=
  let addr := u16 (addr.val &&& 0x3FFF)
  if addr.val < 0x2000 then
    if cart.CHR_ROM.length = 0 then [Check.index 8192 addr.val]
    else [Check.index cart.CHR_ROM.length addr.val]
  else if addr.val ≥ 0x2000 ∧ addr.val < 0x3F00 then
    let addr := u16 (addr.val &&& 0x0FFF)
    let mirroredAddr := MirrorAddress cart addr
    [Check.index 2 (((mirroredAddr.val / 0x0400) % 2 : Nat) : Int),
      Check.index 1024 ((mirroredAddr.val % 0x0400 : Nat) : Int)]
  else if addr.val ≥ 0x3F00 ∧ addr.val < 0x4000 then
    [Check.index 32 (paletteIndex addr.val)]
  else []

/-- Subscripts of `PPUWrite(addr, data)`. -/
def PPUWriteChecks (cart : Cartridge) (addr : Word) : List Check :=
  let addr := u16 (addr.val &&& 0x3FFF)
  if addr.val < 0x2000 then
    if cart.CHR_ROM.length = 0 then [Check.index 8192 addr.val]
    else []
  else if addr.val ≥ 0x2000 ∧ addr.val < 0x3F00 then
    let addr := u16 (addr.val &&& 0x0FFF)
    let mirroredAddr := MirrorAddress cart addr
    [Check.index 2 (((mirroredAddr.val / 0x0400) % 2 : Nat) : Int),
      Check.index 1024 ((mirroredAddr.val % 0x0400 : Nat) : Int)]
  else if addr.val ≥ 0x3F00 ∧ addr.val < 0x4000 then
    [Check.index 32 (paletteIndex addr.val)]
  else []

/-- Subscripts of `CPURead(addr)`: `OAM[256]` and those of the nested `PPURead`. -/
def CPUReadChecks (cart : Cartridge) (p : PPU) (addr : Word) : List Check :=
  let addr := u16 (addr.val &&& 0x2007)
  if addr.val = 0x2002 then []
  else if addr.val = 0x2004 then [Check.index 256 p.regOAMAddr.val]
  else if addr.val = 0x2007 then PPUReadChecks cart p.vramAddr
  else []

/-- Subscripts of `CPUWrite(addr, data)`. -/
def CPUWriteChecks (cart : Cartridge) (p : PPU) (addr : Word) : List Check :=
  let addr := u16 (addr.val &&& 0x2007)
  if addr.val = 0x2004 then [Check.index 256 p.regOAMAddr.val]
  else if addr.val = 0x2007 then PPUWriteChecks cart p.vramAddr
  else []

/-- Subscripts of `GetColorFromPaletteRAM(paletteNum, pixel)`. -/
def GetColorChecks (cart : Cartridge) (paletteNum pixel : Byte) : List Check :=
  if pixel.val = 0 then PPUReadChecks cart 0x3F00
  else PPUReadChecks cart (u16 (0x3F00 + (paletteNum.val <<< 2) + pixel.val))

/-- Subscripts of `SetPixel(x, y, color)`: `nesPalette[64]` and `frameBuffer[256 * 240]`. -/
def SetPixelChecks (x y : Int) (color : Byte) : List Check :=
  if x ≥ 0 ∧ x < 256 ∧ y ≥ 0 ∧ y < 240 then
    [Check.index 64 color.val, Check.index (256 * 240) (y * 256 + x)]
  else []

/-- Obligations of `RenderPixel()`: the shift `0x8000 >> fineX`, then the nested calls. -/
def RenderPixelChecks (cart : Cartridge) (p : PPU) : List Check :=
  let x := p.cycle - 1
  let y := p.scanline
  let bg := backgroundPixel p
  (if (p.regMask.val &&& 0x08) ≠ 0 then [Check.shift p.fineX.val] else [])
    ++ GetColorChecks cart bg.2 bg.1
    ++ SetPixelChecks x y (GetColorFromPaletteRAM cart p bg.2 bg.1)

/-- Subscripts of the `switch ((cycle - 1) % 8)` of `Clock`: one `PPURead` in each of the
four fetch cases. -/
def clockFetchChecks (cart : Cartridge) (p : PPU) : List Check :=
  let k := (p.cycle - 1) % 8
  if k = 0 then PPUReadChecks cart (u16 (0x2000 ||| (p.vramAddr.val &&& 0x0FFF)))
  else if k = 2 then
    PPUReadChecks cart (u16 (0x23C0 ||| (p.vramAddr.val &&& 0x0C00)
      ||| ((p.vramAddr.val >>> 4) &&& 0x38) ||| ((p.vramAddr.val >>> 2) &&& 0x07)))
  else if k = 4 then
    PPUReadChecks cart (u16 ((u16 ((p.regControl.val &&& 0x10) <<< 8)).val
      + (p.bgNextTileID.val <<< 4) + (FineY p).val))
  else if k = 6 then
    PPUReadChecks cart (u16 ((u16 ((p.regControl.val &&& 0x10) <<< 8)).val
      + (p.bgNextTileID.val <<< 4) + (FineY p).val + 8))
  else []

/-- Obligations of `Clock()`: those of the fetch of this dot, then those of the pixel output,
each in the state in which the statement runs. -/
def ClockChecks (cart : Cartridge) (p : PPU) : List Check :=
  let p := clockPreRender (clockVBlank p)
  if p.scanline ≥ 0 ∧ p.scanline < 240 then
    (if (p.cycle ≥ 2 ∧ p.cycle ≤ 257) ∨ (p.cycle ≥ 321 ∧ p.cycle ≤ 337) then
        clockFetchChecks cart (UpdateShifters p)
      else [])
    ++ (let q := visibleTransferY (visibleReload (visibleScrollY (visibleFetch cart p)))
        if q.cycle ≥ 1 ∧ q.cycle ≤ 256 then RenderPixelChecks cart q else [])
  else []

end PPU

namespace Memory

/-- Obligations of `Memory::Read(address)`: `RAM[2048]`, the nested `CPURead`, the divisor
`PRG_ROM.size()` and the subscript of `PRG_ROM`. -/
def ReadChecks (m : Memory) (address : Word) : List Check :=
  if address.val < 0x2000 then
    [Check.index 2048 ((address.val % 0x0800 : Nat) : Int)]
  else if address.val ≥ 0x2000 ∧ address.val < 0x4000 then
    PPU.CPUReadChecks m.cartridge m.ppu (u16 (0x2000 + address.val % 8))
  else if address.val = 0x4016 then []
  else if address.val ≥ 0x8000 then
    [Check.divisor m.cartridge.PRG_ROM.length,
      Check.index m.cartridge.PRG_ROM.length
        (((address.val - 0x8000) % m.cartridge.PRG_ROM.length : Nat) : Int)]
  else []

/-- Obligations of the rounds `i` of the OAM burst copy listed in the second argument: those
of `Read(dmaAddress + i)`, then the subscript of `OAM[256]`. -/
def dmaChecks (dmaAddress : Word) : List Nat → Memory → List Check
  | [], _ => []
  | i :: rest, m =>
    ReadChecks m (u16 (dmaAddress.val + i))
      ++ [Check.index 256 (Read m (u16 (dmaAddress.val + i))).2.ppu.regOAMAddr.val]
      ++ dmaChecks dmaAddress rest (dmaStep dmaAddress m i)

/-- Obligations of `Memory::Write(address, data)`. -/
def WriteChecks (m : Memory) (address : Word) (data : Byte) : List Check :=
  if address.val < 0x2000 then
    [Check.index 2048 ((address.val % 0x0800 : Nat) : Int)]
  else if address.val ≥ 0x2000 ∧ address.val < 0x4000 then
    PPU.CPUWriteChecks m.cartridge m.ppu (u16 (0x2000 + address.val % 8))
  else if address.val = 0x4014 then
    dmaChecks (u16 (data.val <<< 8)) (List.range 256) m
  else []

end Memory

/-! ## Example states -/

/-- A mapper-0 cartridge image: 16 KiB of program storage, 8 KiB of pattern storage. -/
def exCart : Cartridge :=
  { PRG_ROM := List.replicate 16384 0xEA, CHR_ROM := List.replicate 8192 0x00,
    mapperID := 0, mirror := Mirror.HORIZONTAL }

/-- A mapper-0 cartridge image with vertical mirroring. -/
def exCartV : Cartridge :=
  { PRG_ROM := List.replicate 16384 0xEA, CHR_ROM := List.replicate 8192 0x00,
    mapperID := 0, mirror := Mirror.VERTICAL }

/-- The picture unit as `PPU::Reset` leaves it, at scanline 0, dot 0. -/
def exPPU : PPU :=
  { nmi := false, OAM := fun _ => 0, regOAMAddr := 0, nameTable := fun _ _ => 0,
    palette := fun _ => 0, vramAddr := 0, tempAddr := 0, fineX := 0, writeToggle := 0,
    ppuDataBuffer := 0, regControl := 0, regMask := 0, regStatus := 0,
    frameBuffer := fun _ => 0, scanline := 0, cycle := 0, frameComplete := false,
    bgNextTileID := 0, bgNextTileAttrib := 0, bgNextTileLsb := 0, bgNextTileMsb := 0,
    bgShiftPatternLow := 0, bgShiftPatternHigh := 0, bgShiftAttribLow := 0,
    bgShiftAttribHigh := 0, chrRam := fun _ => 0 }

/-- The picture unit at scanline 241, dot 1 with the interrupt-enable bit of the control
register set. -/
def exVBlank : PPU := { exPPU with scanline := 241, cycle := 1, regControl := 0x80 }

/-- The picture unit at scanline 10, dot 17 with rendering disabled and `0x21` in palette
cell 0. -/
def exDot : PPU :=
  { exPPU with scanline := 10, cycle := 17, palette := fun k => if k = 0 then 0x21 else 0 }

/-- The picture unit on the pre-render line at dot 280 with background rendering enabled, the
current VRAM address 0 and all vertical fields set in the temporary one. -/
def exPreRender : PPU :=
  { exPPU with scanline := -1, cycle := 280, regMask := 0x08, tempAddr := 0x7BE0 }

/-- The picture unit with rendering enabled and a current VRAM address with fine-Y 7,
coarse-Y 29 and coarse-X 5. -/
def exScroll : PPU := { exPPU with regMask := 0x08, vramAddr := 0x73A5 }

/-- An image file: the 16-byte header with the magic, one 16 KiB unit of program storage, no
pattern storage (byte 5 is 0), mapper 0, horizontal mirroring; then the program bytes. -/
def exImage : List Byte :=
  [0x4E, 0x45, 0x53, 0x1A, 0x01, 0x00, 0x00, 0x00, 0x00, 0x00, 0x00, 0x00, 0x00, 0x00, 0x00,
    0x00] ++ List.replicate 16384 0xEA

/-- The cartridge that `Load` builds from `exImage`. -/
def exLoaded : Cartridge := (Cartridge.Load (Cartridge.new exCart) (some exImage)).2

/-- Register traffic that stores `0x2A` in palette cell `0x1F`, points the VRAM address at
`0x3FFF` again and reads the data register once: the read buffer then holds `0x2A` and the
VRAM address is `0x4000`. -/
def exStaleTrace : List PPU.Action :=
  [PPU.Action.write 0x2006 0x3F, PPU.Action.write 0x2006 0xFF, PPU.Action.write 0x2007 0x2A,
    PPU.Action.write 0x2006 0x3F, PPU.Action.write 0x2006 0xFF, PPU.Action.read 0x2007]

/-- Register traffic that sets every bit of the temporary VRAM address through the control
and scroll registers, copies it to the current one through the address register and reads the
data register once. -/
def exCarryTrace : List PPU.Action :=
  [PPU.Action.write 0x2000 0x03, PPU.Action.write 0x2005 0xFF, PPU.Action.write 0x2005 0xFF,
    PPU.Action.write 0x2005 0xFF, PPU.Action.write 0x2006 0xFF, PPU.Action.read 0x2007]

/-- A bus whose RAM holds the bytes `code` from address 0 on and zero elsewhere. -/
def exMem (code : List Byte) : Memory :=
  { RAM := fun k => code.getD k 0, cartridge := exCart, ppu := exPPU,
    controller := { buttonStates := 0, shiftRegister := 0, strobe := false } }

/-- A running processor with the table of `InitializeOpcodeTable`, `PC = 0`, no pending
cycles, index register `X = x` and the bytes `code` in RAM from address 0 on. -/
def exCPU (code : List Byte) (x : Byte) : CPU :=
  CPU.InitializeOpcodeTable
    { A := 0x10, X := x, Y := 0, SP := 0xFD, PC := 0, P := 0x24, cycles := 0, running := true,
      mem := exMem code, lookup := [], opcode := 0, fetched := 0, addr_abs := 0, addr_rel := 0 }

/-- The instruction `LDA $10FF,X` at address 0 with `X = 1`: the indexed address crosses into
page `0x11`. -/
def exLDAcross : CPU := exCPU [0xBD, 0xFF, 0x10] 1

/-- The instruction `LDA $10FF,X` at address 0 with `X = 0`: no page is crossed. -/
def exLDAsame : CPU := exCPU [0xBD, 0xFF, 0x10] 0

/-- A processor with three pending cycles. -/
def exPending : CPU := { exCPU [] 0 with cycles := 3 }

/-- A halted processor. -/
def exHalted : CPU := { exCPU [] 0 with running := false }

end NES

/-! # Auxiliary lemmas -/

namespace NES

/-! ## Arithmetic reading of the bit operations -/

@[simp] theorem u8_val (n : Nat) : (u8 n).val = n % 256 := rfl

@[simp] theorem u16_val (n : Nat) : (u16 n).val = n % 65536 := rfl

@[simp] theorem u8i_val (z : Int) : (u8i z).val = (z % 256).toNat := by
  unfold u8i
  rw [u8_val]
  omega

@[simp] theorem u16i_val (z : Int) : (u16i z).val = (z % 65536).toNat := by
  unfold u16i
  rw [u16_val]
  omega

theorem and_bit (x i : Nat) : x &&& 2 ^ i = x / 2 ^ i % 2 * 2 ^ i := by
  rw [Nat.and_two_pow, Nat.toNat_testBit]

theorem and_0x80 (x : Nat) : x &&& 0x80 = x / 128 % 2 * 128 := and_bit x 7

theorem and_0x00FF (x : Nat) : x &&& 0x00FF = x % 256 :=
  Nat.and_pow_two_sub_one_eq_mod x 8

theorem testBit7 (x : Nat) : x.testBit 7 = decide (x / 128 % 2 = 1) :=
  Nat.testBit_to_div_mod

theorem bit7_ne_zero (x : Nat) : x / 128 % 2 * 128 ≠ 0 ↔ x.testBit 7 = true := by
  rw [testBit7, decide_eq_true_eq]
  omega

theorem and_0xFF00 (x : Nat) : x &&& 0xFF00 = x / 256 % 256 * 256 := by
  apply Nat.eq_of_testBit_eq
  intro j
  have h1 : (0xFF00 : Nat) = 2 ^ 8 * (2 ^ 8 - 1) := by norm_num
  have h2 : x / 256 % 256 * 256 = 2 ^ 8 * (x >>> 8 % 2 ^ 8) := by
    rw [Nat.shiftRight_eq_div_pow]; norm_num; ring
  rw [h1, h2, Nat.testBit_and, Nat.testBit_mul_pow_two, Nat.testBit_mul_pow_two,
    Nat.testBit_two_pow_sub_one, Nat.testBit_mod_two_pow, Nat.testBit_shiftRight]
  by_cases h : j ≥ 8
  · have : 8 + (j - 8) = j := by omega
    rw [this]
    cases x.testBit j <;> simp
  · simp [h]

theorem shl8_or (h l : Nat) (hl : l < 256) : (h <<< 8) ||| l = h * 256 + l := by
  rw [Nat.shiftLeft_eq]
  have := Nat.mul_add_lt_is_or (i := 8) (b := l) (by simpa using hl) h
  rw [Nat.mul_comm] at this
  simpa using this.symm

theorem or_shl8 (h l : Nat) (hl : l < 256) : l ||| (h <<< 8) = h * 256 + l := by
  rw [Nat.lor_comm]; exact shl8_or h l hl

set_option maxRecDepth 100000 in
theorem xor_0x00FF_aux : ∀ m : Fin 256, m.val ^^^ 0x00FF = 255 - m.val := by
  decide

theorem xor_0x00FF (m : Nat) (hm : m < 256) : m ^^^ 0x00FF = 255 - m :=
  xor_0x00FF_aux ⟨m, hm⟩

theorem testBit7_cnot (x : Nat) : (cnot x).testBit 7 = !x.testBit 7 := by
  unfold cnot
  have : (0xFFFFFFFF : Nat) = 2 ^ 32 - 1 := by norm_num
  rw [Nat.testBit_xor, this, Nat.testBit_two_pow_sub_one]
  simp


/-! ## The status byte -/

namespace CPU

theorem SetFlag_eq (s : CPU) (f : Byte) (b : Bool) :
    SetFlag s f b = { s with P := setP s.P f b } := by
  unfold SetFlag setP
  split <;> rfl

theorem byte_testBit_high (P : Byte) (j : Nat) (hj : 8 ≤ j) : P.val.testBit j = false := by
  apply Nat.testBit_lt_two_pow
  calc P.val < 2 ^ 8 := P.isLt
    _ ≤ 2 ^ j := Nat.pow_le_pow_right (by decide) hj

theorem testBit_mod_256 (x j : Nat) :
    (x % 256).testBit j = (decide (j < 8) && x.testBit j) :=
  Nat.testBit_mod_two_pow x 8 j

theorem testBit_cnot (x j : Nat) :
    (cnot x).testBit j = (decide (j < 32) ^^ x.testBit j) := by
  unfold cnot
  rw [Nat.testBit_xor]
  exact congrArg (fun t => t ^^ x.testBit j) (Nat.testBit_two_pow_sub_one 32 j)

theorem testBit_setP (P f : Byte) (i : Nat) (hi : i < 8) (hf : f.val = 2 ^ i) (b : Bool)
    (j : Nat) : (setP P f b).val.testBit j = if j = i then b else P.val.testBit j := by
  by_cases hj : j < 8
  · have h32 : j < 32 := by omega
    by_cases hji : j = i
    · subst hji
      cases b <;>
        simp [setP, hf, testBit_mod_256, testBit_cnot, Nat.testBit_two_pow, hj, h32]
    · have : ¬ i = j := fun h => hji h.symm
      cases b <;>
        simp [setP, hf, testBit_mod_256, testBit_cnot, Nat.testBit_two_pow, hj, h32, hji, this]
  · have hji : j ≠ i := by omega
    rw [byte_testBit_high _ j (by omega), byte_testBit_high _ j (by omega)]
    simp [hji]

theorem GetFlag_testBit (s : CPU) (f : Byte) (i : Nat) (hf : f.val = 2 ^ i) :
    GetFlag s f = s.P.val.testBit i := by
  unfold GetFlag
  rw [hf, and_bit]
  rw [Nat.testBit_to_div_mod]
  have h2 : 0 < 2 ^ i := Nat.pow_pos (by decide)
  rcases Nat.mod_two_eq_zero_or_one (s.P.val / 2 ^ i) with h | h
  · simp [h]
  · simp [h]

theorem GetFlag_CARRY (s : CPU) : GetFlag s CARRY = s.P.val.testBit 0 :=
  GetFlag_testBit s CARRY 0 rfl

theorem testBit_setP_CARRY (P : Byte) (b : Bool) (j : Nat) :
    (setP P CARRY b).val.testBit j = if j = 0 then b else P.val.testBit j :=
  testBit_setP P CARRY 0 (by decide) rfl b j

theorem GetFlag_ZERO (s : CPU) : GetFlag s ZERO = s.P.val.testBit 1 :=
  GetFlag_testBit s ZERO 1 rfl

theorem testBit_setP_ZERO (P : Byte) (b : Bool) (j : Nat) :
    (setP P ZERO b).val.testBit j = if j = 1 then b else P.val.testBit j :=
  testBit_setP P ZERO 1 (by decide) rfl b j

theorem GetFlag_INTERRUPT (s : CPU) : GetFlag s INTERRUPT = s.P.val.testBit 2 :=
  GetFlag_testBit s INTERRUPT 2 rfl

theorem testBit_setP_INTERRUPT (P : Byte) (b : Bool) (j : Nat) :
    (setP P INTERRUPT b).val.testBit j = if j = 2 then b else P.val.testBit j :=
  testBit_setP P INTERRUPT 2 (by decide) rfl b j

theorem GetFlag_DECIMAL (s : CPU) : GetFlag s DECIMAL = s.P.val.testBit 3 :=
  GetFlag_testBit s DECIMAL 3 rfl

theorem testBit_setP_DECIMAL (P : Byte) (b : Bool) (j : Nat) :
    (setP P DECIMAL b).val.testBit j = if j = 3 then b else P.val.testBit j :=
  testBit_setP P DECIMAL 3 (by decide) rfl b j

theorem GetFlag_BREAK_FLAG (s : CPU) : GetFlag s BREAK_FLAG = s.P.val.testBit 4 :=
  GetFlag_testBit s BREAK_FLAG 4 rfl

theorem testBit_setP_BREAK_FLAG (P : Byte) (b : Bool) (j : Nat) :
    (setP P BREAK_FLAG b).val.testBit j = if j = 4 then b else P.val.testBit j :=
  testBit_setP P BREAK_FLAG 4 (by decide) rfl b j

theorem GetFlag_UNUSED (s : CPU) : GetFlag s UNUSED = s.P.val.testBit 5 :=
  GetFlag_testBit s UNUSED 5 rfl

theorem testBit_setP_UNUSED (P : Byte) (b : Bool) (j : Nat) :
    (setP P UNUSED b).val.testBit j = if j = 5 then b else P.val.testBit j :=
  testBit_setP P UNUSED 5 (by decide) rfl b j

theorem GetFlag_OVERFLOW_FLAG (s : CPU) : GetFlag s OVERFLOW_FLAG = s.P.val.testBit 6 :=
  GetFlag_testBit s OVERFLOW_FLAG 6 rfl

theorem testBit_setP_OVERFLOW_FLAG (P : Byte) (b : Bool) (j : Nat) :
    (setP P OVERFLOW_FLAG b).val.testBit j = if j = 6 then b else P.val.testBit j :=
  testBit_setP P OVERFLOW_FLAG 6 (by decide) rfl b j

theorem GetFlag_NEGATIVE (s : CPU) : GetFlag s NEGATIVE = s.P.val.testBit 7 :=
  GetFlag_testBit s NEGATIVE 7 rfl

theorem testBit_setP_NEGATIVE (P : Byte) (b : Bool) (j : Nat) :
    (setP P NEGATIVE b).val.testBit j = if j = 7 then b else P.val.testBit j :=
  testBit_setP P NEGATIVE 7 (by decide) rfl b j

/-! ## Frame lemmas for the bus read helpers -/

theorem Memory_Read_storage (m : Memory) (a : Word) :
    (m.Read a).2.RAM = m.RAM ∧ (m.Read a).2.cartridge = m.cartridge ∧
    (m.Read a).2.ppu.OAM = m.ppu.OAM ∧ (m.Read a).2.ppu.nameTable = m.ppu.nameTable ∧
    (m.Read a).2.ppu.palette = m.ppu.palette ∧ (m.Read a).2.ppu.chrRam = m.ppu.chrRam := by
  unfold Memory.Read
  split_ifs
  · simp
  · simp only [PPU.CPURead, PPU.bumpVramAddr]
    split_ifs <;> simp
  · simp
  · simp
  · simp

theorem Fetch_storage (s : CPU) :
    (Fetch s).mem.RAM = s.mem.RAM ∧ (Fetch s).mem.cartridge = s.mem.cartridge ∧
    (Fetch s).mem.ppu.OAM = s.mem.ppu.OAM ∧ (Fetch s).mem.ppu.nameTable = s.mem.ppu.nameTable ∧
    (Fetch s).mem.ppu.palette = s.mem.ppu.palette ∧ (Fetch s).mem.ppu.chrRam = s.mem.ppu.chrRam := by
  unfold Fetch
  split
  · exact Memory_Read_storage s.mem s.addr_abs
  · simp

theorem Read_eq (s : CPU) (a : Word) :
    Read s a = ((s.mem.Read a).1, { s with mem := (s.mem.Read a).2 }) := rfl

@[simp] theorem Fetch_A (s : CPU) : (Fetch s).A = s.A := by
  unfold Fetch; split <;> rfl

@[simp] theorem Fetch_X (s : CPU) : (Fetch s).X = s.X := by
  unfold Fetch; split <;> rfl

@[simp] theorem Fetch_Y (s : CPU) : (Fetch s).Y = s.Y := by
  unfold Fetch; split <;> rfl

@[simp] theorem Fetch_SP (s : CPU) : (Fetch s).SP = s.SP := by
  unfold Fetch; split <;> rfl

@[simp] theorem Fetch_PC (s : CPU) : (Fetch s).PC = s.PC := by
  unfold Fetch; split <;> rfl

@[simp] theorem Fetch_P (s : CPU) : (Fetch s).P = s.P := by
  unfold Fetch; split <;> rfl

@[simp] theorem Fetch_cycles (s : CPU) : (Fetch s).cycles = s.cycles := by
  unfold Fetch; split <;> rfl

@[simp] theorem Fetch_running (s : CPU) : (Fetch s).running = s.running := by
  unfold Fetch; split <;> rfl

@[simp] theorem Fetch_lookup (s : CPU) : (Fetch s).lookup = s.lookup := by
  unfold Fetch; split <;> rfl

@[simp] theorem Fetch_opcode (s : CPU) : (Fetch s).opcode = s.opcode := by
  unfold Fetch; split <;> rfl

@[simp] theorem Fetch_addr_abs (s : CPU) : (Fetch s).addr_abs = s.addr_abs := by
  unfold Fetch; split <;> rfl

@[simp] theorem Fetch_addr_rel (s : CPU) : (Fetch s).addr_rel = s.addr_rel := by
  unfold Fetch; split <;> rfl

/-! ## Field-by-field effect of the bus helpers -/

@[simp] theorem Read_fst (s : CPU) (a : Word) : (Read s a).1 = (s.mem.Read a).1 := rfl

@[simp] theorem Read_mem (s : CPU) (a : Word) : (Read s a).2.mem = (s.mem.Read a).2 := rfl

@[simp] theorem Write_mem (s : CPU) (a : Word) (d : Byte) :
    (Write s a d).mem = s.mem.Write a d := rfl

@[simp] theorem FetchByte_fst (s : CPU) : (FetchByte s).1 = (s.mem.Read s.PC).1 := rfl

@[simp] theorem FetchByte_mem (s : CPU) : (FetchByte s).2.mem = (s.mem.Read s.PC).2 := rfl

@[simp] theorem FetchByte_PC (s : CPU) : (FetchByte s).2.PC = u16 (s.PC.val + 1) := rfl

@[simp] theorem Read_A (s : CPU) (a : Word) : (Read s a).2.A = s.A := rfl

@[simp] theorem Write_A (s : CPU) (a : Word) (d : Byte) : (Write s a d).A = s.A := rfl

@[simp] theorem FetchByte_A (s : CPU) : (FetchByte s).2.A = s.A := rfl

@[simp] theorem SetFlag_A (s : CPU) (g : Byte) (b : Bool) : (SetFlag s g b).A = s.A := by
  unfold SetFlag; split <;> rfl

@[simp] theorem Read_X (s : CPU) (a : Word) : (Read s a).2.X = s.X := rfl

@[simp] theorem Write_X (s : CPU) (a : Word) (d : Byte) : (Write s a d).X = s.X := rfl

@[simp] theorem FetchByte_X (s : CPU) : (FetchByte s).2.X = s.X := rfl

@[simp] theorem SetFlag_X (s : CPU) (g : Byte) (b : Bool) : (SetFlag s g b).X = s.X := by
  unfold SetFlag; split <;> rfl

@[simp] theorem Read_Y (s : CPU) (a : Word) : (Read s a).2.Y = s.Y := rfl

@[simp] theorem Write_Y (s : CPU) (a : Word) (d : Byte) : (Write s a d).Y = s.Y := rfl

@[simp] theorem FetchByte_Y (s : CPU) : (FetchByte s).2.Y = s.Y := rfl

@[simp] theorem SetFlag_Y (s : CPU) (g : Byte) (b : Bool) : (SetFlag s g b).Y = s.Y := by
  unfold SetFlag; split <;> rfl

@[simp] theorem Read_SP (s : CPU) (a : Word) : (Read s a).2.SP = s.SP := rfl

@[simp] theorem Write_SP (s : CPU) (a : Word) (d : Byte) : (Write s a d).SP = s.SP := rfl

@[simp] theorem FetchByte_SP (s : CPU) : (FetchByte s).2.SP = s.SP := rfl

@[simp] theorem SetFlag_SP (s : CPU) (g : Byte) (b : Bool) : (SetFlag s g b).SP = s.SP := by
  unfold SetFlag; split <;> rfl

@[simp] theorem Read_PC (s : CPU) (a : Word) : (Read s a).2.PC = s.PC := rfl

@[simp] theorem Write_PC (s : CPU) (a : Word) (d : Byte) : (Write s a d).PC = s.PC := rfl

@[simp] theorem SetFlag_PC (s : CPU) (g : Byte) (b : Bool) : (SetFlag s g b).PC = s.PC := by
  unfold SetFlag; split <;> rfl

@[simp] theorem Read_P (s : CPU) (a : Word) : (Read s a).2.P = s.P := rfl

@[simp] theorem Write_P (s : CPU) (a : Word) (d : Byte) : (Write s a d).P = s.P := rfl

@[simp] theorem FetchByte_P (s : CPU) : (FetchByte s).2.P = s.P := rfl

@[simp] theorem Read_cycles (s : CPU) (a : Word) : (Read s a).2.cycles = s.cycles := rfl

@[simp] theorem Write_cycles (s : CPU) (a : Word) (d : Byte) : (Write s a d).cycles = s.cycles := rfl

@[simp] theorem FetchByte_cycles (s : CPU) : (FetchByte s).2.cycles = s.cycles := rfl

@[simp] theorem SetFlag_cycles (s : CPU) (g : Byte) (b : Bool) : (SetFlag s g b).cycles = s.cycles := by
  unfold SetFlag; split <;> rfl

@[simp] theorem Read_running (s : CPU) (a : Word) : (Read s a).2.running = s.running := rfl

@[simp] theorem Write_running (s : CPU) (a : Word) (d : Byte) : (Write s a d).running = s.running := rfl

@[simp] theorem FetchByte_running (s : CPU) : (FetchByte s).2.running = s.running := rfl

@[simp] theorem SetFlag_running (s : CPU) (g : Byte) (b : Bool) : (SetFlag s g b).running = s.running := by
  unfold SetFlag; split <;> rfl

@[simp] theorem Read_lookup (s : CPU) (a : Word) : (Read s a).2.lookup = s.lookup := rfl

@[simp] theorem Write_lookup (s : CPU) (a : Word) (d : Byte) : (Write s a d).lookup = s.lookup := rfl

@[simp] theorem FetchByte_lookup (s : CPU) : (FetchByte s).2.lookup = s.lookup := rfl

@[simp] theorem SetFlag_lookup (s : CPU) (g : Byte) (b : Bool) : (SetFlag s g b).lookup = s.lookup := by
  unfold SetFlag; split <;> rfl

@[simp] theorem Read_opcode (s : CPU) (a : Word) : (Read s a).2.opcode = s.opcode := rfl

@[simp] theorem Write_opcode (s : CPU) (a : Word) (d : Byte) : (Write s a d).opcode = s.opcode := rfl

@[simp] theorem FetchByte_opcode (s : CPU) : (FetchByte s).2.opcode = s.opcode := rfl

@[simp] theorem SetFlag_opcode (s : CPU) (g : Byte) (b : Bool) : (SetFlag s g b).opcode = s.opcode := by
  unfold SetFlag; split <;> rfl

@[simp] theorem Read_fetched (s : CPU) (a : Word) : (Read s a).2.fetched = s.fetched := rfl

@[simp] theorem Write_fetched (s : CPU) (a : Word) (d : Byte) : (Write s a d).fetched = s.fetched := rfl

@[simp] theorem FetchByte_fetched (s : CPU) : (FetchByte s).2.fetched = s.fetched := rfl

@[simp] theorem SetFlag_fetched (s : CPU) (g : Byte) (b : Bool) : (SetFlag s g b).fetched = s.fetched := by
  unfold SetFlag; split <;> rfl

@[simp] theorem Read_addr_abs (s : CPU) (a : Word) : (Read s a).2.addr_abs = s.addr_abs := rfl

@[simp] theorem Write_addr_abs (s : CPU) (a : Word) (d : Byte) : (Write s a d).addr_abs = s.addr_abs := rfl

@[simp] theorem FetchByte_addr_abs (s : CPU) : (FetchByte s).2.addr_abs = s.addr_abs := rfl

@[simp] theorem SetFlag_addr_abs (s : CPU) (g : Byte) (b : Bool) : (SetFlag s g b).addr_abs = s.addr_abs := by
  unfold SetFlag; split <;> rfl

@[simp] theorem Read_addr_rel (s : CPU) (a : Word) : (Read s a).2.addr_rel = s.addr_rel := rfl

@[simp] theorem Write_addr_rel (s : CPU) (a : Word) (d : Byte) : (Write s a d).addr_rel = s.addr_rel := rfl

@[simp] theorem FetchByte_addr_rel (s : CPU) : (FetchByte s).2.addr_rel = s.addr_rel := rfl

@[simp] theorem SetFlag_addr_rel (s : CPU) (g : Byte) (b : Bool) : (SetFlag s g b).addr_rel = s.addr_rel := by
  unfold SetFlag; split <;> rfl

@[simp] theorem SetFlag_mem (s : CPU) (g : Byte) (b : Bool) : (SetFlag s g b).mem = s.mem := by
  unfold SetFlag; split <;> rfl

@[simp] theorem SetFlag_P (s : CPU) (g : Byte) (b : Bool) : (SetFlag s g b).P = setP s.P g b := by
  unfold SetFlag setP; split <;> rfl

end CPU

end NES

/-! # Lemmas on addressing, dispatch and the opcode table -/

namespace NES

namespace CPU

theorem word_of_bytes (l h : Nat) (hl : l < 256) (hh : h < 256) :
    (((h % 65536) <<< 8) ||| (l % 65536)) % 65536 = l + 256 * h := by
  rw [Nat.mod_eq_of_lt (by omega : h < 65536), Nat.mod_eq_of_lt (by omega : l < 65536),
    shl8_or h l hl]
  omega

theorem page_cross (l h i : Nat) (hl : l < 256) (hh : h < 256) (hi : i < 256) :
    ((l + 256 * h + i) % 65536 / 256 % 256 * 256 ≠ (h % 65536) <<< 8) ↔ l + i ≥ 256 := by
  rw [Nat.shiftLeft_eq]
  omega

theorem indexed_spec (s : CPU) :
    ((AbsoluteX s).2.addr_abs.val = (operand16 s + s.X.val) % 65536 ∧
      (AbsoluteX s).2.PC.val = (s.PC.val + 2) % 65536 ∧
      (AbsoluteX s).1 = (if operand16 s % 256 + s.X.val ≥ 256 then 1 else 0)) ∧
    ((AbsoluteY s).2.addr_abs.val = (operand16 s + s.Y.val) % 65536 ∧
      (AbsoluteY s).2.PC.val = (s.PC.val + 2) % 65536 ∧
      (AbsoluteY s).1 = (if operand16 s % 256 + s.Y.val ≥ 256 then 1 else 0)) := by
  have hl := (codeLo s).isLt
  have hh := (codeHi s).isLt
  have hx := s.X.isLt
  have hy := s.Y.isLt
  have hpc := s.PC.isLt
  have hw := word_of_bytes _ _ hl hh
  have e : operand16 s % 256 = (codeLo s).val := by unfold operand16; omega
  have px := page_cross _ _ _ hl hh hx
  have py := page_cross _ _ _ hl hh hy
  rw [e]
  unfold operand16
  unfold codeLo codeHi at *
  constructor
  · unfold AbsoluteX
    simp only [FetchByte, Read_eq, u16_val, and_0xFF00, hw]
    split_ifs with h1 h2 h2
    · simp only [u16_val]
      exact ⟨trivial, by omega, trivial⟩
    · exact absurd (px.mp h1) h2
    · exact absurd (px.mpr h2) h1
    · simp only [u16_val]
      exact ⟨trivial, by omega, trivial⟩
  · unfold AbsoluteY
    simp only [FetchByte, Read_eq, u16_val, and_0xFF00, hw]
    split_ifs with h1 h2 h2
    · simp only [u16_val]
      exact ⟨trivial, by omega, trivial⟩
    · exact absurd (py.mp h1) h2
    · exact absurd (py.mpr h2) h1
    · simp only [u16_val]
      exact ⟨trivial, by omega, trivial⟩

/-! ## What the routines behind the table leave alone -/

theorem callAddrmode_frame (f : Option AddrMode) (s : CPU) :
    (callAddrmode f s).2.running = s.running ∧ (callAddrmode f s).2.lookup = s.lookup ∧
    (callAddrmode f s).2.opcode = s.opcode ∧ (callAddrmode f s).2.cycles = s.cycles ∧
    (callAddrmode f s).2.X = s.X ∧ (callAddrmode f s).2.Y = s.Y := by
  cases f with
  | none => exact ⟨rfl, rfl, rfl, rfl, rfl, rfl⟩
  | some m =>
    cases m <;> simp only [callAddrmode]
    · simp [Implied]
    · simp [Accumulator]
    · simp [Immediate]
    · simp [ZeroPage]
    · simp [ZeroPageX]
    · simp [ZeroPageY]
    · unfold Relative; dsimp only; split_ifs <;> simp
    · simp [Absolute]
    · unfold AbsoluteX; dsimp only; split_ifs <;> simp
    · unfold AbsoluteY; dsimp only; split_ifs <;> simp
    · unfold Indirect; dsimp only; split_ifs <;> simp
    · simp [IndirectX]
    · unfold IndirectY; dsimp only; split_ifs <;> simp

theorem branchTaken_frame (s : CPU) :
    (branchTaken s).2.running = s.running ∧ (branchTaken s).2.lookup = s.lookup ∧
    (branchTaken s).2.opcode = s.opcode := by
  unfold branchTaken; dsimp only; split_ifs <;> simp

theorem callOperate_frame (f : Option Operation) (s : CPU) :
    (callOperate f s).2.running = s.running ∧ (callOperate f s).2.lookup = s.lookup ∧
    (callOperate f s).2.opcode = s.opcode := by
  cases f with
  | none => exact ⟨rfl, rfl, rfl⟩
  | some op =>
    cases op <;> simp only [callOperate]
    all_goals first
      | (simp [ADC, AND, BIT, BRKInstruction, CLC, CLD, CLI, CLV, CMP, CPX, CPY, DEC, DEX, DEY,
          EOR, INC, INX, INY, JMP, JSR, LDA, LDX, LDY, NOP, ORA, PHA, PHP, PLA, PLP, RTI, RTS,
          SBC, SEC, SED, SEI, STA, STX, STY, TAX, TAY, TSX, TXA, TXS, TYA])
      | (unfold ASL; dsimp only; split_ifs <;> simp)
      | (unfold LSR; dsimp only; split_ifs <;> simp)
      | (unfold ROL; dsimp only; split_ifs <;> simp)
      | (unfold ROR; dsimp only; split_ifs <;> simp)
      | (unfold BCC; split_ifs <;> first | exact branchTaken_frame s | simp)
      | (unfold BCS; split_ifs <;> first | exact branchTaken_frame s | simp)
      | (unfold BEQ; split_ifs <;> first | exact branchTaken_frame s | simp)
      | (unfold BMI; split_ifs <;> first | exact branchTaken_frame s | simp)
      | (unfold BNE; split_ifs <;> first | exact branchTaken_frame s | simp)
      | (unfold BPL; split_ifs <;> first | exact branchTaken_frame s | simp)
      | (unfold BVC; split_ifs <;> first | exact branchTaken_frame s | simp)
      | (unfold BVS; split_ifs <;> first | exact branchTaken_frame s | simp)

/-- The five non-branch operations of the table leave the cycle counter alone and return a
fixed penalty signal. -/
theorem table_ops_cycles (s : CPU) :
    ((ADC s).2.cycles = s.cycles ∧ (ADC s).1 = 1) ∧ ((AND s).2.cycles = s.cycles ∧ (AND s).1 = 1) ∧
    ((ASL s).2.cycles = s.cycles ∧ (ASL s).1 = 0) ∧ ((LDA s).2.cycles = s.cycles ∧ (LDA s).1 = 1) ∧
    ((NOP s).2.cycles = s.cycles ∧ (NOP s).1 = 0) := by
  refine ⟨by simp [ADC], by simp [AND], ?_, by simp [LDA], by simp [NOP]⟩
  unfold ASL; dsimp only; split_ifs <;> simp

/-! ## The table built by `InitializeOpcodeTable` -/

theorem table_length : (opcodeTable []).length = 256 := by decide!

theorem table_facts : ∀ i : Fin 256,
    ((opcodeTable []).getD i.val default).operate ≠ none ∧
    ((opcodeTable []).getD i.val default).addrmode ≠ none ∧
    2 ≤ ((opcodeTable []).getD i.val default).cycles.val ∧
    ((opcodeTable []).getD i.val default).cycles.val ≤ 7 ∧
    (i.val ∉ assignedOpcodes → (opcodeTable []).getD i.val default = nopDescriptor) ∧
    (i.val ≠ 0x90 →
      ((opcodeTable []).getD i.val default).operate = some Operation.ADC ∨
      ((opcodeTable []).getD i.val default).operate = some Operation.AND ∨
      ((opcodeTable []).getD i.val default).operate = some Operation.ASL ∨
      ((opcodeTable []).getD i.val default).operate = some Operation.LDA ∨
      ((opcodeTable []).getD i.val default).operate = some Operation.NOP) := by
  decide!

theorem table_entries :
    (opcodeTable []).getD 0xBD default =
      { name := "LDA", operate := some Operation.LDA, addrmode := some AddrMode.AbsoluteX,
        cycles := 4 } ∧
    (opcodeTable []).getD 0x1E default =
      { name := "ASL", operate := some Operation.ASL, addrmode := some AddrMode.AbsoluteX,
        cycles := 7 } ∧
    (opcodeTable []).getD 0x90 default =
      { name := "BCC", operate := some Operation.BCC, addrmode := some AddrMode.Relative,
        cycles := 2 } := by
  decide!

/-! ## One step of the processor -/

theorem slot_table (s : CPU) (hl : s.lookup = opcodeTable []) (i : Nat) :
    slot s i = (opcodeTable []).getD i default := by
  unfold slot
  rw [hl]

theorem table_facts_nat (i : Nat) (hi : i < 256) :
    ((opcodeTable []).getD i default).operate ≠ none ∧
    ((opcodeTable []).getD i default).addrmode ≠ none ∧
    2 ≤ ((opcodeTable []).getD i default).cycles.val ∧
    ((opcodeTable []).getD i default).cycles.val ≤ 7 ∧
    (i ∉ assignedOpcodes → (opcodeTable []).getD i default = nopDescriptor) ∧
    (i ≠ 0x90 →
      ((opcodeTable []).getD i default).operate = some Operation.ADC ∨
      ((opcodeTable []).getD i default).operate = some Operation.AND ∨
      ((opcodeTable []).getD i default).operate = some Operation.ASL ∨
      ((opcodeTable []).getD i default).operate = some Operation.LDA ∨
      ((opcodeTable []).getD i default).operate = some Operation.NOP) := by
  have h := table_facts ⟨i, hi⟩
  dsimp only at h
  exact h

theorem ExecuteInstruction_unfold (s : CPU) :
    ExecuteInstruction s =
      if !s.running then s
      else if s.cycles.val = 0 then
        if (FetchByte s).1.val ≥ s.lookup.length ∨ (slot s (FetchByte s).1.val).operate = none then
          { (FetchByte s).2 with opcode := (FetchByte s).1, running := false }
        else
          { (callOperate (slot (afterAddr s).2 (afterAddr s).2.opcode.val).operate
                (afterAddr s).2).2 with
            cycles := u8i (((u8 ((callOperate (slot (afterAddr s).2
                (afterAddr s).2.opcode.val).operate (afterAddr s).2).2.cycles.val
              + ((afterAddr s).1.val &&& (callOperate (slot (afterAddr s).2
                (afterAddr s).2.opcode.val).operate (afterAddr s).2).1.val))).val : Int) - 1) }
      else { s with cycles := u8i ((s.cycles.val : Int) - 1) } := rfl

/-- With the table of `InitializeOpcodeTable`, a step at counter 0 fetches the opcode, runs
its addressing-mode routine, then its operation routine, adds the AND of the two penalty
signals to the counter and finally takes off the cycle that the call itself consumes. -/
theorem ExecuteInstruction_fetch (s : CPU) (hl : s.lookup = opcodeTable [])
    (hr : s.running = true) (hc : s.cycles.val = 0) :
    ExecuteInstruction s =
      { (afterOp s).2 with
        cycles := u8i (((u8 ((afterOp s).2.cycles.val
          + ((afterAddr s).1.val &&& (afterOp s).1.val))).val : Int) - 1) } := by
  have hb := (FetchByte s).1.isLt
  have hlen : s.lookup.length = 256 := by rw [hl]; exact table_length
  have hop : (slot s (FetchByte s).1.val).operate ≠ none := by
    rw [slot_table s hl]; exact (table_facts_nat _ hb).1
  have e1 : slot (afterAddr s).2 (afterAddr s).2.opcode.val = slot s (FetchByte s).1.val := by
    unfold slot afterAddr
    rw [(callAddrmode_frame _ _).2.1, (callAddrmode_frame _ _).2.2.1]
    rfl
  have guard : ¬ ((FetchByte s).1.val ≥ s.lookup.length ∨
      (slot s (FetchByte s).1.val).operate = none) := by
    rintro (h | h)
    · rw [hlen] at h; omega
    · exact hop h
  rw [ExecuteInstruction_unfold, if_neg (by simp [hr]), if_pos hc, if_neg guard, e1]
  rfl

end CPU

end NES

/-! # Claims C1 - C10: processor core -/

namespace NES

namespace CPU

/-- C1. `ADC` leaves `A = (A + M + c) mod 256`, carry iff the sum is at least 256, zero iff the
new accumulator is 0, negative equal to bit 7 of the new accumulator, overflow iff the signed
sum of the operands and the carry-in is outside [-128, 127]; `X`, `Y`, `SP`, `PC` and the
interrupt, decimal, break and unused status bits are unchanged.  `M` is the operand that
`Fetch` latches and `c` the carry on entry. -/
theorem C1_ADC (s : CPU) :
    let M : Nat := (Fetch s).fetched.val
    let c : Nat := if GetFlag s CARRY then 1 else 0
    let r := (ADC s).2
    r.A.val = (s.A.val + M + c) % 256 ∧
    (GetFlag r CARRY = true ↔ s.A.val + M + c ≥ 256) ∧
    (GetFlag r ZERO = true ↔ r.A.val = 0) ∧
    GetFlag r NEGATIVE = r.A.val.testBit 7 ∧
    (GetFlag r OVERFLOW_FLAG = true ↔
      ¬ (-128 ≤ signed8 s.A.val + signed8 M + (c : Int) ∧
          signed8 s.A.val + signed8 M + (c : Int) ≤ 127)) ∧
    r.X = s.X ∧ r.Y = s.Y ∧ r.SP = s.SP ∧ r.PC = s.PC ∧
    GetFlag r INTERRUPT = GetFlag s INTERRUPT ∧ GetFlag r DECIMAL = GetFlag s DECIMAL ∧
    GetFlag r BREAK_FLAG = GetFlag s BREAK_FLAG ∧ GetFlag r UNUSED = GetFlag s UNUSED := by
  intro M c r
  have hA := s.A.isLt
  have hM : M < 256 := (Fetch s).fetched.isLt
  have hc : c ≤ 1 := by simp only [c]; split <;> omega
  have hMd : (Fetch s).fetched.val = M := rfl
  have hcd : (if s.P.val.testBit 0 = true then 1 else 0) = c := by
    simp only [c, GetFlag_CARRY]
  clear_value M c
  simp only [r, ADC, SetFlag_eq, GetFlag_CARRY, GetFlag_ZERO, GetFlag_NEGATIVE,
    GetFlag_OVERFLOW_FLAG, GetFlag_INTERRUPT, GetFlag_DECIMAL, GetFlag_BREAK_FLAG, GetFlag_UNUSED,
    testBit_setP_CARRY, testBit_setP_ZERO, testBit_setP_NEGATIVE, testBit_setP_OVERFLOW_FLAG,
    Fetch_A, Fetch_P, Fetch_X, Fetch_Y, Fetch_SP, Fetch_PC, u8_val, u16_val, hMd, hcd,
    and_0x00FF, and_0x80, Nat.reduceEqDiff, reduceIte, decide_eq_true_eq]
  refine ⟨by omega, by omega, by omega, ?_, ?_, trivial, trivial, trivial, trivial, trivial,
    trivial, trivial, trivial⟩
  · rw [testBit7]
    exact decide_eq_decide.mpr (by omega)
  · rw [bit7_ne_zero, Nat.testBit_and, testBit_cnot, Nat.testBit_xor, Nat.testBit_xor,
      testBit7, testBit7, testBit7]
    unfold signed8
    by_cases h1 : s.A.val / 128 % 2 = 1 <;> by_cases h2 : M / 128 % 2 = 1 <;>
      by_cases h3 : (s.A.val + M + c) % 65536 / 128 % 2 = 1 <;>
      simp [h1, h2, h3] <;> split_ifs <;> omega

end CPU

end NES

namespace NES

namespace CPU

/-- C2. `SBC` leaves `A = (A - M - (1 - c)) mod 256`, carry iff no borrow occurred
(`A ≥ M + (1 - c)`), zero iff the new accumulator is 0, negative equal to bit 7 of the new
accumulator, and overflow iff the signed difference `signed8 A - signed8 M - (1 - c)` is outside
[-128, 127].  `M` is the operand that `Fetch` latches and `c` the carry on entry. -/
theorem C2_SBC (s : CPU) :
    let M : Nat := (Fetch s).fetched.val
    let c : Nat := if GetFlag s CARRY then 1 else 0
    let r := (SBC s).2
    (r.A.val : Int) = ((s.A.val : Int) - (M : Int) - (1 - (c : Int))) % 256 ∧
    (GetFlag r CARRY = true ↔ s.A.val ≥ M + (1 - c)) ∧
    (GetFlag r ZERO = true ↔ r.A.val = 0) ∧
    GetFlag r NEGATIVE = r.A.val.testBit 7 ∧
    (GetFlag r OVERFLOW_FLAG = true ↔
      ¬ (-128 ≤ signed8 s.A.val - signed8 M - (1 - (c : Int)) ∧
          signed8 s.A.val - signed8 M - (1 - (c : Int)) ≤ 127)) := by
  intro M c r
  have hA := s.A.isLt
  have hM : M < 256 := (Fetch s).fetched.isLt
  have hc : c ≤ 1 := by simp only [c]; split <;> omega
  have hMd : (Fetch s).fetched.val = M := rfl
  have hcd : (if s.P.val.testBit 0 = true then 1 else 0) = c := by
    simp only [c, GetFlag_CARRY]
  clear_value M c
  have hv : (M ^^^ 0x00FF) % 65536 = 255 - M := by
    rw [xor_0x00FF M hM]; omega
  simp only [r, SBC, SetFlag_eq, GetFlag_CARRY, GetFlag_ZERO, GetFlag_NEGATIVE,
    GetFlag_OVERFLOW_FLAG,
    testBit_setP_CARRY, testBit_setP_ZERO, testBit_setP_NEGATIVE, testBit_setP_OVERFLOW_FLAG,
    Fetch_A, Fetch_P, u8_val, u16_val, hMd, hcd, hv,
    and_0x00FF, and_0x80, and_0xFF00, Nat.reduceEqDiff, reduceIte, decide_eq_true_eq]
  refine ⟨by omega, by omega, by omega, ?_, ?_⟩
  · rw [testBit7]
    exact decide_eq_decide.mpr (by omega)
  · rw [bit7_ne_zero, Nat.testBit_and, Nat.testBit_xor, Nat.testBit_xor,
      testBit7, testBit7, testBit7]
    unfold signed8
    by_cases h1 : s.A.val / 128 % 2 = 1 <;> by_cases h2 : (255 - M) / 128 % 2 = 1 <;>
      by_cases h3 : (s.A.val + (255 - M) + c) % 65536 / 128 % 2 = 1 <;>
      simp [h1, h2, h3] <;> split_ifs <;> omega

end CPU

end NES

namespace NES

namespace CPU

theorem compare_flags (R M : Nat) (hR : R < 256) (hM : M < 256) (P : Byte) :
    let t := (((R : Int) - (M : Int)) % 65536).toNat
    let P1 := setP (setP (setP P CARRY (decide (R ≥ M))) ZERO (decide (t &&& 0x00FF = 0x0000)))
      NEGATIVE (decide (t &&& 0x0080 ≠ 0))
    (P1.val.testBit 0 = true ↔ R ≥ M) ∧ (P1.val.testBit 1 = true ↔ R = M) ∧
    P1.val.testBit 7 = (((R : Int) - (M : Int)) % 256).toNat.testBit 7 ∧
    P1.val.testBit 6 = P.val.testBit 6 := by
  intro t P1
  simp only [P1, t, testBit_setP_CARRY, testBit_setP_ZERO, testBit_setP_NEGATIVE,
    and_0x00FF, and_0x80, Nat.reduceEqDiff, reduceIte, decide_eq_true_eq]
  refine ⟨trivial, by omega, ?_, trivial⟩
  rw [testBit7]
  exact decide_eq_decide.mpr (by omega)

/-- C3. Each of `CMP`, `CPX`, `CPY` sets carry iff the register is at least the operand
(unsigned), zero iff they are equal, negative to bit 7 of the difference mod 256, and leaves
`A`, `X`, `Y`, `SP`, the overflow flag and the storage on the bus unchanged.  The operand is
the byte `Fetch` latches. -/
theorem C3_compare (s : CPU) :
    CompareSpec s.A.val (Fetch s).fetched.val s (CMP s).2 ∧
    CompareSpec s.X.val (Fetch s).fetched.val s (CPX s).2 ∧
    CompareSpec s.Y.val (Fetch s).fetched.val s (CPY s).2 := by
  have hM := (Fetch s).fetched.isLt
  obtain ⟨m1, m2, m3, m4, m5, m6⟩ := Fetch_storage s
  refine ⟨?_, ?_, ?_⟩
  · obtain ⟨f1, f2, f3, f4⟩ := compare_flags s.A.val (Fetch s).fetched.val s.A.isLt hM s.P
    simp only [CompareSpec, CMP, SetFlag_eq, GetFlag_CARRY, GetFlag_ZERO, GetFlag_NEGATIVE,
      GetFlag_OVERFLOW_FLAG, Fetch_A, Fetch_X, Fetch_Y, Fetch_SP, Fetch_P, u16i_val, u16_val]
    exact ⟨f1, f2, f3, trivial, trivial, trivial, trivial, f4, m1, m2, m3, m4, m5, m6⟩
  · obtain ⟨f1, f2, f3, f4⟩ := compare_flags s.X.val (Fetch s).fetched.val s.X.isLt hM s.P
    simp only [CompareSpec, CPX, SetFlag_eq, GetFlag_CARRY, GetFlag_ZERO, GetFlag_NEGATIVE,
      GetFlag_OVERFLOW_FLAG, Fetch_A, Fetch_X, Fetch_Y, Fetch_SP, Fetch_P, u16i_val, u16_val]
    exact ⟨f1, f2, f3, trivial, trivial, trivial, trivial, f4, m1, m2, m3, m4, m5, m6⟩
  · obtain ⟨f1, f2, f3, f4⟩ := compare_flags s.Y.val (Fetch s).fetched.val s.Y.isLt hM s.P
    simp only [CompareSpec, CPY, SetFlag_eq, GetFlag_CARRY, GetFlag_ZERO, GetFlag_NEGATIVE,
      GetFlag_OVERFLOW_FLAG, Fetch_A, Fetch_X, Fetch_Y, Fetch_SP, Fetch_P, u16i_val, u16_val]
    exact ⟨f1, f2, f3, trivial, trivial, trivial, trivial, f4, m1, m2, m3, m4, m5, m6⟩

end CPU

end NES

namespace NES

namespace CPU

theorem or_0xFF00 (x : Nat) (hx : x < 256) : x ||| 0xFF00 = x + 0xFF00 := by
  have h := or_shl8 0xFF x hx
  have e : (0xFF : Nat) <<< 8 = 0xFF00 := by decide
  rw [e] at h
  omega

theorem Relative_spec (s0 : CPU) :
    (Relative s0).1 = 0 ∧ (Relative s0).2.PC.val = (s0.PC.val + 1) % 65536 ∧
    (Relative s0).2.addr_rel.val =
      (if (s0.mem.Read s0.PC).1.val < 128 then (s0.mem.Read s0.PC).1.val
       else (s0.mem.Read s0.PC).1.val + 0xFF00) := by
  have hb := (s0.mem.Read s0.PC).1.isLt
  unfold Relative
  simp only [FetchByte, Read_eq, u16_val, and_0x80]
  split_ifs with h1 h2 h2
  · omega
  · refine ⟨rfl, rfl, ?_⟩
    simp only [u16_val]
    rw [Nat.mod_eq_of_lt (by omega : (s0.mem.Read s0.PC).1.val < 65536),
      or_0xFF00 _ hb]
    omega
  · refine ⟨rfl, rfl, ?_⟩
    simp only [u16_val]
    omega
  · omega

theorem branchTaken_spec (off : Nat) (hoff : off < 256) (s : CPU)
    (hrel : s.addr_rel.val = if off < 128 then off else off + 0xFF00) :
    BranchSpec true off s (branchTaken s).2 := by
  have hpc := s.PC.isLt
  have hcy := s.cycles.isLt
  simp only [BranchSpec, branchTaken, reduceIte, u16_val, u8_val, and_0xFF00, hrel, signed8]
  split_ifs <;> simp only [u8_val, u16_val] <;> repeat' apply And.intro
  all_goals first | exact True.intro | omega

/-- C4. Each of the eight branch routines, entered after `Relative` fetched the offset byte
at `PC`, changes nothing when its flag condition is false; when the condition is true it sets
`PC` to `T = (PC + sign-extended offset) mod 65536` and raises the (8-bit) cycle counter by 1
when `T` and `PC` share their high byte and by 2 when they do not, leaving `A`, `X`, `Y`, `SP`,
`P` and the bus unchanged.  Both `Relative` and the branch routine return penalty signal 0. -/
theorem C4_branch (s0 : CPU) :
    let off := (s0.mem.Read s0.PC).1.val
    let s := (Relative s0).2
    (Relative s0).1 = 0 ∧ s.PC.val = (s0.PC.val + 1) % 65536 ∧
    (BranchSpec (!GetFlag s CARRY) off s (BCC s).2 ∧ (BCC s).1 = 0) ∧
    (BranchSpec (GetFlag s CARRY) off s (BCS s).2 ∧ (BCS s).1 = 0) ∧
    (BranchSpec (GetFlag s ZERO) off s (BEQ s).2 ∧ (BEQ s).1 = 0) ∧
    (BranchSpec (GetFlag s NEGATIVE) off s (BMI s).2 ∧ (BMI s).1 = 0) ∧
    (BranchSpec (!GetFlag s ZERO) off s (BNE s).2 ∧ (BNE s).1 = 0) ∧
    (BranchSpec (!GetFlag s NEGATIVE) off s (BPL s).2 ∧ (BPL s).1 = 0) ∧
    (BranchSpec (!GetFlag s OVERFLOW_FLAG) off s (BVC s).2 ∧ (BVC s).1 = 0) ∧
    (BranchSpec (GetFlag s OVERFLOW_FLAG) off s (BVS s).2 ∧ (BVS s).1 = 0) := by
  intro off s
  obtain ⟨r1, r2, r3⟩ := Relative_spec s0
  have hoff : off < 256 := (s0.mem.Read s0.PC).1.isLt
  have ht := branchTaken_spec off hoff s r3
  have hnt : ∀ r : CPU, r = s → BranchSpec false off s r := by
    intro r hr
    simp only [BranchSpec, Bool.false_eq_true, reduceIte, hr]
  have e1 : BCC s = if !GetFlag s CARRY then branchTaken s else (0, s) := rfl
  have e2 : BCS s = if GetFlag s CARRY then branchTaken s else (0, s) := rfl
  have e3 : BEQ s = if GetFlag s ZERO then branchTaken s else (0, s) := rfl
  have e4 : BMI s = if GetFlag s NEGATIVE then branchTaken s else (0, s) := rfl
  have e5 : BNE s = if !GetFlag s ZERO then branchTaken s else (0, s) := rfl
  have e6 : BPL s = if !GetFlag s NEGATIVE then branchTaken s else (0, s) := rfl
  have e7 : BVC s = if !GetFlag s OVERFLOW_FLAG then branchTaken s else (0, s) := rfl
  have e8 : BVS s = if GetFlag s OVERFLOW_FLAG then branchTaken s else (0, s) := rfl
  have key : ∀ (b : Bool) (f : Byte × CPU), f = (if b then branchTaken s else (0, s)) →
      BranchSpec b off s f.2 ∧ f.1 = 0 := by
    intro b f hf
    cases b
    · rw [hf]; exact ⟨hnt _ rfl, rfl⟩
    · rw [hf]; exact ⟨ht, rfl⟩
  exact ⟨r1, r2, key _ _ e1, key _ _ e2, key _ _ e3, key _ _ e4, key _ _ e5, key _ _ e6,
    key _ _ e7, key _ _ e8⟩

end CPU

end NES

namespace NES

namespace CPU

theorem Memory_Write_ram (m : Memory) (a : Word) (d : Byte) (h : a.val < 0x2000) :
    m.Write a d = { m with RAM := fun k => if k = a.val % 0x0800 then d else m.RAM k } := by
  unfold Memory.Write
  rw [if_pos h]

theorem Memory_Read_prg (m : Memory) (a : Word) (h : 0x8000 ≤ a.val) :
    m.Read a = (m.cartridge.PRG_ROM.getD ((a.val - 0x8000) % m.cartridge.PRG_ROM.length) 0, m) := by
  unfold Memory.Read
  rw [if_neg (by omega), if_neg (by omega), if_neg (by omega), if_pos (by omega)]

set_option maxRecDepth 100000 in
theorem nmi_status : ∀ P : Byte,
    setP (setP (setP P BREAK_FLAG false) UNUSED true) INTERRUPT true
      = u8 ((P.val &&& 0xEF) ||| 0x24) ∧
    u8 ((setP (setP (setP P BREAK_FLAG false) UNUSED true) INTERRUPT true).val ||| UNUSED.val)
      = u8 ((P.val &&& 0xEF) ||| 0x24) := by
  decide

theorem exCPU_prg_pos (code : List Byte) (x : Byte) :
    0 < (exCPU code x).mem.cartridge.PRG_ROM.length := by
  show 0 < (List.replicate 16384 (0xEA : Byte)).length
  rw [List.length_replicate]
  decide

/-- C5. `NMI` pushes the program counter's high byte at `0x0100 + SP`, its low byte at
`0x0100 + (SP - 1) mod 256` and the status byte with break clear and unused and
interrupt-disable set at `0x0100 + (SP - 2) mod 256`, in this order; afterwards
`SP = (SP - 3) mod 256`, `PC` is the little-endian word at `0xFFFA`/`0xFFFB`, the pending-cycle
counter is 7 and `A`, `X`, `Y` are unchanged, for every status byte on entry (the
interrupt-disable flag is not consulted). -/
theorem C5_NMI (s : CPU) (_hprg : 0 < s.mem.cartridge.PRG_ROM.length) :
    NMISpec s (NMI s) := by
  have hsp := s.SP.isLt
  have hpc := s.PC.isLt
  have e2 : u16 (0x0100 + (u8i ((s.SP.val : Int) - 1)).val)
      = u16 (0x0100 + (((s.SP.val : Int) - 1) % 256).toNat) := by rw [u8i_val]
  have e3 : u16 (0x0100 + (u8i (((u8i ((s.SP.val : Int) - 1)).val : Int) - 1)).val)
      = u16 (0x0100 + (((s.SP.val : Int) - 2) % 256).toNat) := by
    apply Fin.ext; simp only [u16_val, u8i_val]; omega
  have d1 : u8 ((s.PC.val >>> 8) &&& 0xFF) = u8 (s.PC.val / 256) := by
    apply Fin.ext
    simp only [u8_val, and_0x00FF, Nat.shiftRight_eq_div_pow]
    omega
  have d2 : u8 (s.PC.val &&& 0xFF) = u8 (s.PC.val % 256) := by
    apply Fin.ext
    simp only [u8_val, and_0x00FF]
  obtain ⟨st1, st2⟩ := nmi_status s.P
  rw [st1] at st2
  have w1 : (u16 (0x0100 + s.SP.val)).val < 0x2000 := by simp only [u16_val]; omega
  have w2 : (u16 (0x0100 + (((s.SP.val : Int) - 1) % 256).toNat)).val < 0x2000 := by
    simp only [u16_val]; omega
  have w3 : (u16 (0x0100 + (((s.SP.val : Int) - 2) % 256).toNat)).val < 0x2000 := by
    simp only [u16_val]; omega
  have v1 : (0x0100 + s.SP.val) % 65536 % 0x0800 = 0x0100 + s.SP.val := by omega
  have v2 : (0x0100 + (((s.SP.val : Int) - 1) % 256).toNat) % 65536 % 0x0800
      = 0x0100 + (((s.SP.val : Int) - 1) % 256).toNat := by omega
  have v3 : (0x0100 + (((s.SP.val : Int) - 2) % 256).toNat) % 65536 % 0x0800
      = 0x0100 + (((s.SP.val : Int) - 2) % 256).toNat := by omega
  have ra : (0x8000 : Nat) ≤ (0xFFFA : Word).val := by decide
  have rb : (0x8000 : Nat) ≤ (0xFFFB : Word).val := by decide
  have ca : (0xFFFA : Word).val - 0x8000 = 0x7FFA := by decide
  have cb : (0xFFFB : Word).val - 0x8000 = 0x7FFB := by decide
  have c7 : (7 : Byte).val = 7 := by decide
  have hlo := (s.mem.cartridge.PRG_ROM.getD (0x7FFA % s.mem.cartridge.PRG_ROM.length) 0).isLt
  have hhi := (s.mem.cartridge.PRG_ROM.getD (0x7FFB % s.mem.cartridge.PRG_ROM.length) 0).isLt
  unfold NMISpec NMI
  simp only [Write, Read_eq, SetFlag_eq, e2, e3, d1, d2, st1, st2,
    Memory_Read_prg _ _ ra, Memory_Read_prg _ _ rb]
  simp only [Memory_Write_ram _ _ _ w1, Memory_Write_ram _ _ _ w2, Memory_Write_ram _ _ _ w3,
    v1, v2, v3, u8i_val, u16_val, ca, cb, c7]
  refine ⟨trivial, trivial, trivial, trivial, trivial, by omega, ?_, trivial, trivial, trivial,
    trivial, trivial, trivial, trivial⟩
  rw [Nat.mod_eq_of_lt (by omega : (s.mem.cartridge.PRG_ROM.getD
        (0x7FFB % s.mem.cartridge.PRG_ROM.length) 0).val < 65536),
    Nat.mod_eq_of_lt (by omega : (s.mem.cartridge.PRG_ROM.getD
        (0x7FFA % s.mem.cartridge.PRG_ROM.length) 0).val < 65536),
    shl8_or _ _ hlo, or_shl8 _ _ hlo]
  omega

/-- C5 at the example state. -/
theorem C5_NMI_witness :
    0 < (exCPU [] 0).mem.cartridge.PRG_ROM.length ∧ NMISpec (exCPU [] 0) (NMI (exCPU [] 0)) :=
  ⟨exCPU_prg_pos [] 0, C5_NMI (exCPU [] 0) (exCPU_prg_pos [] 0)⟩

end CPU

end NES

namespace NES

namespace CPU

/-- C6. `AbsoluteX` (`AbsoluteY`) takes the 16-bit little-endian base `B` from the two code
bytes at `PC`, sets the effective address to `(B + X) mod 65536` (`(B + Y) mod 65536`),
advances `PC` by 2 and returns 1 exactly when `(B mod 256) + X ≥ 256` (`... + Y`), else 0. -/
theorem C6_indexed (s : CPU) :
    ((AbsoluteX s).2.addr_abs.val = (operand16 s + s.X.val) % 65536 ∧
      (AbsoluteX s).2.PC.val = (s.PC.val + 2) % 65536 ∧
      (AbsoluteX s).1 = (if operand16 s % 256 + s.X.val ≥ 256 then 1 else 0)) ∧
    ((AbsoluteY s).2.addr_abs.val = (operand16 s + s.Y.val) % 65536 ∧
      (AbsoluteY s).2.PC.val = (s.PC.val + 2) % 65536 ∧
      (AbsoluteY s).1 = (if operand16 s % 256 + s.Y.val ≥ 256 then 1 else 0)) :=
  indexed_spec s

end CPU

end NES

namespace NES

namespace CPU

theorem Memory_Read_pure (m : Memory) (a : Word) (h : sideEffectFree a.val) :
    (m.Read a).2 = m := by
  obtain ⟨h1, h2⟩ := h
  unfold Memory.Read
  split_ifs <;> rfl

theorem ptr_of_bytes (l h : Nat) (hl : l < 256) (hh : h < 256) :
    ((l % 65536) ||| (h <<< 8)) % 65536 = l + 256 * h := by
  rw [Nat.mod_eq_of_lt (by omega : l < 65536), or_shl8 h l hl]
  omega

/-- C7. `Indirect` returns 0, advances `PC` by 2 and sets the effective address to
`mem[p] | (mem[h] << 8)`, where `p` is the pointer in the two code bytes at `PC` and `h` is
`p & 0xFF00` when the low byte of `p` is `0xFF` and `(p + 1) mod 65536` otherwise, provided
`p` and `h` are addresses whose read has no side effect. -/
theorem C7_Indirect (s : CPU) (hp : sideEffectFree (operand16 s))
    (hh : sideEffectFree (indirectHigh (operand16 s))) :
    IndirectSpec s (Indirect s) := by
  have hl := (codeLo s).isLt
  have hhi := (codeHi s).isLt
  have hpc := s.PC.isLt
  have hw := ptr_of_bytes _ _ hl hhi
  have f1 : (s.mem.Read s.PC).1 = codeLo s := rfl
  have f2 : ((s.mem.Read s.PC).2.Read (u16 (s.PC.val + 1))).1 = codeHi s := rfl
  have f3 : ((s.mem.Read s.PC).2.Read (u16 (s.PC.val + 1))).2 = busAfterOperand s := rfl
  have f4 : (codeLo s).val + 256 * (codeHi s).val = operand16 s := rfl
  have hp16 : operand16 s < 65536 := by unfold operand16; omega
  have hpm : operand16 s % 65536 = operand16 s := Nat.mod_eq_of_lt hp16
  have hpv : (u16 (operand16 s)).val = operand16 s := by rw [u16_val]; exact hpm
  have hih : indirectHigh (operand16 s) < 65536 := by
    unfold indirectHigh
    rw [and_0xFF00]
    split_ifs <;> omega
  have hhv : (u16 (indirectHigh (operand16 s))).val = indirectHigh (operand16 s) := by
    rw [u16_val]; exact Nat.mod_eq_of_lt hih
  have q1 := Memory_Read_pure (busAfterOperand s) (u16 (indirectHigh (operand16 s)))
    (by rw [hhv]; exact hh)
  have q2 := Memory_Read_pure (busAfterOperand s) (u16 (operand16 s)) (by rw [hpv]; exact hp)
  have hb1 := ((busAfterOperand s).Read (u16 (operand16 s))).1.isLt
  have hb2 := ((busAfterOperand s).Read (u16 (indirectHigh (operand16 s)))).1.isLt
  have hor := shl8_or ((busAfterOperand s).Read (u16 (indirectHigh (operand16 s)))).1.val _ hb1
  have hor2 := or_shl8 ((busAfterOperand s).Read (u16 (indirectHigh (operand16 s)))).1.val _ hb1
  have hfin : (((busAfterOperand s).Read (u16 (indirectHigh (operand16 s)))).1.val <<< 8
        ||| ((busAfterOperand s).Read (u16 (operand16 s))).1.val) % 65536
      = ((busAfterOperand s).Read (u16 (operand16 s))).1.val
        ||| ((busAfterOperand s).Read (u16 (indirectHigh (operand16 s)))).1.val <<< 8 := by
    rw [hor, hor2]; omega
  have hptr : u16 ((codeLo s).val % 65536 ||| (codeHi s).val <<< 8) = u16 (operand16 s) := by
    apply Fin.ext
    rw [u16_val, u16_val, hw, hpm]
    rfl
  unfold IndirectSpec Indirect
  simp only [FetchByte, Read_eq, u16_val, f1, f2, f3, hw, f4, and_0x00FF, hpm, hptr]
  by_cases hc : operand16 s % 256 = 255
  · have hi : indirectHigh (operand16 s) = operand16 s &&& 0xFF00 := by
      unfold indirectHigh; rw [if_pos hc]
    rw [if_pos hc]
    rw [← hi, q1]
    simp only [u16_val, hfin, hptr]
    exact ⟨trivial, by omega, trivial, q2⟩
  · have hi : indirectHigh (operand16 s) = (operand16 s + 1) % 65536 := by
      unfold indirectHigh; rw [if_neg hc]
    have hi2 : u16 (operand16 s + 1) = u16 (indirectHigh (operand16 s)) := by
      apply Fin.ext; rw [hhv, hi, u16_val]
    rw [if_neg hc]
    rw [hi2, q1]
    simp only [u16_val, hfin, hptr]
    exact ⟨trivial, by omega, trivial, q2⟩

/-- C7 at a state whose code bytes hold the pointer `0x02FF`: the high byte of the target is
read from `0x0200`. -/
theorem C7_Indirect_witness :
    sideEffectFree (operand16 (exCPU [0xFF, 0x02] 0)) ∧
    sideEffectFree (indirectHigh (operand16 (exCPU [0xFF, 0x02] 0))) ∧
    operand16 (exCPU [0xFF, 0x02] 0) = 0x02FF ∧
    indirectHigh (operand16 (exCPU [0xFF, 0x02] 0)) = 0x0200 ∧
    IndirectSpec (exCPU [0xFF, 0x02] 0) (Indirect (exCPU [0xFF, 0x02] 0)) :=
  ⟨by decide, by decide, by decide, by decide,
    C7_Indirect (exCPU [0xFF, 0x02] 0) (by decide) (by decide)⟩

end CPU

end NES

namespace NES

namespace CPU

/-- C8, as stated, fails at `LDA $10FF,X` with `X = 1` on a running processor whose counter
is 0: the descriptor's base cost is 4 and both penalty signals are 1, yet the call leaves the
counter at 4 and not at `4 + (1 AND 1) = 5`. -/
theorem C8_counterexample :
    exLDAcross.running = true ∧ exLDAcross.cycles.val = 0 ∧
    (FetchByte exLDAcross).1.val = 0xBD ∧
    (slot exLDAcross 0xBD).cycles.val = 4 ∧
    (afterAddr exLDAcross).1.val = 1 ∧ (afterOp exLDAcross).1.val = 1 ∧
    (ExecuteInstruction exLDAcross).cycles.val = 4 ∧
    ¬ ((ExecuteInstruction exLDAcross).cycles.val
        = (slot exLDAcross 0xBD).cycles.val
          + ((afterAddr exLDAcross).1.val &&& (afterOp exLDAcross).1.val)) := by
  decide!

theorem and_penalty (a b : Nat) (hb : b ≤ 1) : a &&& b ≤ 1 :=
  Nat.le_trans Nat.and_le_right hb

theorem step_cycles (c k : Nat) (hc : 2 ≤ c) (hc7 : c ≤ 7) (hk : k ≤ 1) :
    (u8i (((u8 (c + k)).val : Int) - 1)).val = c + k - 1 := by
  simp only [u8i_val, u8_val]
  omega

theorem branchTaken_cycles (s : CPU) (h : s.cycles.val = 2) :
    3 ≤ (branchTaken s).2.cycles.val ∧ (branchTaken s).2.cycles.val ≤ 4 := by
  unfold branchTaken
  dsimp only
  split_ifs <;> simp only [u8_val, h] <;> omega

/-- C8 (amended). With the table of `InitializeOpcodeTable`, a call on a running processor
whose counter is 0 fetches the opcode at `PC`, runs its addressing-mode routine and then its
operation routine, adds the AND of the two penalty signals to the counter and takes off the
cycle the call itself consumes.  For every opcode but `0x90` the counter is left at
base cost + (signal AND signal) - 1; for `0x90` (BCC) both signals are 0 and the counter is
left one below what the branch routine made of the base cost 2.  `LDA absolute,X` (`0xBD`)
leaves 4 when adding `X` crosses a page and 3 when not, `ASL absolute,X` (`0x1E`) leaves 6. -/
theorem C8_step (s : CPU) (hl : s.lookup = opcodeTable []) (hr : s.running = true)
    (hc : s.cycles.val = 0) :
    ExecuteInstruction s =
      { (afterOp s).2 with
        cycles := u8i (((u8 ((afterOp s).2.cycles.val
          + ((afterAddr s).1.val &&& (afterOp s).1.val))).val : Int) - 1) } ∧
    ((FetchByte s).1.val ≠ 0x90 →
      (ExecuteInstruction s).cycles.val
        = (slot s (FetchByte s).1.val).cycles.val
          + ((afterAddr s).1.val &&& (afterOp s).1.val) - 1) ∧
    ((FetchByte s).1.val = 0x90 →
      (afterAddr s).1.val = 0 ∧ (afterOp s).1.val = 0 ∧
      (ExecuteInstruction s).cycles.val = (afterOp s).2.cycles.val - 1 ∧
      2 ≤ (afterOp s).2.cycles.val ∧ (afterOp s).2.cycles.val ≤ 4) ∧
    ((FetchByte s).1.val = 0xBD →
      (ExecuteInstruction s).cycles.val
        = if operand16 (decoded s) % 256 + s.X.val ≥ 256 then 4 else 3) ∧
    ((FetchByte s).1.val = 0x1E → (ExecuteInstruction s).cycles.val = 6) := by
  have hstep := ExecuteInstruction_fetch s hl hr hc
  have hb := (FetchByte s).1.isLt
  have hcyc : (ExecuteInstruction s).cycles
      = u8i (((u8 ((afterOp s).2.cycles.val
          + ((afterAddr s).1.val &&& (afterOp s).1.val))).val : Int) - 1) := by
    rw [hstep]
  have hd : (decoded s).cycles = (slot s (FetchByte s).1.val).cycles := rfl
  have hac : (afterAddr s).2.cycles = (slot s (FetchByte s).1.val).cycles := by
    unfold afterAddr
    rw [(callAddrmode_frame _ _).2.2.2.1, hd]
  obtain ⟨t1, t2, t3, t4, t5, t6⟩ := table_facts_nat _ hb
  rw [← slot_table s hl] at t1 t2 t3 t4 t5 t6
  obtain ⟨⟨c1, r1⟩, ⟨c2, r2⟩, ⟨c3, r3⟩, ⟨c4, r4⟩, ⟨c5, r5⟩⟩ := table_ops_cycles (afterAddr s).2
  have one : ((1 : Byte).val) = 1 := rfl
  have zero : ((0 : Byte).val) = 0 := rfl
  refine ⟨hstep, ?_, ?_, ?_, ?_⟩
  · intro hne
    have key : (afterOp s).2.cycles = (slot s (FetchByte s).1.val).cycles ∧
        (afterOp s).1.val ≤ 1 := by
      unfold afterOp
      rcases t6 hne with h | h | h | h | h <;> rw [h] <;> simp only [callOperate]
      · exact ⟨by rw [c1, hac], by rw [r1, one]⟩
      · exact ⟨by rw [c2, hac], by rw [r2, one]⟩
      · exact ⟨by rw [c3, hac], by rw [r3, zero]; omega⟩
      · exact ⟨by rw [c4, hac], by rw [r4, one]⟩
      · exact ⟨by rw [c5, hac], by rw [r5, zero]; omega⟩
    rw [hcyc, key.1]
    exact step_cycles _ _ t3 t4 (and_penalty _ _ key.2)
  · intro h90
    have hs : slot s (FetchByte s).1.val = (opcodeTable []).getD 0x90 default := by
      rw [slot_table s hl, h90]
    rw [table_entries.2.2] at hs
    have ha1 : afterAddr s = Relative (decoded s) := by
      unfold afterAddr; rw [hs]; rfl
    have ha2 : afterOp s = BCC (afterAddr s).2 := by
      unfold afterOp; rw [hs]; rfl
    have hrel1 : (afterAddr s).1 = 0 := by
      rw [ha1]; unfold Relative; dsimp only; split_ifs <;> rfl
    have hc2 : (afterAddr s).2.cycles.val = 2 := by rw [hac, hs]; rfl
    have hbcc : (afterOp s).1 = 0 ∧ 2 ≤ (afterOp s).2.cycles.val ∧
        (afterOp s).2.cycles.val ≤ 4 := by
      rw [ha2]
      have e : BCC (afterAddr s).2 = if !GetFlag (afterAddr s).2 CARRY
          then branchTaken (afterAddr s).2 else (0, (afterAddr s).2) := rfl
      rw [e]
      split_ifs
      · have := branchTaken_cycles _ hc2
        exact ⟨rfl, by omega, this.2⟩
      · exact ⟨rfl, by show 2 ≤ (afterAddr s).2.cycles.val; omega,
          by show (afterAddr s).2.cycles.val ≤ 4; omega⟩
    refine ⟨by rw [hrel1, zero], by rw [hbcc.1, zero], ?_, hbcc.2.1, hbcc.2.2⟩
    rw [hcyc, hrel1, hbcc.1]
    simp only [u8i_val, u8_val, zero, Nat.and_self, Nat.add_zero]
    omega
  · intro hBD
    have hs : slot s (FetchByte s).1.val = (opcodeTable []).getD 0xBD default := by
      rw [slot_table s hl, hBD]
    rw [table_entries.1] at hs
    have ha1 : afterAddr s = AbsoluteX (decoded s) := by
      unfold afterAddr; rw [hs]; rfl
    have ha2 : afterOp s = LDA (afterAddr s).2 := by
      unfold afterOp; rw [hs]; rfl
    have hx : (decoded s).X = s.X := rfl
    have hsig := (indexed_spec (decoded s)).1.2.2
    rw [hx] at hsig
    have hc4 : (afterAddr s).2.cycles.val = 4 := by rw [hac, hs]; rfl
    rw [hcyc, ha2, c4, r4, hc4, ha1, hsig, one]
    split_ifs
    · rw [one]; simp only [u8i_val, u8_val, Nat.and_self]; omega
    · rw [zero]; simp only [u8i_val, u8_val, Nat.zero_and]; omega
  · intro h1E
    have hs : slot s (FetchByte s).1.val = (opcodeTable []).getD 0x1E default := by
      rw [slot_table s hl, h1E]
    rw [table_entries.2.1] at hs
    have ha2 : afterOp s = ASL (afterAddr s).2 := by
      unfold afterOp; rw [hs]; rfl
    have hc7 : (afterAddr s).2.cycles.val = 7 := by rw [hac, hs]; rfl
    rw [hcyc, ha2, c3, r3, hc7, zero]
    simp only [u8i_val, u8_val, Nat.and_zero]
    omega

/-- C8 (amended) at `LDA $10FF,X` with `X = 1` (page crossed, counter left at 4) and with
`X = 0` (no page crossed, counter left at 3). -/
theorem C8_step_witness :
    (exLDAcross.lookup = opcodeTable [] ∧ exLDAcross.running = true ∧
      exLDAcross.cycles.val = 0 ∧ (FetchByte exLDAcross).1.val = 0xBD ∧
      (ExecuteInstruction exLDAcross).cycles.val
        = (if operand16 (decoded exLDAcross) % 256 + exLDAcross.X.val ≥ 256 then 4 else 3)) ∧
    (exLDAsame.lookup = opcodeTable [] ∧ exLDAsame.running = true ∧
      exLDAsame.cycles.val = 0 ∧ (FetchByte exLDAsame).1.val = 0xBD ∧
      (ExecuteInstruction exLDAsame).cycles.val
        = (if operand16 (decoded exLDAsame) % 256 + exLDAsame.X.val ≥ 256 then 4 else 3)) :=
  ⟨⟨rfl, rfl, rfl, by decide!, (C8_step exLDAcross rfl rfl rfl).2.2.2.1 (by decide!)⟩,
    ⟨rfl, rfl, rfl, by decide!, (C8_step exLDAsame rfl rfl rfl).2.2.2.1 (by decide!)⟩⟩

end CPU

end NES

namespace NES

namespace CPU

/-- C9. On a running processor with `n > 0` pending cycles `ExecuteInstruction` only lowers
the counter to `n - 1`: every other field of the processor and the whole bus (RAM,
picture unit, controller, cartridge) are as before.  On a halted processor the call changes
nothing. -/
theorem C9_pending (s : CPU) :
    (s.running = true → 0 < s.cycles.val →
      ExecuteInstruction s = { s with cycles := u8 (s.cycles.val - 1) } ∧
      (ExecuteInstruction s).cycles.val = s.cycles.val - 1) ∧
    (s.running = false → ExecuteInstruction s = s) := by
  have hc := s.cycles.isLt
  constructor
  · intro hr hn
    have e : u8i ((s.cycles.val : Int) - 1) = u8 (s.cycles.val - 1) := by
      apply Fin.ext
      simp only [u8i_val, u8_val]
      omega
    have h : ExecuteInstruction s = { s with cycles := u8 (s.cycles.val - 1) } := by
      unfold ExecuteInstruction
      rw [if_neg (by simp [hr]), if_neg (by omega), e]
    refine ⟨h, ?_⟩
    rw [h]
    simp only [u8_val]
    omega
  · intro hr
    unfold ExecuteInstruction
    rw [if_pos (by simp [hr])]

/-- C9 at a processor with three pending cycles and at a halted processor. -/
theorem C9_pending_witness :
    (exPending.running = true ∧ 0 < exPending.cycles.val ∧
      ExecuteInstruction exPending = { exPending with cycles := u8 (exPending.cycles.val - 1) } ∧
      (ExecuteInstruction exPending).cycles.val = exPending.cycles.val - 1) ∧
    (exHalted.running = false ∧ ExecuteInstruction exHalted = exHalted) :=
  ⟨⟨rfl, by decide, (C9_pending exPending).1 rfl (by decide)⟩,
    ⟨rfl, (C9_pending exHalted).2 rfl⟩⟩

end CPU

end NES

namespace NES

namespace CPU

/-- C10. After `InitializeOpcodeTable` on the empty table of a fresh processor, the table has
256 slots, each with a non-null operation and addressing-mode pointer, and every slot whose
opcode is not assigned explicitly holds the NOP / implied descriptor with cost 2; hence
`ExecuteInstruction` never takes its fatal branch: a running processor with this table is
still running after the call, whatever opcode byte it fetches. -/
theorem C10_table_total (s0 s : CPU) (h0 : s0.lookup = [])
    (hl : s.lookup = (InitializeOpcodeTable s0).lookup) (hr : s.running = true) :
    s.lookup.length = 256 ∧
    (∀ i, i < 256 → (slot s i).operate ≠ none ∧ (slot s i).addrmode ≠ none) ∧
    (∀ i, i < 256 → i ∉ assignedOpcodes → slot s i = nopDescriptor) ∧
    (ExecuteInstruction s).running = true := by
  have e : (InitializeOpcodeTable s0).lookup = opcodeTable s0.lookup := rfl
  have ht : s.lookup = opcodeTable [] := by rw [hl, e, h0]
  have hlen : s.lookup.length = 256 := by rw [ht]; exact table_length
  refine ⟨hlen, ?_, ?_, ?_⟩
  · intro i hi
    rw [slot_table s ht]
    exact ⟨(table_facts_nat i hi).1, (table_facts_nat i hi).2.1⟩
  · intro i hi hn
    rw [slot_table s ht]
    exact (table_facts_nat i hi).2.2.2.2.1 hn
  · by_cases hc : s.cycles.val = 0
    · rw [ExecuteInstruction_fetch s ht hr hc]
      show (afterOp s).2.running = true
      unfold afterOp afterAddr decoded
      rw [(callOperate_frame _ _).1, (callAddrmode_frame _ _).1]
      exact hr
    · rw [ExecuteInstruction_unfold, if_neg (by simp [hr]), if_neg hc]
      exact hr

/-- C10 at the example processor, whose table is the one `InitializeOpcodeTable` builds. -/
theorem C10_table_total_witness :
    (exCPU [] 0).lookup.length = 256 ∧
    (∀ i, i < 256 → (slot (exCPU [] 0) i).operate ≠ none ∧
      (slot (exCPU [] 0) i).addrmode ≠ none) ∧
    (∀ i, i < 256 → i ∉ assignedOpcodes → slot (exCPU [] 0) i = nopDescriptor) ∧
    (ExecuteInstruction (exCPU [] 0)).running = true :=
  C10_table_total
    { A := 0x10, X := 0, Y := 0, SP := 0xFD, PC := 0, P := 0x24, cycles := 0, running := true,
      mem := exMem [], lookup := [], opcode := 0, fetched := 0, addr_abs := 0, addr_rel := 0 }
    (exCPU [] 0) rfl rfl rfl

end CPU

end NES

/-! # Claims C11 - C20: reset and interrupts, bus, dot clock, mirroring -/

namespace NES

namespace PPU

/-! ## What the rendering helpers leave alone -/

theorem SameControl.refl (p : PPU) : SameControl p p :=
  ⟨rfl, rfl, rfl, rfl, rfl, rfl, rfl, rfl⟩

theorem SameControl.trans {p q r : PPU} (h1 : SameControl p q) (h2 : SameControl q r) :
    SameControl p r := by
  obtain ⟨a1, a2, a3, a4, a5, a6, a7, a8⟩ := h1
  obtain ⟨b1, b2, b3, b4, b5, b6, b7, b8⟩ := h2
  exact ⟨b1.trans a1, b2.trans a2, b3.trans a3, b4.trans a4, b5.trans a5, b6.trans a6,
    b7.trans a7, b8.trans a8⟩

theorem SameControl.ite (c : Prop) [Decidable c] {p a b : PPU} (ha : SameControl p a)
    (hb : SameControl p b) : SameControl p (if c then a else b) := by
  split <;> assumption

theorem FetchBackgroundTile_same (cart : Cartridge) (p : PPU) :
    SameControl p (FetchBackgroundTile cart p) := SameControl.refl p

theorem FetchBackgroundTileAttrib_same (cart : Cartridge) (p : PPU) :
    SameControl p (FetchBackgroundTileAttrib cart p) := SameControl.refl p

theorem FetchBackgroundTileLsb_same (cart : Cartridge) (p : PPU) :
    SameControl p (FetchBackgroundTileLsb cart p) := SameControl.refl p

theorem FetchBackgroundTileMsb_same (cart : Cartridge) (p : PPU) :
    SameControl p (FetchBackgroundTileMsb cart p) := SameControl.refl p

theorem LoadBackgroundShifters_same (p : PPU) : SameControl p (LoadBackgroundShifters p) :=
  SameControl.refl p

theorem UpdateShifters_same (p : PPU) : SameControl p (UpdateShifters p) := by
  unfold UpdateShifters
  exact SameControl.ite _ (SameControl.refl p) (SameControl.refl p)

theorem IncrementScrollX_same (p : PPU) : SameControl p (IncrementScrollX p) := by
  unfold IncrementScrollX
  exact SameControl.ite _ (SameControl.ite _ (SameControl.refl p) (SameControl.refl p))
    (SameControl.refl p)

theorem IncrementScrollY_same (p : PPU) : SameControl p (IncrementScrollY p) := by
  unfold IncrementScrollY
  dsimp only
  split_ifs <;> exact ⟨rfl, rfl, rfl, rfl, rfl, rfl, rfl, rfl⟩

theorem TransferAddressX_same (p : PPU) : SameControl p (TransferAddressX p) := by
  unfold TransferAddressX
  exact SameControl.ite _ (SameControl.refl p) (SameControl.refl p)

theorem TransferAddressY_same (p : PPU) : SameControl p (TransferAddressY p) := by
  unfold TransferAddressY
  exact SameControl.ite _ (SameControl.refl p) (SameControl.refl p)

theorem RenderPixel_same (cart : Cartridge) (p : PPU) : SameControl p (RenderPixel cart p) := by
  unfold RenderPixel SetPixel
  exact SameControl.ite _ (SameControl.refl p) (SameControl.refl p)

theorem clockFetch_same (cart : Cartridge) (p : PPU) : SameControl p (clockFetch cart p) := by
  unfold clockFetch
  exact SameControl.ite _
    ((LoadBackgroundShifters_same p).trans (FetchBackgroundTile_same cart _))
    (SameControl.ite _ (FetchBackgroundTileAttrib_same cart p)
      (SameControl.ite _ (FetchBackgroundTileLsb_same cart p)
        (SameControl.ite _ (FetchBackgroundTileMsb_same cart p)
          (SameControl.ite _ (IncrementScrollX_same p) (SameControl.refl p)))))

theorem clockVisible_eq (cart : Cartridge) (p : PPU) :
    clockVisible cart p =
      if p.scanline ≥ 0 ∧ p.scanline < 240 then
        visibleRender cart (visibleTransferY (visibleReload (visibleScrollY
          (visibleFetch cart p))))
      else p := rfl

theorem clockVisible_same (cart : Cartridge) (p : PPU) :
    SameControl p (clockVisible cart p) := by
  have h1 : SameControl p (visibleFetch cart p) :=
    SameControl.ite _ ((UpdateShifters_same p).trans (clockFetch_same cart _))
      (SameControl.refl p)
  have h2 : SameControl p (visibleScrollY (visibleFetch cart p)) :=
    h1.trans (SameControl.ite _ (IncrementScrollY_same _) (SameControl.refl _))
  have h3 : SameControl p (visibleReload (visibleScrollY (visibleFetch cart p))) :=
    h2.trans (SameControl.ite _
      ((LoadBackgroundShifters_same _).trans (TransferAddressX_same _)) (SameControl.refl _))
  have h4 : SameControl p (visibleTransferY (visibleReload (visibleScrollY
      (visibleFetch cart p)))) :=
    h3.trans (SameControl.ite _ (TransferAddressY_same _) (SameControl.refl _))
  have h5 : SameControl p (visibleRender cart (visibleTransferY (visibleReload (visibleScrollY
      (visibleFetch cart p))))) :=
    h4.trans (SameControl.ite _ (RenderPixel_same cart _) (SameControl.refl _))
  rw [clockVisible_eq]
  exact SameControl.ite _ h5 (SameControl.refl p)

/-! ## One call of `Clock` on the counters, the status register and the signal -/

theorem clockVBlank_timing (p : PPU) :
    (clockVBlank p).scanline = p.scanline ∧ (clockVBlank p).cycle = p.cycle ∧
      (clockVBlank p).frameComplete = p.frameComplete := by
  unfold clockVBlank
  dsimp only
  split_ifs <;> exact ⟨rfl, rfl, rfl⟩

theorem clockPreRender_timing (p : PPU) :
    (clockPreRender p).scanline = p.scanline ∧ (clockPreRender p).cycle = p.cycle ∧
      (clockPreRender p).frameComplete =
        (if p.scanline = -1 ∧ p.cycle = 1 then false else p.frameComplete) ∧
      (clockPreRender p).nmi = p.nmi := by
  unfold clockPreRender
  split_ifs <;> exact ⟨rfl, rfl, rfl, rfl⟩

theorem clockAdvance_timing (p : PPU) :
    (clockAdvance p).cycle = (if p.cycle + 1 ≥ 341 then 0 else p.cycle + 1) ∧
      (clockAdvance p).scanline =
        (if p.cycle + 1 ≥ 341 then (if p.scanline + 1 ≥ 261 then -1 else p.scanline + 1)
          else p.scanline) ∧
      (clockAdvance p).frameComplete =
        (if p.cycle + 1 ≥ 341 ∧ p.scanline + 1 ≥ 261 then true else p.frameComplete) ∧
      (clockAdvance p).regStatus = p.regStatus ∧ (clockAdvance p).nmi = p.nmi := by
  unfold clockAdvance
  dsimp only
  by_cases h1 : p.cycle + 1 ≥ 341
  · by_cases h2 : p.scanline + 1 ≥ 261
    · simp only [h1, h2, if_true, and_self]
    · simp only [h1, h2, if_true, if_false, and_false, and_self]
  · simp only [h1, if_false, false_and, and_self]

theorem Clock_timing (cart : Cartridge) (p : PPU) :
    (Clock cart p).cycle = (if p.cycle + 1 ≥ 341 then 0 else p.cycle + 1) ∧
      (Clock cart p).scanline =
        (if p.cycle + 1 ≥ 341 then (if p.scanline + 1 ≥ 261 then -1 else p.scanline + 1)
          else p.scanline) ∧
      (Clock cart p).frameComplete =
        (if p.cycle + 1 ≥ 341 ∧ p.scanline + 1 ≥ 261 then true
          else if p.scanline = -1 ∧ p.cycle = 1 then false else p.frameComplete) := by
  obtain ⟨v1, v2, v3⟩ := clockVBlank_timing p
  obtain ⟨r1, r2, r3, _⟩ := clockPreRender_timing (clockVBlank p)
  obtain ⟨s1, s2, s3, _⟩ := clockVisible_same cart (clockPreRender (clockVBlank p))
  obtain ⟨a1, a2, a3, _⟩ :=
    clockAdvance_timing (clockVisible cart (clockPreRender (clockVBlank p)))
  unfold Clock
  rw [a1, a2, a3, s1, s2, s3, r1, r2, r3, v1, v2, v3]
  exact ⟨rfl, rfl, rfl⟩

theorem runClock_timing (cart : Cartridge) (p : PPU) (hs : p.scanline = 0) (hc : p.cycle = 0)
    (hf : p.frameComplete = false) (k : Nat) (hk : k ≤ 89342) :
    (runClock cart k p).scanline = scanlineAfter k ∧
      (runClock cart k p).cycle = ((k % 341 : Nat) : Int) ∧
      (runClock cart k p).frameComplete = frameCompleteAfter k := by
  induction k with
  | zero => exact ⟨hs, hc, hf⟩
  | succ n ih =>
    obtain ⟨i1, i2, i3⟩ := ih (by omega)
    obtain ⟨c1, c2, c3⟩ := Clock_timing cart (runClock cart n p)
    show (Clock cart (runClock cart n p)).scanline = _ ∧
      (Clock cart (runClock cart n p)).cycle = _ ∧
      (Clock cart (runClock cart n p)).frameComplete = _
    rw [c1, c2, c3, i1, i2, i3]
    unfold scanlineAfter frameCompleteAfter
    refine ⟨?_, ?_, ?_⟩
    · split_ifs <;> omega
    · split_ifs <;> omega
    · split_ifs <;> simp only [decide_eq_true_eq, decide_eq_false_iff_not, Bool.true_eq,
        Bool.false_eq, decide_eq_decide] <;> omega

theorem clearVBlank (b : Byte) : u8 (b.val &&& cnot 0x80) = u8 (b.val &&& 0x7F) := by
  revert b
  set_option maxRecDepth 100000 in decide

theorem Clock_status (cart : Cartridge) (p : PPU) :
    (Clock cart p).regStatus = (clockPreRender (clockVBlank p)).regStatus ∧
      (Clock cart p).nmi = (clockVBlank p).nmi := by
  obtain ⟨_, _, _, r4⟩ := clockPreRender_timing (clockVBlank p)
  obtain ⟨_, _, _, s4, s5, _⟩ := clockVisible_same cart (clockPreRender (clockVBlank p))
  obtain ⟨_, _, _, a4, a5⟩ :=
    clockAdvance_timing (clockVisible cart (clockPreRender (clockVBlank p)))
  unfold Clock
  rw [a4, a5, s4, s5, r4]
  exact ⟨rfl, rfl⟩

/-! ## Name-table accesses -/

theorem and_0x3FFF (x : Nat) : x &&& 0x3FFF = x % 0x4000 :=
  Nat.and_pow_two_sub_one_eq_mod x 14

theorem and_0x0FFF (x : Nat) : x &&& 0x0FFF = x % 0x1000 :=
  Nat.and_pow_two_sub_one_eq_mod x 12

theorem nametable_addr (o : Nat) (ho : o < 0x1000) :
    u16 ((u16 (0x2000 + o)).val &&& 0x3FFF) = u16 (0x2000 + o) ∧
      (u16 (0x2000 + o)).val = 0x2000 + o ∧
      u16 ((u16 (0x2000 + o)).val &&& 0x0FFF) = u16 o := by
  have e : (u16 (0x2000 + o)).val = 0x2000 + o := by
    rw [u16_val]
    omega
  refine ⟨?_, e, ?_⟩
  · rw [e, and_0x3FFF]
    congr 1
    omega
  · rw [e, and_0x0FFF]
    congr 1
    omega

theorem PPURead_nametable (cart : Cartridge) (p : PPU) (o : Nat) (ho : o < 0x1000) :
    PPURead cart p (u16 (0x2000 + o)) =
      p.nameTable ((MirrorAddress cart (u16 o)).val / 0x0400 % 2)
        ((MirrorAddress cart (u16 o)).val % 0x0400) := by
  obtain ⟨e1, e2, e3⟩ := nametable_addr o ho
  unfold PPURead
  dsimp only
  rw [e1, e3, e2, if_neg (by omega), if_pos (by omega)]

theorem PPUWrite_nametable (cart : Cartridge) (p : PPU) (o : Nat) (ho : o < 0x1000)
    (v : Byte) :
    PPUWrite cart p (u16 (0x2000 + o)) v =
      { p with nameTable := fun a b =>
          if a = (MirrorAddress cart (u16 o)).val / 0x0400 % 2 ∧
              b = (MirrorAddress cart (u16 o)).val % 0x0400 then v
          else p.nameTable a b } := by
  obtain ⟨e1, e2, e3⟩ := nametable_addr o ho
  unfold PPUWrite
  dsimp only
  rw [e1, e3, e2, if_neg (by omega), if_pos (by omega)]

theorem MirrorAddress_vertical (cart : Cartridge) (h : cart.mirror = Mirror.VERTICAL)
    (a : Word) : MirrorAddress cart a = a := by
  unfold MirrorAddress
  rw [if_pos h]

theorem MirrorAddress_horizontal (cart : Cartridge) (h : cart.mirror = Mirror.HORIZONTAL)
    (o : Nat) (ho : o < 0x1000) : (MirrorAddress cart (u16 o)).val = o % 0x0400 := by
  have hv : cart.mirror ≠ Mirror.VERTICAL := by
    rw [h]
    decide
  have e : (u16 o).val = o := by
    rw [u16_val]
    omega
  unfold MirrorAddress
  rw [if_neg hv, if_pos h, e]
  split_ifs <;> simp only [u16i_val, e] <;> omega

/-- Under horizontal mirroring every name-table access goes to physical table 0. -/
theorem horizontal_table (cart : Cartridge) (h : cart.mirror = Mirror.HORIZONTAL) (p : PPU)
    (o : Nat) (ho : o < 0x1000) (v : Byte) :
    PPURead cart p (u16 (0x2000 + o)) = p.nameTable 0 (o % 0x0400) ∧
      PPUWrite cart p (u16 (0x2000 + o)) v =
        { p with nameTable := fun a b =>
            if a = 0 ∧ b = o % 0x0400 then v else p.nameTable a b } := by
  have e := MirrorAddress_horizontal cart h o ho
  have e1 : o % 0x0400 / 0x0400 % 2 = 0 := by omega
  have e2 : o % 0x0400 % 0x0400 = o % 0x0400 := by omega
  rw [PPURead_nametable cart p o ho, PPUWrite_nametable cart p o ho, e, e1, e2]
  exact ⟨rfl, rfl⟩

end PPU

end NES

namespace NES

namespace CPU

theorem vector_word (lo hi : Byte) :
    ((hi.val % 65536) <<< 8 ||| lo.val % 65536) % 65536 = lo.val ||| (hi.val <<< 8) := by
  have hl := lo.isLt
  have hh := hi.isLt
  rw [Nat.mod_eq_of_lt (by omega : hi.val < 65536), Nat.mod_eq_of_lt (by omega : lo.val < 65536),
    shl8_or _ _ hl, or_shl8 _ _ hl]
  omega

/-- C11. `Reset`, on a bus with non-empty program storage, leaves `A = X = Y = 0`,
`SP = 0xFD`, `P = 0x24`, `PC` equal to the little-endian word at `0xFFFC`/`0xFFFD`, eight
pending cycles, and the bus exactly as it was. -/
theorem C11_Reset (s : CPU) (_hprg : 0 < s.mem.cartridge.PRG_ROM.length) :
    ResetSpec s (Reset s) := by
  have ra : (0x8000 : Nat) ≤ (0xFFFC : Word).val := by decide
  have rb : (0x8000 : Nat) ≤ (0xFFFD : Word).val := by decide
  have ca : (0xFFFC : Word).val - 0x8000 = 0x7FFC := by decide
  have cb : (0xFFFD : Word).val - 0x8000 = 0x7FFD := by decide
  have hw := vector_word (s.mem.cartridge.PRG_ROM.getD (0x7FFC % s.mem.cartridge.PRG_ROM.length) 0)
    (s.mem.cartridge.PRG_ROM.getD (0x7FFD % s.mem.cartridge.PRG_ROM.length) 0)
  unfold ResetSpec Reset
  simp only [Read_eq, Memory_Read_prg _ _ ra, Memory_Read_prg _ _ rb, ca, cb, u16_val, hw]
  exact ⟨rfl, rfl, rfl, rfl, rfl, trivial, trivial, trivial, rfl, trivial⟩

/-- C11 at the example processor. -/
theorem C11_Reset_witness :
    0 < (exCPU [] 0).mem.cartridge.PRG_ROM.length ∧ ResetSpec (exCPU [] 0) (Reset (exCPU [] 0)) :=
  ⟨exCPU_prg_pos [] 0, C11_Reset (exCPU [] 0) (exCPU_prg_pos [] 0)⟩

end CPU

end NES

namespace NES

namespace CPU

set_option maxRecDepth 100000 in
theorem brk_status : ∀ P : Byte,
    u8 ((setP P BREAK_FLAG true).val ||| BREAK_FLAG.val ||| UNUSED.val) = u8 (P.val ||| 0x30) ∧
    setP (setP (setP P BREAK_FLAG true) INTERRUPT true) BREAK_FLAG false
      = u8 ((P.val ||| 0x04) &&& 0xEF) ∧
    (((u8 ((P.val ||| 0x04) &&& 0xEF)).val &&& INTERRUPT.val) != 0) = true ∧
    (((u8 ((P.val ||| 0x04) &&& 0xEF)).val &&& BREAK_FLAG.val) != 0) = false := by
  decide

/-- C12. `BRKInstruction`, entered with the program counter just past the opcode, pushes the
high byte and then the low byte of `(PC + 1) mod 65536`, then the status byte with break and
unused forced set (`P | 0x30`) at `0x0100 + (SP - 2) mod 256`; afterwards
`SP = (SP - 3) mod 256`, interrupt-disable is set, break is clear, `PC` is the little-endian
word at `0xFFFE`/`0xFFFF` and the pending-cycle counter is 7. -/
theorem C12_BRK (s : CPU) : BRKSpec s (BRKInstruction s).2 := by
  have hsp := s.SP.isLt
  have hpc := s.PC.isLt
  have e2 : u16 (0x0100 + (u8i ((s.SP.val : Int) - 1)).val)
      = u16 (0x0100 + (((s.SP.val : Int) - 1) % 256).toNat) := by rw [u8i_val]
  have e3 : u16 (0x0100 + (u8i (((u8i ((s.SP.val : Int) - 1)).val : Int) - 1)).val)
      = u16 (0x0100 + (((s.SP.val : Int) - 2) % 256).toNat) := by
    apply Fin.ext; simp only [u16_val, u8i_val]; omega
  have d1 : u8 ((((s.PC.val + 1) % 65536) >>> 8) &&& 0xFF) = u8 ((s.PC.val + 1) % 65536 / 256) := by
    apply Fin.ext
    simp only [u8_val, and_0x00FF, Nat.shiftRight_eq_div_pow]
    omega
  have d2 : u8 (((s.PC.val + 1) % 65536) &&& 0xFF) = u8 ((s.PC.val + 1) % 65536 % 256) := by
    apply Fin.ext
    simp only [u8_val, and_0x00FF]
  obtain ⟨st1, st2, st3, st4⟩ := brk_status s.P
  have w1 : (u16 (0x0100 + s.SP.val)).val < 0x2000 := by simp only [u16_val]; omega
  have w2 : (u16 (0x0100 + (((s.SP.val : Int) - 1) % 256).toNat)).val < 0x2000 := by
    simp only [u16_val]; omega
  have w3 : (u16 (0x0100 + (((s.SP.val : Int) - 2) % 256).toNat)).val < 0x2000 := by
    simp only [u16_val]; omega
  have v1 : (0x0100 + s.SP.val) % 65536 % 0x0800 = 0x0100 + s.SP.val := by omega
  have v2 : (0x0100 + (((s.SP.val : Int) - 1) % 256).toNat) % 65536 % 0x0800
      = 0x0100 + (((s.SP.val : Int) - 1) % 256).toNat := by omega
  have v3 : (0x0100 + (((s.SP.val : Int) - 2) % 256).toNat) % 65536 % 0x0800
      = 0x0100 + (((s.SP.val : Int) - 2) % 256).toNat := by omega
  have ra : (0x8000 : Nat) ≤ (0xFFFE : Word).val := by decide
  have rb : (0x8000 : Nat) ≤ (0xFFFF : Word).val := by decide
  have c7 : (7 : Byte).val = 7 := by decide
  unfold BRKSpec BRKInstruction GetFlag
  simp only [Write, Read_eq, SetFlag_eq, u16_val, e2, e3, d1, d2, st1, st2, st3, st4,
    Memory_Read_prg _ _ ra, Memory_Read_prg _ _ rb]
  simp only [Memory_Write_ram _ _ _ w1, Memory_Write_ram _ _ _ w2, Memory_Write_ram _ _ _ w3,
    v1, v2, v3, u8i_val, u16_val, c7]
  refine ⟨trivial, trivial, by omega, trivial, trivial, trivial, ?_, trivial, trivial, trivial,
    trivial⟩
  rw [Nat.mod_eq_of_lt]
  have := (s.mem.cartridge.PRG_ROM.getD
    (((0xFFFE : Word).val - 32768) % s.mem.cartridge.PRG_ROM.length) 0).isLt
  have h2 := (s.mem.cartridge.PRG_ROM.getD
    (((0xFFFF : Word).val - 32768) % s.mem.cartridge.PRG_ROM.length) 0).isLt
  rw [or_shl8 _ _ this]
  omega

end CPU

end NES

namespace NES

namespace CPU

theorem Memory_Read_ram (m : Memory) (a : Word) (h : a.val < 0x2000) :
    m.Read a = (m.RAM (a.val % 0x0800), m) := by
  unfold Memory.Read
  rw [if_pos h]

set_option maxRecDepth 100000 in
theorem rti_status : ∀ b : Byte,
    u8 ((b.val &&& cnot BREAK_FLAG.val) % 256 &&& cnot UNUSED.val) = u8 (b.val &&& 0xCF) := by
  decide

/-- C13. `RTI` sets `P` to the byte at `0x0100 + (SP + 1) mod 256` with the break and unused
bits cleared, `PC` to the little-endian word at `0x0100 + (SP + 2) mod 256` and
`0x0100 + (SP + 3) mod 256`, `SP` to `(SP + 3) mod 256`, and leaves `A`, `X`, `Y` and the bus
unchanged. -/
theorem C13_RTI (s : CPU) : RTISpec s (RTI s).2 := by
  have hsp := s.SP.isLt
  have w1 : (u16 (0x0100 + (s.SP.val + 1) % 256)).val < 0x2000 := by
    simp only [u16_val]; omega
  have w2 : (u16 (0x0100 + (s.SP.val + 2) % 256)).val < 0x2000 := by
    simp only [u16_val]; omega
  have w3 : (u16 (0x0100 + (s.SP.val + 3) % 256)).val < 0x2000 := by
    simp only [u16_val]; omega
  have e2 : u16 (0x0100 + ((s.SP.val + 1) % 256 + 1) % 256) = u16 (0x0100 + (s.SP.val + 2) % 256) := by
    apply Fin.ext; simp only [u16_val]; omega
  have e3 : u16 (0x0100 + (((s.SP.val + 1) % 256 + 1) % 256 + 1) % 256)
      = u16 (0x0100 + (s.SP.val + 3) % 256) := by
    apply Fin.ext; simp only [u16_val]; omega
  have v1 : (0x0100 + (s.SP.val + 1) % 256) % 65536 % 0x0800 = 0x0100 + (s.SP.val + 1) % 256 := by
    omega
  have v2 : (0x0100 + (s.SP.val + 2) % 256) % 65536 % 0x0800 = 0x0100 + (s.SP.val + 2) % 256 := by
    omega
  have v3 : (0x0100 + (s.SP.val + 3) % 256) % 65536 % 0x0800 = 0x0100 + (s.SP.val + 3) % 256 := by
    omega
  have hw := vector_word (s.mem.RAM (0x0100 + (s.SP.val + 2) % 256))
    (s.mem.RAM (0x0100 + (s.SP.val + 3) % 256))
  unfold RTISpec RTI
  simp only [Read_eq, u8_val, e2, e3, Memory_Read_ram _ _ w1, Memory_Read_ram _ _ w2,
    Memory_Read_ram _ _ w3, rti_status]
  simp only [u16_val, v1, v2, v3, hw]
  refine ⟨trivial, trivial, trivial, trivial, trivial, by omega, trivial, trivial, trivial, trivial⟩

end CPU

end NES

namespace NES

/-- C14. For bus addresses `a, b < 0x2000`, after `Write(a, v)` a `Read(b)` returns `v` when
`a` and `b` are congruent modulo `0x0800` and what it returned before the write when they are
not.  The addresses of the 8 KiB window congruent to `a` are exactly the four addresses
`k`, `k + 0x0800`, `k + 0x1000`, `k + 0x1800` with `k = a mod 0x0800`, and each of them reads
the RAM byte `k`. -/
theorem C14_ram_mirror (m : Memory) (a b : Word) (v : Byte) (ha : a.val < 0x2000)
    (hb : b.val < 0x2000) :
    (a.val % 0x0800 = b.val % 0x0800 → ((m.Write a v).Read b).1 = v) ∧
    (a.val % 0x0800 ≠ b.val % 0x0800 → ((m.Write a v).Read b).1 = (m.Read b).1) ∧
    (∀ c : Nat, c < 0x2000 →
      (c % 0x0800 = a.val % 0x0800 ↔
        c = a.val % 0x0800 ∨ c = a.val % 0x0800 + 0x0800 ∨ c = a.val % 0x0800 + 0x1000 ∨
        c = a.val % 0x0800 + 0x1800)) ∧
    (∀ j : Nat, j < 4 → (m.Read (u16 (a.val % 0x0800 + 0x0800 * j))).1 = m.RAM (a.val % 0x0800)) := by
  refine ⟨?_, ?_, ?_, ?_⟩
  · intro h
    rw [CPU.Memory_Write_ram m a v ha, CPU.Memory_Read_ram _ b hb]
    simp only [h, if_true]
  · intro h
    rw [CPU.Memory_Write_ram m a v ha, CPU.Memory_Read_ram _ b hb, CPU.Memory_Read_ram m b hb]
    have : ¬ b.val % 0x0800 = a.val % 0x0800 := fun e => h e.symm
    simp only [this, if_false]
  · intro c hc
    omega
  · intro j hj
    have h1 : (u16 (a.val % 0x0800 + 0x0800 * j)).val < 0x2000 := by
      simp only [u16_val]; omega
    rw [CPU.Memory_Read_ram m _ h1]
    have h2 : (u16 (a.val % 0x0800 + 0x0800 * j)).val % 0x0800 = a.val % 0x0800 := by
      simp only [u16_val]; omega
    simp only [h2]

/-- C14 at the example bus: a write at `0x0001` is read back at `0x0801` and leaves the
byte read at `0x0002` as it was. -/
theorem C14_ram_mirror_witness :
    (0x0001 : Word).val < 0x2000 ∧ (0x0801 : Word).val < 0x2000 ∧
    (0x0002 : Word).val < 0x2000 ∧
    (((exMem []).Write 0x0001 0x5A).Read 0x0801).1 = 0x5A ∧
    (((exMem []).Write 0x0001 0x5A).Read 0x0002).1 = ((exMem []).Read 0x0002).1 :=
  ⟨by decide, by decide, by decide,
    (C14_ram_mirror (exMem []) 0x0001 0x0801 0x5A (by decide) (by decide)).1 (by decide),
    (C14_ram_mirror (exMem []) 0x0001 0x0002 0x5A (by decide) (by decide)).2.1 (by decide)⟩

end NES

namespace NES

/-- C15. With non-empty program storage of size `n`, a `Read` of an address `a ≥ 0x8000`
returns program-storage byte `(a - 0x8000) mod n` and leaves the bus as it was (with
`n = 16384`, the reads at `a` and `a + 0x4000` agree for `0x8000 ≤ a < 0xC000`); a `Write` to
an address `≥ 0x8000`, or in `0x4000 .. 0x7FFF` other than `0x4014` and `0x4016`, leaves the
whole bus (RAM, program storage, picture unit, controller) unchanged; a `Read` in
`0x4000 .. 0x7FFF` other than `0x4016` returns 0. -/
theorem C15_prg_and_open_bus (m : Memory) (a : Word) (v : Byte)
    (hn : 0 < m.cartridge.PRG_ROM.length) :
    (0x8000 ≤ a.val →
      m.cartridge.PRG_ROM[(a.val - 0x8000) % m.cartridge.PRG_ROM.length]? = some (m.Read a).1 ∧
      (m.Read a).2 = m) ∧
    (m.cartridge.PRG_ROM.length = 16384 → 0x8000 ≤ a.val → a.val < 0xC000 →
      (m.Read a).1 = (m.Read (u16 (a.val + 0x4000))).1) ∧
    (0x8000 ≤ a.val ∨ (0x4000 ≤ a.val ∧ a.val < 0x8000 ∧ a.val ≠ 0x4014 ∧ a.val ≠ 0x4016) →
      m.Write a v = m) ∧
    (0x4000 ≤ a.val → a.val < 0x8000 → a.val ≠ 0x4016 → (m.Read a).1 = 0 ∧ (m.Read a).2 = m) := by
  have ha := a.isLt
  refine ⟨?_, ?_, ?_, ?_⟩
  · intro h
    rw [CPU.Memory_Read_prg m a h]
    have hi : (a.val - 0x8000) % m.cartridge.PRG_ROM.length < m.cartridge.PRG_ROM.length :=
      Nat.mod_lt _ hn
    refine ⟨?_, rfl⟩
    rw [List.getElem?_eq_getElem hi, List.getD_eq_getElem _ _ hi]
  · intro h16 h1 h2
    have h3 : 0x8000 ≤ (u16 (a.val + 0x4000)).val := by simp only [u16_val]; omega
    rw [CPU.Memory_Read_prg m a h1, CPU.Memory_Read_prg m _ h3]
    have e : ((u16 (a.val + 0x4000)).val - 0x8000) % m.cartridge.PRG_ROM.length
        = (a.val - 0x8000) % m.cartridge.PRG_ROM.length := by
      rw [h16]; simp only [u16_val]; omega
    simp only [e]
  · intro h
    unfold Memory.Write
    split_ifs <;> first | omega | rfl
  · intro h1 h2 h3
    unfold Memory.Read
    split_ifs <;> first | omega | exact ⟨rfl, rfl⟩

theorem exMem_prg_len (code : List Byte) : (exMem code).cartridge.PRG_ROM.length = 16384 := by
  show (List.replicate 16384 (0xEA : Byte)).length = 16384
  exact List.length_replicate _ _

theorem exMem_prg_pos (code : List Byte) : 0 < (exMem code).cartridge.PRG_ROM.length := by
  rw [exMem_prg_len]
  decide

/-- C15 at the example bus, whose program storage has 16384 bytes. -/
theorem C15_prg_and_open_bus_witness :
    0 < (exMem []).cartridge.PRG_ROM.length ∧
    ((exMem []).cartridge.PRG_ROM[((0x8123 : Word).val - 0x8000)
        % (exMem []).cartridge.PRG_ROM.length]? = some ((exMem []).Read 0x8123).1 ∧
      ((exMem []).Read 0x8123).2 = exMem []) ∧
    ((exMem []).Read 0x8123).1 = ((exMem []).Read (u16 ((0x8123 : Word).val + 0x4000))).1 ∧
    (exMem []).Write 0x8123 0x5A = exMem [] ∧
    (((exMem []).Read 0x5000).1 = 0 ∧ ((exMem []).Read 0x5000).2 = exMem []) :=
  ⟨exMem_prg_pos [],
    (C15_prg_and_open_bus (exMem []) 0x8123 0x5A (exMem_prg_pos [])).1 (by decide),
    (C15_prg_and_open_bus (exMem []) 0x8123 0x5A (exMem_prg_pos [])).2.1
      (exMem_prg_len []) (by decide) (by decide),
    (C15_prg_and_open_bus (exMem []) 0x8123 0x5A (exMem_prg_pos [])).2.2.1
      (Or.inl (by decide)),
    (C15_prg_and_open_bus (exMem []) 0x5000 0x5A (exMem_prg_pos [])).2.2.2
      (by decide) (by decide) (by decide)⟩

end NES

namespace NES

theorem dma_steps (m : Memory) (d : Nat) (hd : d + 255 < 0x2000) (n : Nat) (hn : n ≤ 256) :
    (List.range n).foldl (Memory.dmaStep (u16 d)) m =
      { m with ppu := { m.ppu with OAM := dmaOAM m d m.ppu.regOAMAddr.val n,
                                   regOAMAddr := u8 (m.ppu.regOAMAddr.val + n) } } := by
  have hr := m.ppu.regOAMAddr.isLt
  induction n with
  | zero =>
    have hO : dmaOAM m d m.ppu.regOAMAddr.val 0 = m.ppu.OAM := by
      funext j
      unfold dmaOAM
      rw [if_neg (by omega)]
    have hR : u8 (m.ppu.regOAMAddr.val + 0) = m.ppu.regOAMAddr := by
      apply Fin.ext
      simp only [u8_val]
      omega
    rw [hO, hR]
    rfl
  | succ n ih =>
    rw [List.range_succ, List.foldl_append, ih (by omega)]
    have ha : (u16 ((u16 d).val + n)).val < 0x2000 := by simp only [u16_val]; omega
    have hi : (u16 ((u16 d).val + n)).val % 0x0800 = (d + n) % 0x0800 := by
      simp only [u16_val]; omega
    simp only [List.foldl_cons, List.foldl_nil, Memory.dmaStep, CPU.Memory_Read_ram _ _ ha, hi]
    have hO : (fun j => if j = (u8 (m.ppu.regOAMAddr.val + n)).val then m.RAM ((d + n) % 0x0800)
        else dmaOAM m d m.ppu.regOAMAddr.val n j) = dmaOAM m d m.ppu.regOAMAddr.val (n + 1) := by
      funext j
      unfold dmaOAM
      simp only [u8_val]
      by_cases hj : j = (m.ppu.regOAMAddr.val + n) % 256
      · rw [if_pos hj, if_pos (by omega)]
        have : (j + 256 - m.ppu.regOAMAddr.val) % 256 = n := by omega
        rw [this]
      · rw [if_neg hj]
        by_cases h2 : j < 256 ∧ (j + 256 - m.ppu.regOAMAddr.val) % 256 < n
        · rw [if_pos h2, if_pos (by omega)]
        · rw [if_neg h2, if_neg (by omega)]
    have hR : u8 ((u8 (m.ppu.regOAMAddr.val + n)).val + 1) = u8 (m.ppu.regOAMAddr.val + (n + 1)) := by
      apply Fin.ext
      simp only [u8_val]
      omega
    rw [hO, hR]

theorem Memory_Write_dma (m : Memory) (v : Byte) :
    m.Write 0x4014 v = (List.range 256).foldl (Memory.dmaStep (u16 (v.val <<< 8))) m := by
  have h1 : ¬ (0x4014 : Word).val < 0x2000 := by decide
  have h2 : ¬ ((0x4014 : Word).val ≥ 0x2000 ∧ (0x4014 : Word).val < 0x4000) := by decide
  have h3 : (0x4014 : Word).val = 0x4014 := by decide
  unfold Memory.Write
  rw [if_neg h1, if_neg h2, if_pos h3]

/-- C16. For a page value `v < 0x20` (source in RAM), `Write(0x4014, v)` leaves
`OAM[(r + i) mod 256] = RAM[((v << 8) + i) mod 0x0800]` for every `i` in `0 .. 255`, where `r`
is the OAM address register before the transfer; the register equals `r` again afterwards,
and RAM, cartridge, controller, all other picture-unit state and the processor's cycle
counter are unchanged. -/
theorem C16_oam_dma (s : CPU) (v : Byte) (hv : v.val < 0x20) :
    DMASpec s.mem (CPU.Write s 0x4014 v).mem v ∧ (CPU.Write s 0x4014 v).cycles = s.cycles := by
  have hr := s.mem.ppu.regOAMAddr.isLt
  have hd : v.val <<< 8 + 255 < 0x2000 := by rw [Nat.shiftLeft_eq]; omega
  refine ⟨?_, CPU.Write_cycles s _ _⟩
  have hR : u8 (s.mem.ppu.regOAMAddr.val + 256) = s.mem.ppu.regOAMAddr := by
    apply Fin.ext
    simp only [u8_val]
    omega
  have key := dma_steps s.mem (v.val <<< 8) hd 256 (Nat.le_refl _)
  rw [hR] at key
  rw [CPU.Write_mem, Memory_Write_dma, key]
  unfold DMASpec
  refine ⟨?_, rfl, rfl, rfl, rfl, rfl⟩
  intro i hi
  show dmaOAM s.mem (v.val <<< 8) s.mem.ppu.regOAMAddr.val 256
    ((s.mem.ppu.regOAMAddr.val + i) % 256) = _
  unfold dmaOAM
  have e : ((s.mem.ppu.regOAMAddr.val + i) % 256 + 256 - s.mem.ppu.regOAMAddr.val) % 256 = i := by
    omega
  rw [if_pos (by omega), e]

/-- C16 at the example processor with page value 2. -/
theorem C16_oam_dma_witness :
    (0x02 : Byte).val < 0x20 ∧
    DMASpec (exCPU [] 0).mem (CPU.Write (exCPU [] 0) 0x4014 0x02).mem 0x02 ∧
    (CPU.Write (exCPU [] 0) 0x4014 0x02).cycles = (exCPU [] 0).cycles :=
  ⟨by decide, C16_oam_dma (exCPU [] 0) 0x02 (by decide)⟩

end NES

namespace NES

namespace PPU

/-- C17: the constructor leaves the picture unit at scanline 0, dot 0 with the frame-complete
flag clear, and from any state with those three values, whatever the registers and memories
hold, the flag after `k` of the next 89342 `Clock` calls is set exactly for `k = 89001` and
`k = 89002`; it rises from false to true on exactly one call, the 89001st, which is entered at
scanline 260, dot 340 and left at the pre-render line, dot 0; and after the 89342 calls the
counters are at scanline 0, dot 0 again. -/
theorem C17_frame_complete (cart : Cartridge) (p : PPU) (hs : p.scanline = 0)
    (hc : p.cycle = 0) (hf : p.frameComplete = false) :
    (∀ raw : PPU, (new raw).scanline = 0 ∧ (new raw).cycle = 0 ∧
      (new raw).frameComplete = false) ∧ FrameSpec cart p := by
  have key := runClock_timing cart p hs hc hf
  refine ⟨fun raw => ⟨rfl, rfl, rfl⟩, fun k hk => (key k hk).2.2, ?_, ?_, ?_, ?_⟩
  · intro k hk
    rw [(key k (by omega)).2.2, (key (k + 1) (by omega)).2.2]
    unfold frameCompleteAfter
    simp only [decide_eq_true_eq, decide_eq_false_iff_not]
    omega
  · obtain ⟨h1, h2, _⟩ := key 89000 (by omega)
    rw [h1, h2]
    unfold scanlineAfter
    exact ⟨by norm_num, by norm_num⟩
  · obtain ⟨h1, h2, _⟩ := key 89001 (by omega)
    rw [h1, h2]
    unfold scanlineAfter
    exact ⟨by norm_num, by norm_num⟩
  · obtain ⟨h1, h2, _⟩ := key 89342 (by omega)
    rw [h1, h2]
    unfold scanlineAfter
    exact ⟨by norm_num, by norm_num⟩

theorem C17_frame_complete_witness :
    (∀ raw : PPU, (new raw).scanline = 0 ∧ (new raw).cycle = 0 ∧
      (new raw).frameComplete = false) ∧ FrameSpec exCart (new exPPU) :=
  C17_frame_complete exCart (new exPPU) rfl rfl rfl

end PPU

end NES

namespace NES

namespace PPU

theorem setVBlank_bit (b : Byte) : (u8 (b.val ||| 0x80)).val.testBit 7 = true := by
  revert b
  set_option maxRecDepth 100000 in decide

theorem clearVBlank_bit (b : Byte) : (u8 (b.val &&& 0x7F)).val.testBit 7 = false := by
  revert b
  set_option maxRecDepth 100000 in decide

theorem clockVBlank_at (p : PPU) (h : p.scanline = 241 ∧ p.cycle = 1) :
    (clockVBlank p).regStatus = u8 (p.regStatus.val ||| 0x80) ∧
      (clockVBlank p).nmi = (if p.regControl.val.testBit 7 then true else p.nmi) := by
  unfold clockVBlank
  rw [if_pos h]
  dsimp only
  rw [and_0x80]
  by_cases hb : p.regControl.val.testBit 7 = true
  · rw [if_pos ((bit7_ne_zero _).mpr hb), if_pos hb]
    exact ⟨rfl, rfl⟩
  · rw [if_neg (fun hx => hb ((bit7_ne_zero _).mp hx)), if_neg hb]
    exact ⟨rfl, rfl⟩

theorem clockVBlank_off (p : PPU) (h : ¬ (p.scanline = 241 ∧ p.cycle = 1)) :
    clockVBlank p = p := by
  unfold clockVBlank
  rw [if_neg h]

theorem clockPreRender_at (p : PPU) (h : p.scanline = -1 ∧ p.cycle = 1) :
    (clockPreRender p).regStatus = u8 (p.regStatus.val &&& 0x7F) := by
  unfold clockPreRender
  rw [if_pos h]
  exact clearVBlank p.regStatus

theorem clockPreRender_off (p : PPU) (h : ¬ (p.scanline = -1 ∧ p.cycle = 1)) :
    clockPreRender p = p := by
  unfold clockPreRender
  rw [if_neg h]

/-- C18: a `Clock` call made at scanline 241, dot 1 sets bit 7 of the status register and
makes the interrupt signal true when bit 7 of the control register is set, leaving the signal
as it was otherwise; a call made at scanline -1, dot 1 clears status bit 7 and leaves the
frame-complete flag clear; a call made at any other position leaves the status register and
the interrupt signal unchanged. -/
theorem C18_vblank (cart : Cartridge) (p : PPU) : VBlankSpec p (Clock cart p) := by
  obtain ⟨hS, hN⟩ := Clock_status cart p
  obtain ⟨_, _, hF⟩ := Clock_timing cart p
  obtain ⟨v1, v2, _⟩ := clockVBlank_timing p
  refine ⟨fun h => ?_, fun h => ?_, fun h1 h2 => ?_⟩
  · obtain ⟨a1, a2⟩ := clockVBlank_at p h
    have hn : ¬ ((clockVBlank p).scanline = -1 ∧ (clockVBlank p).cycle = 1) := by
      rw [v1, v2]
      omega
    rw [hS, hN, clockPreRender_off _ hn, a1, a2]
    exact ⟨rfl, setVBlank_bit _, rfl⟩
  · have hn : ¬ (p.scanline = 241 ∧ p.cycle = 1) := by omega
    have hp : (clockVBlank p).scanline = -1 ∧ (clockVBlank p).cycle = 1 := by
      rw [v1, v2]
      exact h
    have hw : ¬ (p.cycle + 1 ≥ 341 ∧ p.scanline + 1 ≥ 261) := by omega
    rw [hS, hN, hF, clockPreRender_at _ hp, clockVBlank_off p hn, if_neg hw, if_pos h]
    exact ⟨rfl, clearVBlank_bit _, rfl, rfl⟩
  · rw [hS, hN, clockVBlank_off p h1, clockPreRender_off p h2]
    exact ⟨rfl, rfl⟩

theorem C18_vblank_witness :
    (Clock exCart exVBlank).regStatus = u8 (exVBlank.regStatus.val ||| 0x80) ∧
      (Clock exCart exVBlank).regStatus.val.testBit 7 = true ∧
      (Clock exCart exVBlank).nmi = (if exVBlank.regControl.val.testBit 7 then true
        else exVBlank.nmi) :=
  (C18_vblank exCart exVBlank).1 ⟨rfl, rfl⟩

end PPU

end NES

namespace NES

namespace PPU

/-- C19: what the code does on a horizontally mirrored cartridge at the offsets the claim
names. `MirrorAddress` sends 0x000, 0x400, 0x800 and 0xC00 all to 0x000, so offsets from 0x800
on reach physical name table 0, not 1: the byte read at 0x2800 is 0x00 before a write of 0x55
at 0x2000 and 0x55 after it, and a write at 0x2800 lands in table 0 and leaves table 1 as it
was. -/
theorem C19_horizontal_quadrants :
    exCart.mirror = Mirror.HORIZONTAL ∧
      MirrorAddress exCart 0x0000 = 0x0000 ∧ MirrorAddress exCart 0x0400 = 0x0000 ∧
      MirrorAddress exCart 0x0800 = 0x0000 ∧ MirrorAddress exCart 0x0C00 = 0x0000 ∧
      PPURead exCart exPPU 0x2800 = 0x00 ∧
      PPURead exCart (PPUWrite exCart exPPU 0x2000 0x55) 0x2400 = 0x55 ∧
      PPURead exCart (PPUWrite exCart exPPU 0x2000 0x55) 0x2800 = 0x55 ∧
      (PPUWrite exCart exPPU 0x2800 0x55).nameTable 0 0 = 0x55 ∧
      (PPUWrite exCart exPPU 0x2800 0x55).nameTable 1 0 = 0x00 := by
  decide

end PPU

end NES

namespace NES

namespace PPU

/-- C20: under vertical mirroring `MirrorAddress` returns every offset below 0x1000
unchanged, and an internal read or write at `0x2000 + o` uses cell `o mod 0x400` of physical
name table `(o div 0x400) mod 2`; hence a byte written at `0x2000 + k` or at `0x2800 + k`
(`k < 0x800`) is read back at the other address, and a write at `0x2000 + k` (`k < 0x400`)
leaves the byte read at `0x2400 + k` as it was. -/
theorem C20_vertical (cart : Cartridge) (p : PPU) (v : Byte)
    (hm : cart.mirror = Mirror.VERTICAL) :
    (∀ o, o < 0x1000 →
      MirrorAddress cart (u16 o) = u16 o ∧
      PPURead cart p (u16 (0x2000 + o)) = p.nameTable (o / 0x0400 % 2) (o % 0x0400) ∧
      PPUWrite cart p (u16 (0x2000 + o)) v =
        { p with nameTable := fun a b =>
            if a = o / 0x0400 % 2 ∧ b = o % 0x0400 then v else p.nameTable a b }) ∧
    (∀ k, k < 0x0800 →
      PPURead cart (PPUWrite cart p (u16 (0x2000 + k)) v) (u16 (0x2800 + k)) = v ∧
      PPURead cart (PPUWrite cart p (u16 (0x2800 + k)) v) (u16 (0x2000 + k)) = v ∧
      PPURead cart p (u16 (0x2800 + k)) = PPURead cart p (u16 (0x2000 + k))) ∧
    (∀ k, k < 0x0400 →
      PPURead cart (PPUWrite cart p (u16 (0x2000 + k)) v) (u16 (0x2400 + k)) =
        PPURead cart p (u16 (0x2400 + k))) := by
  have hval : ∀ o, o < 0x1000 → (MirrorAddress cart (u16 o)).val = o := by
    intro o ho
    rw [MirrorAddress_vertical cart hm, u16_val]
    omega
  have hR : ∀ (q : PPU) (o : Nat), o < 0x1000 →
      PPURead cart q (u16 (0x2000 + o)) = q.nameTable (o / 0x0400 % 2) (o % 0x0400) := by
    intro q o ho
    rw [PPURead_nametable cart q o ho, hval o ho]
  have hW : ∀ (o : Nat), o < 0x1000 →
      PPUWrite cart p (u16 (0x2000 + o)) v =
        { p with nameTable := fun a b =>
            if a = o / 0x0400 % 2 ∧ b = o % 0x0400 then v else p.nameTable a b } := by
    intro o ho
    rw [PPUWrite_nametable cart p o ho v, hval o ho]
  refine ⟨fun o ho => ⟨MirrorAddress_vertical cart hm _, hR p o ho, hW o ho⟩, ?_, ?_⟩
  · intro k hk
    have e : 0x2800 + k = 0x2000 + (0x0800 + k) := by omega
    have t : (0x0800 + k) / 0x0400 % 2 = k / 0x0400 % 2 := by omega
    have i : (0x0800 + k) % 0x0400 = k % 0x0400 := by omega
    rw [e, hW k (by omega), hW (0x0800 + k) (by omega), hR _ k (by omega),
      hR _ (0x0800 + k) (by omega), hR _ (0x0800 + k) (by omega), hR _ k (by omega), t, i]
    dsimp only
    rw [if_pos ⟨rfl, rfl⟩]
    exact ⟨rfl, rfl, rfl⟩
  · intro k hk
    have e : 0x2400 + k = 0x2000 + (0x0400 + k) := by omega
    rw [e, hW k (by omega), hR _ (0x0400 + k) (by omega), hR _ (0x0400 + k) (by omega)]
    dsimp only
    rw [if_neg (by omega)]

theorem C20_vertical_witness :
    exCartV.mirror = Mirror.VERTICAL ∧
      PPURead exCartV (PPUWrite exCartV exPPU (u16 (0x2000 + 0x0005)) 0x55)
        (u16 (0x2800 + 0x0005)) = 0x55 ∧
      PPURead exCartV (PPUWrite exCartV exPPU (u16 (0x2000 + 0x0005)) 0x55)
        (u16 (0x2400 + 0x0005)) = PPURead exCartV exPPU (u16 (0x2400 + 0x0005)) :=
  ⟨rfl, ((C20_vertical exCartV exPPU 0x55 rfl).2.1 0x0005 (by decide)).1,
    (C20_vertical exCartV exPPU 0x55 rfl).2.2 0x0005 (by decide)⟩

end PPU

end NES

/-! # Claims C21 - C30: palette, data register, pattern storage, scrolling, stack, table -/

namespace NES

namespace PPU

/-! ## What the fetch and scroll helpers leave alone -/

theorem SameStore_refl (p : PPU) : SameStore p p :=
  ⟨rfl, rfl, rfl, rfl, rfl, rfl, rfl, rfl⟩

theorem SameStore_trans {p q r : PPU} (h1 : SameStore p q) (h2 : SameStore q r) :
    SameStore p r := by
  obtain ⟨a1, a2, a3, a4, a5, a6, a7, a8⟩ := h1
  obtain ⟨b1, b2, b3, b4, b5, b6, b7, b8⟩ := h2
  exact ⟨b1.trans a1, b2.trans a2, b3.trans a3, b4.trans a4, b5.trans a5, b6.trans a6,
    b7.trans a7, b8.trans a8⟩

theorem SameStore_ite (c : Prop) [Decidable c] {p a b : PPU} (ha : SameStore p a)
    (hb : SameStore p b) : SameStore p (if c then a else b) := by
  split <;> assumption

theorem UpdateShifters_store (p : PPU) : SameStore p (UpdateShifters p) := by
  unfold UpdateShifters
  exact SameStore_ite _ (SameStore_refl p) (SameStore_refl p)

theorem IncrementScrollX_store (p : PPU) : SameStore p (IncrementScrollX p) := by
  unfold IncrementScrollX
  exact SameStore_ite _ (SameStore_ite _ (SameStore_refl p) (SameStore_refl p))
    (SameStore_refl p)

theorem IncrementScrollY_store (p : PPU) : SameStore p (IncrementScrollY p) := by
  unfold IncrementScrollY
  dsimp only
  split_ifs <;> exact ⟨rfl, rfl, rfl, rfl, rfl, rfl, rfl, rfl⟩

theorem TransferAddressX_store (p : PPU) : SameStore p (TransferAddressX p) := by
  unfold TransferAddressX
  exact SameStore_ite _ (SameStore_refl p) (SameStore_refl p)

theorem TransferAddressY_store (p : PPU) : SameStore p (TransferAddressY p) := by
  unfold TransferAddressY
  exact SameStore_ite _ (SameStore_refl p) (SameStore_refl p)

theorem clockFetch_store (cart : Cartridge) (p : PPU) : SameStore p (clockFetch cart p) := by
  unfold clockFetch
  exact SameStore_ite _ (SameStore_refl p)
    (SameStore_ite _ (SameStore_refl p)
      (SameStore_ite _ (SameStore_refl p)
        (SameStore_ite _ (SameStore_refl p)
          (SameStore_ite _ (IncrementScrollX_store p) (SameStore_refl p)))))

/-- The four statements of the visible block that precede the pixel output. -/
theorem visible_stages_store (cart : Cartridge) (p : PPU) :
    SameStore p (visibleTransferY (visibleReload (visibleScrollY (visibleFetch cart p)))) := by
  have h1 : SameStore p (visibleFetch cart p) :=
    SameStore_ite _ (SameStore_trans (UpdateShifters_store p) (clockFetch_store cart _))
      (SameStore_refl p)
  have h2 : SameStore p (visibleScrollY (visibleFetch cart p)) :=
    SameStore_trans h1 (SameStore_ite _ (IncrementScrollY_store _) (SameStore_refl _))
  have h3 : SameStore p (visibleReload (visibleScrollY (visibleFetch cart p))) :=
    SameStore_trans h2 (SameStore_ite _ (TransferAddressX_store _) (SameStore_refl _))
  exact SameStore_trans h3 (SameStore_ite _ (TransferAddressY_store _) (SameStore_refl _))

theorem clock_head_store (p : PPU) : SameStore p (clockPreRender (clockVBlank p)) := by
  have h1 : SameStore p (clockVBlank p) := by
    unfold clockVBlank
    dsimp only
    split_ifs <;> exact ⟨rfl, rfl, rfl, rfl, rfl, rfl, rfl, rfl⟩
  have h2 : SameStore (clockVBlank p) (clockPreRender (clockVBlank p)) := by
    unfold clockPreRender
    split_ifs <;> exact ⟨rfl, rfl, rfl, rfl, rfl, rfl, rfl, rfl⟩
  exact SameStore_trans h1 h2

theorem clockAdvance_frameBuffer (p : PPU) : (clockAdvance p).frameBuffer = p.frameBuffer := by
  unfold clockAdvance
  dsimp only
  split_ifs <;> rfl

/-! ## Palette accesses -/

theorem and_0x001F (x : Nat) : x &&& 0x001F = x % 32 :=
  Nat.and_pow_two_sub_one_eq_mod x 5

theorem paletteIndex_eq (z : Nat) : paletteIndex z = normIndex z := by
  unfold paletteIndex normIndex
  simp only [and_0x001F]
  have h := Nat.mod_lt z (by decide : 0 < 32)
  generalize z % 32 = m at h ⊢
  by_cases h1 : m = 16
  · subst h1; rfl
  by_cases h2 : m = 20
  · subst h2; rfl
  by_cases h3 : m = 24
  · subst h3; rfl
  by_cases h4 : m = 28
  · subst h4; rfl
  simp only [h1, h2, h3, h4, if_false]

theorem PPURead_palette (cart : Cartridge) (p : PPU) (a : Word)
    (h : 0x3F00 ≤ a.val % 0x4000) : PPURead cart p a = p.palette (normIndex a.val) := by
  have e : (u16 (a.val &&& 0x3FFF)).val = a.val % 0x4000 := by
    rw [u16_val, and_0x3FFF]
    omega
  have n : normIndex (a.val % 0x4000) = normIndex a.val := by
    unfold normIndex
    have : a.val % 0x4000 % 32 = a.val % 32 := by omega
    rw [this]
  unfold PPURead
  dsimp only
  rw [e, if_neg (by omega), if_neg (by omega), if_pos (by omega), paletteIndex_eq, n]

theorem PPUWrite_palette (cart : Cartridge) (p : PPU) (a : Word) (v : Byte)
    (h : 0x3F00 ≤ a.val % 0x4000) :
    PPUWrite cart p a v =
      { p with palette := fun k => if k = normIndex a.val then v else p.palette k } := by
  have e : (u16 (a.val &&& 0x3FFF)).val = a.val % 0x4000 := by
    rw [u16_val, and_0x3FFF]
    omega
  have n : normIndex (a.val % 0x4000) = normIndex a.val := by
    unfold normIndex
    have : a.val % 0x4000 % 32 = a.val % 32 := by omega
    rw [this]
  unfold PPUWrite
  dsimp only
  rw [e, if_neg (by omega), if_neg (by omega), if_pos (by omega), paletteIndex_eq, n]

end PPU

end NES

namespace NES

/-! ## Bit fields of a word -/

theorem testBit_low (b i j : Nat) (hb : b < 2 ^ i) (h : i ≤ j) : b.testBit j = false :=
  Nat.testBit_lt_two_pow (Nat.lt_of_lt_of_le hb (Nat.pow_le_pow_right (by decide) h))

/-- The bit operations act separately above and below any bit position. -/
theorem split_bits (a b c d i : Nat) (hb : b < 2 ^ i) (hd : d < 2 ^ i) :
    (2 ^ i * a + b) &&& (2 ^ i * c + d) = 2 ^ i * (a &&& c) + (b &&& d) ∧
    (2 ^ i * a + b) ||| (2 ^ i * c + d) = 2 ^ i * (a ||| c) + (b ||| d) ∧
    (2 ^ i * a + b) ^^^ (2 ^ i * c + d) = 2 ^ i * (a ^^^ c) + (b ^^^ d) := by
  rw [Nat.mul_add_lt_is_or hb, Nat.mul_add_lt_is_or hd,
    Nat.mul_add_lt_is_or (Nat.and_lt_two_pow b hd),
    Nat.mul_add_lt_is_or (Nat.or_lt_two_pow hb hd),
    Nat.mul_add_lt_is_or (Nat.xor_lt_two_pow hb hd)]
  refine ⟨?_, ?_, ?_⟩ <;>
  · apply Nat.eq_of_testBit_eq
    intro j
    simp only [Nat.testBit_and, Nat.testBit_or, Nat.testBit_xor, Nat.testBit_mul_pow_two]
    by_cases h : i ≤ j
    · rw [testBit_low b i j hb h, testBit_low d i j hd h]
      simp [h]
    · simp [h]

theorem and_field (x j k : Nat) : x &&& (2 ^ j * (2 ^ k - 1)) = 2 ^ j * (x / 2 ^ j % 2 ^ k) := by
  have h := (split_bits (x / 2 ^ j) (x % 2 ^ j) (2 ^ k - 1) 0 j
    (Nat.mod_lt _ (Nat.pow_pos (by decide))) (Nat.pow_pos (by decide))).1
  rw [Nat.div_add_mod, Nat.add_zero, Nat.and_zero, Nat.add_zero,
    Nat.and_pow_two_sub_one_eq_mod] at h
  exact h

theorem and_hi_lo (x j k i : Nat) (hij : i ≤ j) :
    x &&& (2 ^ j * (2 ^ k - 1) + (2 ^ i - 1)) = 2 ^ j * (x / 2 ^ j % 2 ^ k) + x % 2 ^ i := by
  have hlt : 2 ^ i - 1 < 2 ^ j :=
    Nat.lt_of_lt_of_le (Nat.sub_lt (Nat.pow_pos (by decide)) (by decide))
      (Nat.pow_le_pow_right (by decide) hij)
  have h := (split_bits (x / 2 ^ j) (x % 2 ^ j) (2 ^ k - 1) (2 ^ i - 1) j
    (Nat.mod_lt _ (Nat.pow_pos (by decide))) hlt).1
  rw [Nat.div_add_mod, Nat.and_pow_two_sub_one_eq_mod, Nat.and_pow_two_sub_one_eq_mod,
    Nat.mod_mod_of_dvd _ (Nat.pow_dvd_pow 2 hij)] at h
  exact h

theorem and_0x7000 (x : Nat) : x &&& 0x7000 = x / 4096 % 8 * 4096 := by
  have h := and_field x 12 3
  norm_num at h
  omega

theorem and_0x03E0 (x : Nat) : x &&& 0x03E0 = x / 32 % 32 * 32 := by
  have h := and_field x 5 5
  norm_num at h
  omega

theorem and_cnot_0x7000 (x : Nat) (hx : x < 65536) :
    x &&& cnot 0x7000 = x - x / 4096 % 8 * 4096 := by
  have c : cnot 0x7000 = 2 ^ 15 * (2 ^ 17 - 1) + (2 ^ 12 - 1) := by decide
  have h := and_hi_lo x 15 17 12 (by decide)
  rw [← c] at h
  norm_num at h
  omega

theorem and_cnot_0x03E0 (x : Nat) (hx : x < 65536) :
    x &&& cnot 0x03E0 = x - x / 32 % 32 * 32 := by
  have c : cnot 0x03E0 = 2 ^ 10 * (2 ^ 22 - 1) + (2 ^ 5 - 1) := by decide
  have h := and_hi_lo x 10 22 5 (by decide)
  rw [← c] at h
  norm_num at h
  omega

theorem xor_one (a : Nat) : a ^^^ 1 = if a % 2 = 0 then a + 1 else a - 1 := by
  have h := (split_bits (a / 2) (a % 2) 0 1 1 (Nat.mod_lt _ (by decide)) (by decide)).2.2
  rw [Nat.pow_one, Nat.div_add_mod, Nat.mul_zero, Nat.zero_add, Nat.xor_zero] at h
  rcases Nat.mod_two_eq_zero_or_one a with h0 | h1
  · rw [h0] at h
    rw [if_pos h0, h]
    have : (0 : Nat) ^^^ 1 = 1 := by decide
    omega
  · rw [h1] at h
    rw [if_neg (by omega), h]
    have : (1 : Nat) ^^^ 1 = 0 := by decide
    omega

theorem xor_0x0800 (x : Nat) :
    x ^^^ 0x0800 = if x / 2048 % 2 = 0 then x + 2048 else x - 2048 := by
  have h := (split_bits (x / 2 ^ 11) (x % 2 ^ 11) 1 0 11
    (Nat.mod_lt _ (by decide)) (by decide)).2.2
  rw [Nat.div_add_mod, Nat.xor_zero, xor_one] at h
  norm_num at h
  rw [h]
  split_ifs <;> omega

theorem or_coarseY (z y : Nat) (hz : z / 32 % 32 = 0) (hy : y < 32) :
    z ||| (y <<< 5) = z + y * 32 := by
  have h1 := (split_bits (z / 2 ^ 10) (z % 2 ^ 10) 0 (y * 32) 10
    (Nat.mod_lt _ (by decide)) (by norm_num; omega)).2.1
  have h2 := (split_bits y 0 0 (z % 2 ^ 10) 5 (by decide) (by norm_num; omega)).2.1
  rw [Nat.div_add_mod, Nat.mul_zero, Nat.zero_add, Nat.or_zero] at h1
  rw [Nat.mul_zero, Nat.zero_add, Nat.add_zero, Nat.or_zero, Nat.zero_or] at h2
  rw [Nat.shiftLeft_eq, h1, Nat.or_comm]
  norm_num at h2 ⊢
  rw [show y * 32 = 32 * y by ring, h2]
  omega

/-! ## Stack addresses -/

namespace CPU

theorem stack_addr (k : Nat) (hk : k < 256) :
    (u16 (0x0100 + k)).val < 0x2000 ∧ (u16 (0x0100 + k)).val % 0x0800 = 0x0100 + k ∧
      0x0100 ≤ (u16 (0x0100 + k)).val ∧ (u16 (0x0100 + k)).val ≤ 0x01FF := by
  rw [u16_val]
  omega

end CPU

end NES

namespace NES

namespace PPU

theorem backgroundPixel_off (p : PPU) (h : p.regMask.val &&& 0x08 = 0) :
    backgroundPixel p = (0, 0) := by
  unfold backgroundPixel
  rw [if_neg (by rw [h]; exact fun c => c rfl)]

/-- C21: `GetColorFromPaletteRAM` with pixel value 0 returns `palette[0] & 0x3F` for every
sub-palette index, and for sub-palette `s < 4` and pixel value `x` in 1 .. 3 it returns
`palette[4 s + x] & 0x3F`; and with background rendering disabled (mask bit 3 clear) a `Clock`
call at a visible scanline `y` and a dot `d` in 1 .. 256 stores the output colour of
`palette[0] & 0x3F` in frame-buffer cell `256 y + d - 1` and leaves every other cell as it
was. -/
theorem C21_backdrop (cart : Cartridge) (p : PPU) :
    (∀ s : Byte, GetColorFromPaletteRAM cart p s 0 = u8 ((p.palette 0).val &&& 0x3F)) ∧
    (∀ s x : Byte, s.val < 4 → 1 ≤ x.val → x.val ≤ 3 →
      GetColorFromPaletteRAM cart p s x = u8 ((p.palette (4 * s.val + x.val)).val &&& 0x3F)) ∧
    ((p.regMask.val &&& 0x08) = 0 → 0 ≤ p.scanline → p.scanline < 240 →
      1 ≤ p.cycle → p.cycle ≤ 256 →
      (Clock cart p).frameBuffer = fun k =>
        if k = (p.scanline * 256 + (p.cycle - 1)).toNat then
          nesPalette.getD (u8 ((p.palette 0).val &&& 0x3F)).val 0
        else p.frameBuffer k) := by
  have g0 : ∀ (q : PPU) (s : Byte),
      GetColorFromPaletteRAM cart q s 0 = u8 ((q.palette 0).val &&& 0x3F) := by
    intro q s
    unfold GetColorFromPaletteRAM
    rw [if_pos (show (0 : Byte).val = 0 from rfl), PPURead_palette cart q 0x3F00 (by decide)]
    rfl
  refine ⟨g0 p, ?_, ?_⟩
  · intro s x hs h1 h3
    have hx : ¬ x.val = 0 := by omega
    have e : (u16 (0x3F00 + (s.val <<< 2) + x.val)).val = 0x3F00 + 4 * s.val + x.val := by
      rw [u16_val, Nat.shiftLeft_eq]
      omega
    have n : normIndex (u16 (0x3F00 + (s.val <<< 2) + x.val)).val = 4 * s.val + x.val := by
      rw [e]
      unfold normIndex
      split_ifs <;> omega
    unfold GetColorFromPaletteRAM
    rw [if_neg hx, PPURead_palette cart p _ (by rw [e]; omega), n]
  · intro hm hy0 hy1 hd0 hd1
    obtain ⟨a1, a2, _, _, _, a6, a7, a8⟩ := clock_head_store p
    obtain ⟨b1, b2, _, _, _, b6, b7, b8⟩ :=
      visible_stages_store cart (clockPreRender (clockVBlank p))
    have hvis : clockVisible cart (clockPreRender (clockVBlank p)) =
        RenderPixel cart (visibleTransferY (visibleReload (visibleScrollY
          (visibleFetch cart (clockPreRender (clockVBlank p)))))) := by
      rw [clockVisible_eq, if_pos (by rw [a7]; exact ⟨hy0, hy1⟩)]
      unfold visibleRender
      rw [if_pos (by rw [b8, a8]; exact ⟨hd0, hd1⟩)]
    unfold Clock
    rw [clockAdvance_frameBuffer, hvis]
    unfold RenderPixel
    dsimp only
    rw [backgroundPixel_off _ (by rw [b6, a6]; exact hm)]
    dsimp only
    rw [g0]
    unfold SetPixel
    rw [b7, b8, a7, a8, if_pos (by omega)]
    dsimp only
    rw [b1, b2, a1, a2]

theorem C21_backdrop_witness :
    (Clock exCart exDot).frameBuffer = fun k =>
      if k = (exDot.scanline * 256 + (exDot.cycle - 1)).toNat then
        nesPalette.getD (u8 ((exDot.palette 0).val &&& 0x3F)).val 0
      else exDot.frameBuffer k :=
  (C21_backdrop exCart exDot).2.2 (by decide) (by decide) (by decide) (by decide) (by decide)

end PPU

end NES

namespace NES

namespace PPU

/-- C22: for internal addresses `a`, `b` in `0x3F00 .. 0x3FFF` a read at `b` after a write of
`v` at `a` returns `v` when `a` and `b` name the same palette cell (`normIndex`) and what it
returned before the write otherwise; a read returns palette cell `normIndex b`; so a byte
written at `0x3F10` is read back at `0x3F00`, and the reads at `b` and `b + 32` agree
throughout the window. -/
theorem C22_palette_alias (cart : Cartridge) (p : PPU) (a b : Word) (v : Byte)
    (ha : 0x3F00 ≤ a.val ∧ a.val ≤ 0x3FFF) (hb : 0x3F00 ≤ b.val ∧ b.val ≤ 0x3FFF) :
    PPURead cart (PPUWrite cart p a v) b =
      (if normIndex a.val = normIndex b.val then v else PPURead cart p b) ∧
    PPURead cart p b = p.palette (normIndex b.val) ∧
    PPURead cart (PPUWrite cart p 0x3F10 v) 0x3F00 = v ∧
    (b.val + 32 ≤ 0x3FFF → PPURead cart p (u16 (b.val + 32)) = PPURead cart p b) := by
  have ha4 : 0x3F00 ≤ a.val % 0x4000 := by omega
  have hb4 : 0x3F00 ≤ b.val % 0x4000 := by omega
  refine ⟨?_, PPURead_palette cart p b hb4, ?_, ?_⟩
  · rw [PPUWrite_palette cart p a v ha4, PPURead_palette cart _ b hb4,
      PPURead_palette cart p b hb4]
    dsimp only
    by_cases h : normIndex a.val = normIndex b.val
    · rw [if_pos h, if_pos h.symm]
    · rw [if_neg h, if_neg (fun c => h c.symm)]
  · rw [PPUWrite_palette cart p 0x3F10 v (by decide), PPURead_palette cart _ 0x3F00 (by decide)]
    dsimp only
    rw [if_pos (by decide)]
  · intro h32
    have e : (u16 (b.val + 32)).val = b.val + 32 := by
      rw [u16_val]
      omega
    have n : normIndex (b.val + 32) = normIndex b.val := by
      unfold normIndex
      have : (b.val + 32) % 32 = b.val % 32 := by omega
      rw [this]
    rw [PPURead_palette cart p _ (by rw [e]; omega), PPURead_palette cart p b hb4, e, n]

theorem C22_palette_alias_witness :
    PPURead exCart (PPUWrite exCart exPPU 0x3F14 0x2A) 0x3FE4 =
      (if normIndex (0x3F14 : Word).val = normIndex (0x3FE4 : Word).val then 0x2A
        else PPURead exCart exPPU 0x3FE4) :=
  (C22_palette_alias exCart exPPU 0x3F14 0x3FE4 0x2A (by decide) (by decide)).1

end PPU

end NES

namespace NES

namespace PPU

/-- What a processor-side read of the data register returns and leaves. -/
theorem CPURead_data (cart : Cartridge) (p : PPU) (a : Word) (h : a.val &&& 0x2007 = 0x2007) :
    CPURead cart p a =
      ((if p.vramAddr.val ≥ 0x3F00 then PPURead cart p p.vramAddr else p.ppuDataBuffer),
        { p with ppuDataBuffer := PPURead cart p p.vramAddr,
                 vramAddr := u16 (p.vramAddr.val +
                   (if (p.regControl.val &&& 0x04) ≠ 0 then 32 else 1)) }) := by
  have e : (u16 (a.val &&& 0x2007)).val = 0x2007 := by
    rw [h]
    rfl
  unfold CPURead bumpVramAddr
  dsimp only
  rw [e, if_neg (by decide), if_neg (by decide), if_pos rfl]

/-- C23: what the code does when the data register is read with the VRAM address at `0x4000`.
After the register traffic `exStaleTrace` from the constructed state the read buffer holds
`0x2A` and the VRAM address is `0x4000`, which decodes to pattern address 0 (not palette); the
next read of `0x2007` returns the pattern byte `0x00` just fetched and not the buffered
`0x2A`. -/
theorem C23_stale_read_skipped :
    (run exCart exStaleTrace (new exPPU)).vramAddr = 0x4000 ∧
      (run exCart exStaleTrace (new exPPU)).ppuDataBuffer = 0x2A ∧
      (run exCart exStaleTrace (new exPPU)).vramAddr.val % 0x4000 < 0x3F00 ∧
      PPURead exCart (run exCart exStaleTrace (new exPPU)) 0x4000 = 0x00 ∧
      (CPURead exCart (run exCart exStaleTrace (new exPPU)) 0x2007).1 = 0x00 ∧
      (CPURead exCart (run exCart exStaleTrace (new exPPU)) 0x2007).1 ≠
        (run exCart exStaleTrace (new exPPU)).ppuDataBuffer := by
  decide!

end PPU

end NES

namespace NES

namespace Cartridge

theorem resize_length (v : List Byte) (n : Nat) : (resize v n).length = n := by
  unfold resize
  rw [List.length_take, List.length_append, List.length_replicate]
  omega

theorem read_length (f : FileStream) (buf : List Byte) (n : Nat) (h : n ≤ buf.length) :
    (f.read buf n).1.length = buf.length := by
  unfold FileStream.read
  split
  · dsimp only
    rw [List.length_append, List.length_drop, List.length_take]
    omega
  · rfl

theorem read_resize_length (f : FileStream) (v : List Byte) (n : Nat) :
    (f.read (resize v n) n).1.length = n := by
  rw [read_length f _ n (by rw [resize_length]), resize_length]

theorem getD_replicate_zero (n j : Nat) : (List.replicate n (0 : Byte)).getD j 0 = 0 := by
  by_cases h : j < (List.replicate n (0 : Byte)).length
  · rw [List.getD_eq_getElem _ _ h, List.getElem_replicate]
  · rw [List.getD_eq_default _ _ (by omega)]

/-- The sixteen header bytes that `Load` inspects are the first bytes of the file. -/
theorem header_getD (img : List Byte) (i : Nat) (h16 : i < 16) :
    ((FileStream.read { rest := img, good := true } (List.replicate 16 0) 16).1).getD i 0
      = img.getD i 0 := by
  unfold FileStream.read
  rw [if_pos rfl]
  dsimp only
  by_cases hlt : i < img.length
  · have hi : i < (img.take 16).length := by
      rw [List.length_take]
      omega
    rw [List.getD_append _ _ _ _ hi, List.getD_eq_getElem _ _ hi,
      List.getD_eq_getElem _ _ hlt, List.getElem_take]
  · have hge : (img.take 16).length ≤ i := by
      rw [List.length_take]
      omega
    rw [List.getD_append_right _ _ _ _ hge, List.drop_replicate, getD_replicate_zero,
      List.getD_eq_default img _ (by omega)]

/-- After `Load` has accepted the magic, the pattern vector is never empty: 8192 bytes when
header byte 5 is 0, and `8192 k` bytes when it is `k > 0`. -/
theorem Load_chr_length (c : Cartridge) (img : List Byte)
    (hm : img.getD 0 0 = 0x4E ∧ img.getD 1 0 = 0x45 ∧ img.getD 2 0 = 0x53 ∧
      img.getD 3 0 = 0x1A) :
    (Load c (some img)).2.CHR_ROM.length =
      (if (img.getD 5 0).val = 0 then 8192 else (img.getD 5 0).val * 8192) := by
  have hg : ¬ (img.getD 0 0 ≠ 0x4E ∨ img.getD 1 0 ≠ 0x45 ∨ img.getD 2 0 ≠ 0x53 ∨
      img.getD 3 0 ≠ 0x1A) := by
    rw [hm.1, hm.2.1, hm.2.2.1, hm.2.2.2]
    decide
  unfold Load
  simp only [header_getD img 0 (by decide), header_getD img 1 (by decide),
    header_getD img 2 (by decide), header_getD img 3 (by decide),
    header_getD img 4 (by decide), header_getD img 5 (by decide),
    header_getD img 6 (by decide), header_getD img 7 (by decide)]
  rw [if_neg hg]
  by_cases h5 : (img.getD 5 0).val = 0
  · simp only [h5, if_true]
    split_ifs <;> exact resize_length _ _
  · simp only [h5, if_false]
    split_ifs <;> simp only [resize_length, read_resize_length]

end Cartridge

namespace PPU

/-- With a non-empty pattern vector an internal write below `0x2000` changes nothing and an
internal read there returns the vector's byte. -/
theorem pattern_rom (cart : Cartridge) (h : cart.CHR_ROM.length ≠ 0) (p : PPU) (a : Word)
    (v : Byte) (ha : a.val % 0x4000 < 0x2000) :
    PPUWrite cart p a v = p ∧ PPURead cart p a = cart.CHR_ROM.getD (a.val % 0x4000) 0 := by
  have e : (u16 (a.val &&& 0x3FFF)).val = a.val % 0x4000 := by
    rw [u16_val, and_0x3FFF]
    omega
  unfold PPUWrite PPURead
  dsimp only
  rw [e, if_pos ha, if_neg h, if_pos ha, if_neg h]
  exact ⟨rfl, rfl⟩

/-- After `Load` has accepted the magic, whatever header byte 5 is, internal writes below
`0x2000` change nothing: the pattern RAM of the picture unit is never written. -/
theorem Load_pattern_writes (c : Cartridge) (img : List Byte)
    (hm : img.getD 0 0 = 0x4E ∧ img.getD 1 0 = 0x45 ∧ img.getD 2 0 = 0x53 ∧
      img.getD 3 0 = 0x1A) (p : PPU) (a : Word) (v : Byte) (ha : a.val < 0x2000) :
    PPUWrite (Cartridge.Load c (some img)).2 p a v = p := by
  have hl := Cartridge.Load_chr_length c img hm
  have hne : (Cartridge.Load c (some img)).2.CHR_ROM.length ≠ 0 := by
    rw [hl]
    split_ifs <;> omega
  exact (pattern_rom _ hne p a v (by omega)).1

/-- C24: what the code does for the image `exImage`, whose magic is valid and whose header
byte 5 is 0.  `Load` accepts it and leaves a pattern vector of 8192 zero bytes, so the test
for an empty vector in `PPUWrite` and `PPURead` fails: the write of `0x55` at internal
address 0 changes nothing and the read that follows returns `0x00`, not `0x55`. -/
theorem C24_pattern_ram_unused :
    exImage.getD 0 0 = 0x4E ∧ exImage.getD 1 0 = 0x45 ∧ exImage.getD 2 0 = 0x53 ∧
      exImage.getD 3 0 = 0x1A ∧ exImage.getD 5 0 = 0x00 ∧
      (Cartridge.Load (Cartridge.new exCart) (some exImage)).1 = true ∧
      exLoaded.CHR_ROM.length = 8192 ∧
      PPUWrite exLoaded exPPU 0x0000 0x55 = exPPU ∧
      PPURead exLoaded (PPUWrite exLoaded exPPU 0x0000 0x55) 0x0000 = 0x00 ∧
      PPURead exLoaded (PPUWrite exLoaded exPPU 0x0000 0x55) 0x0000 ≠ 0x55 := by
  have hm : exImage.getD 0 0 = 0x4E ∧ exImage.getD 1 0 = 0x45 ∧ exImage.getD 2 0 = 0x53 ∧
      exImage.getD 3 0 = 0x1A := by decide
  have h5 : exImage.getD 5 0 = 0x00 := by decide
  have hl : exLoaded.CHR_ROM.length = 8192 := by
    have h := Cartridge.Load_chr_length (Cartridge.new exCart) exImage hm
    rw [h5] at h
    exact h
  have hw : PPUWrite exLoaded exPPU 0x0000 0x55 = exPPU :=
    Load_pattern_writes (Cartridge.new exCart) exImage hm exPPU 0x0000 0x55 (by decide)
  have hr : PPURead exLoaded exPPU 0x0000 = 0x00 := by decide!
  refine ⟨hm.1, hm.2.1, hm.2.2.1, hm.2.2.2, h5, by decide!, hl, hw, ?_, ?_⟩
  · rw [hw, hr]
  · rw [hw, hr]
    decide

end PPU

end NES

namespace NES

namespace PPU

/-- Outside the visible scanlines a `Clock` call leaves the current VRAM address alone. -/
theorem Clock_vramAddr_offscreen (cart : Cartridge) (p : PPU)
    (h : ¬ (p.scanline ≥ 0 ∧ p.scanline < 240)) : (Clock cart p).vramAddr = p.vramAddr := by
  obtain ⟨_, _, _, _, _, _, a7, _⟩ := clock_head_store p
  have h1 : (clockVBlank p).vramAddr = p.vramAddr := by
    unfold clockVBlank
    dsimp only
    split_ifs <;> rfl
  have h2 : (clockPreRender (clockVBlank p)).vramAddr = (clockVBlank p).vramAddr := by
    unfold clockPreRender
    split_ifs <;> rfl
  have h3 : ∀ q : PPU, (clockAdvance q).vramAddr = q.vramAddr := by
    intro q
    unfold clockAdvance
    dsimp only
    split_ifs <;> rfl
  unfold Clock
  rw [h3, clockVisible_eq, if_neg (by rw [a7]; exact h), h2, h1]

/-- C25: what the code does on the pre-render line at dot 280 with background rendering
enabled, the current VRAM address 0 and the temporary one `0x7BE0`: the `Clock` call leaves
the current address at 0, although `TransferAddressY` on the same state gives `0x7BE0`; the
call of `TransferAddressY` sits in the block for scanlines 0 .. 239 and is never reached. -/
theorem C25_prerender_copy_skipped :
    exPreRender.scanline = -1 ∧ exPreRender.cycle = 280 ∧
      (exPreRender.regMask.val &&& 0x08) ≠ 0 ∧ exPreRender.tempAddr = 0x7BE0 ∧
      (TransferAddressY exPreRender).vramAddr = 0x7BE0 ∧
      (Clock exCart exPreRender).vramAddr = 0x0000 ∧
      ((Clock exCart exPreRender).vramAddr.val &&& 0x7BE0) ≠
        (exPreRender.tempAddr.val &&& 0x7BE0) := by
  decide

end PPU

end NES

namespace NES

namespace PPU

theorem or_lt_0x8000 (a b : Nat) (ha : a < 0x8000) (hb : b < 0x8000) : a ||| b < 0x8000 :=
  Nat.or_lt_two_pow (n := 15) ha hb

theorem u16_or_lt (t m b : Nat) (ht : t < 0x8000) (hb : b < 0x8000) :
    (u16 ((t &&& m) ||| b)).val < 0x8000 := by
  have h := or_lt_0x8000 (t &&& m) b (Nat.lt_of_le_of_lt Nat.and_le_left ht) hb
  rw [u16_val]
  omega

theorem PPUWrite_tempAddr (cart : Cartridge) (p : PPU) (a : Word) (v : Byte) :
    (PPUWrite cart p a v).tempAddr = p.tempAddr := by
  unfold PPUWrite
  dsimp only
  split_ifs <;> rfl

theorem CPUWrite_tempAddr (cart : Cartridge) (p : PPU) (a : Word) (d : Byte)
    (h : p.tempAddr.val < 0x8000) : (CPUWrite cart p a d).tempAddr.val < 0x8000 := by
  have hd := d.isLt
  have s3 : (d.val &&& 0x03) <<< 10 < 0x8000 := by
    have := @Nat.and_le_right d.val 0x03
    rw [Nat.shiftLeft_eq]
    omega
  have s7 : (d.val &&& 0x07) <<< 12 < 0x8000 := by
    have := @Nat.and_le_right d.val 0x07
    rw [Nat.shiftLeft_eq]
    omega
  have sF8 : (d.val &&& 0xF8) <<< 2 < 0x8000 := by
    have := @Nat.and_le_right d.val 0xF8
    rw [Nat.shiftLeft_eq]
    omega
  have s3F : (d.val &&& 0x3F) <<< 8 < 0x8000 := by
    have := @Nat.and_le_right d.val 0x3F
    rw [Nat.shiftLeft_eq]
    omega
  have sr : d.val >>> 3 < 0x8000 := by
    rw [Nat.shiftRight_eq_div_pow]
    omega
  unfold CPUWrite
  dsimp only
  split_ifs
  · exact u16_or_lt _ _ _ h s3
  · exact h
  · exact h
  · exact h
  · exact u16_or_lt _ _ _ h sr
  · exact u16_or_lt _ _ _ (u16_or_lt _ _ _ h s7) sF8
  · exact u16_or_lt _ _ _ h s3F
  · exact u16_or_lt _ _ _ h (by omega)
  · show (PPUWrite cart p p.vramAddr d).tempAddr.val < 0x8000
    rw [PPUWrite_tempAddr]
    exact h
  · exact h

theorem CPURead_tempAddr (cart : Cartridge) (p : PPU) (a : Word) :
    (CPURead cart p a).2.tempAddr = p.tempAddr := by
  unfold CPURead bumpVramAddr
  dsimp only
  split_ifs <;> rfl

theorem Clock_tempAddr (cart : Cartridge) (p : PPU) : (Clock cart p).tempAddr = p.tempAddr := by
  have h1 : (clockVBlank p).tempAddr = p.tempAddr := by
    unfold clockVBlank
    dsimp only
    split_ifs <;> rfl
  have h2 : (clockPreRender (clockVBlank p)).tempAddr = (clockVBlank p).tempAddr := by
    unfold clockPreRender
    split_ifs <;> rfl
  have h3 : ∀ q : PPU, (clockAdvance q).tempAddr = q.tempAddr := by
    intro q
    unfold clockAdvance
    dsimp only
    split_ifs <;> rfl
  unfold Clock
  rw [h3, (clockVisible_same cart _).2.2.2.2.2.2.2, h2, h1]

/-- In every state reached from `Reset` by register reads, register writes and `Clock` calls
the temporary VRAM address is below `0x8000`. -/
theorem run_tempAddr (cart : Cartridge) (acts : List Action) (raw : PPU) :
    (run cart acts (Reset raw)).tempAddr.val < 0x8000 := by
  have step : ∀ (acts : List Action) (p : PPU), p.tempAddr.val < 0x8000 →
      (run cart acts p).tempAddr.val < 0x8000 := by
    intro acts
    induction acts with
    | nil => exact fun p h => h
    | cons a rest ih =>
      intro p h
      show (run cart rest (act cart p a)).tempAddr.val < 0x8000
      apply ih
      cases a with
      | read addr =>
        show (CPURead cart p addr).2.tempAddr.val < 0x8000
        rw [CPURead_tempAddr]
        exact h
      | write addr data => exact CPUWrite_tempAddr cart p addr data h
      | clock =>
        show (Clock cart p).tempAddr.val < 0x8000
        rw [Clock_tempAddr]
        exact h
  exact step acts (Reset raw) (show (0 : Word).val < 0x8000 by decide)

/-- C26: what the code does on the register traffic `exCarryTrace` from `Reset`: the five
writes leave both VRAM address registers at `0x7FFF`, and the read of the data register then
adds 1 to the current one without masking, so it holds `0x8000`, which is not a 15-bit
value. -/
theorem C26_vram_address_carry :
    (run exCart (exCarryTrace.take 5) (Reset exPPU)).tempAddr = 0x7FFF ∧
      (run exCart (exCarryTrace.take 5) (Reset exPPU)).vramAddr = 0x7FFF ∧
      (run exCart exCarryTrace (Reset exPPU)).tempAddr = 0x7FFF ∧
      (run exCart exCarryTrace (Reset exPPU)).vramAddr = 0x8000 ∧
      ¬ (run exCart exCarryTrace (Reset exPPU)).vramAddr.val < 0x8000 := by
  decide

end PPU

end NES

namespace NES

namespace PPU

/-- The current VRAM address after `IncrementScrollY`, in arithmetic. -/
theorem IncrementScrollY_value (p : PPU) :
    (IncrementScrollY p).vramAddr.val =
      if (p.regMask.val &&& 0x08) ≠ 0 ∨ (p.regMask.val &&& 0x10) ≠ 0 then
        if p.vramAddr.val / 4096 % 8 ≠ 7 then p.vramAddr.val + 4096
        else if p.vramAddr.val / 32 % 32 = 29 then
          (if p.vramAddr.val / 2048 % 2 = 0 then p.vramAddr.val - 0x7000 + 2048
            else p.vramAddr.val - 0x7000 - 2048) - 29 * 32
        else if p.vramAddr.val / 32 % 32 = 31 then p.vramAddr.val - 0x7000 - 31 * 32
        else p.vramAddr.val - 0x7000 + 32
      else p.vramAddr.val := by
  have hv := p.vramAddr.isLt
  by_cases hm : (p.regMask.val &&& 0x08) ≠ 0 ∨ (p.regMask.val &&& 0x10) ≠ 0
  · rw [if_pos hm]
    unfold IncrementScrollY
    rw [if_pos hm]
    by_cases hf : p.vramAddr.val / 4096 % 8 ≠ 7
    · rw [if_pos hf, if_pos (by rw [and_0x7000]; omega)]
      show (u16 (p.vramAddr.val + 0x1000)).val = _
      rw [u16_val]
      omega
    · rw [if_neg hf, if_neg (by rw [and_0x7000]; omega)]
      have e1 : (u16 (p.vramAddr.val &&& cnot 0x7000)).val = p.vramAddr.val - 0x7000 := by
        rw [u16_val, and_cnot_0x7000 _ hv]
        omega
      have ey : (u16 (((p.vramAddr.val - 0x7000) &&& 0x03E0) >>> 5)).val
          = p.vramAddr.val / 32 % 32 := by
        rw [u16_val, and_0x03E0, Nat.shiftRight_eq_div_pow]
        omega
      have z0 : ((0 : Nat) <<< 5) = 0 := rfl
      dsimp only
      rw [e1, ey]
      by_cases h29 : p.vramAddr.val / 32 % 32 = 29
      · rw [if_pos h29, if_pos h29]
        dsimp only
        rw [z0, Nat.or_zero, u16_val, u16_val, xor_0x0800]
        by_cases hb : p.vramAddr.val / 2048 % 2 = 0
        · rw [if_pos hb, if_pos (by omega),
            Nat.mod_eq_of_lt (by omega : p.vramAddr.val - 0x7000 + 2048 < 65536),
            and_cnot_0x03E0 _ (by omega)]
          omega
        · rw [if_neg hb, if_neg (by omega),
            Nat.mod_eq_of_lt (by omega : p.vramAddr.val - 0x7000 - 2048 < 65536),
            and_cnot_0x03E0 _ (by omega)]
          omega
      · rw [if_neg h29, if_neg h29]
        by_cases h31 : p.vramAddr.val / 32 % 32 = 31
        · rw [if_pos h31, if_pos h31]
          dsimp only
          rw [z0, Nat.or_zero, u16_val, and_cnot_0x03E0 _ (by omega)]
          omega
        · rw [if_neg h31, if_neg h31]
          dsimp only
          rw [u16_val, u16_val, and_cnot_0x03E0 _ (by omega),
            Nat.mod_eq_of_lt (by omega : p.vramAddr.val / 32 % 32 + 1 < 65536),
            or_coarseY _ _ (by omega) (by omega)]
          omega
  · rw [if_neg hm]
    unfold IncrementScrollY
    rw [if_neg hm]

theorem IncrementScrollY_only (p : PPU) :
    IncrementScrollY p = { p with vramAddr := (IncrementScrollY p).vramAddr } := by
  unfold IncrementScrollY
  dsimp only
  split_ifs <;> rfl

/-- C27: `IncrementScrollY`, the vertical increment that `Clock` applies at dot 256 of a
visible scanline, changes only the current VRAM address, never its horizontal fields (mask
`0x041F`) and nothing at all when mask bits 3 and 4 are both clear.  With rendering enabled
it adds 1 to fine-Y when fine-Y is below 7; when fine-Y is 7 it clears fine-Y and sets
coarse-Y to 0 with the vertical name-table bit toggled from coarse-Y 29, to 0 without toggling
from coarse-Y 31, and to coarse-Y + 1 without toggling otherwise.  At dot 256 of a visible
scanline the address after `Clock` is the one `IncrementScrollY` gives after the horizontal
increment of the same dot. -/
theorem C27_increment_scroll_y (cart : Cartridge) (p : PPU) :
    ScrollYSpec p (IncrementScrollY p) ∧
    (0 ≤ p.scanline → p.scanline < 240 → p.cycle = 256 →
      (Clock cart p).vramAddr =
        (IncrementScrollY (IncrementScrollX (UpdateShifters
          (clockPreRender (clockVBlank p))))).vramAddr) := by
  have hv := p.vramAddr.isLt
  have hval := IncrementScrollY_value p
  refine ⟨?_, ?_⟩
  · unfold ScrollYSpec fineYOf coarseYOf ntYOf horizontalOf
    dsimp only
    refine ⟨IncrementScrollY_only p, ?_, ?_, ?_, ?_⟩
    · rw [hval]
      split_ifs <;> omega
    · rw [hval]
      split_ifs <;> omega
    · intro h
      rw [hval, if_neg (by rw [h.1, h.2]; exact fun c => c.elim (fun a => a rfl) (fun a => a rfl))]
    · intro h
      rw [hval, if_pos h]
      refine ⟨fun h7 => ?_, fun h7 => ⟨?_, fun h29 => ?_, fun h31 => ?_, fun n29 n31 => ?_⟩⟩
      · rw [if_pos (by omega)]
        omega
      · rw [if_neg (by omega)]
        split_ifs <;> omega
      · rw [if_neg (by omega), if_pos h29]
        split_ifs <;> omega
      · rw [if_neg (by omega), if_neg (by omega), if_pos h31]
        omega
      · rw [if_neg (by omega), if_neg n29, if_neg n31]
        omega
  · intro hy0 hy1 hd
    obtain ⟨_, _, _, _, _, _, a7, a8⟩ := clock_head_store p
    have hc : (clockPreRender (clockVBlank p)).cycle = 256 := by rw [a8, hd]
    have h3 : ∀ q : PPU, (clockAdvance q).vramAddr = q.vramAddr := by
      intro q
      unfold clockAdvance
      dsimp only
      split_ifs <;> rfl
    have hr : ∀ q : PPU, (RenderPixel cart q).vramAddr = q.vramAddr := by
      intro q
      unfold RenderPixel SetPixel
      dsimp only
      split_ifs <;> rfl
    have hf : visibleFetch cart (clockPreRender (clockVBlank p)) =
        IncrementScrollX (UpdateShifters (clockPreRender (clockVBlank p))) := by
      unfold visibleFetch
      rw [if_pos (Or.inl (by rw [hc]; decide))]
      have hu : (UpdateShifters (clockPreRender (clockVBlank p))).cycle = 256 := by
        rw [(UpdateShifters_store _).2.2.2.2.2.2.2, hc]
      unfold clockFetch
      dsimp only
      rw [hu]
      rfl
    have hx : (IncrementScrollX (UpdateShifters (clockPreRender (clockVBlank p)))).cycle
        = 256 := by
      rw [(IncrementScrollX_store _).2.2.2.2.2.2.2, (UpdateShifters_store _).2.2.2.2.2.2.2, hc]
    have hs : (IncrementScrollX (UpdateShifters (clockPreRender (clockVBlank p)))).scanline
        = p.scanline := by
      rw [(IncrementScrollX_store _).2.2.2.2.2.2.1, (UpdateShifters_store _).2.2.2.2.2.2.1, a7]
    have hyc : ∀ q : PPU, (IncrementScrollY q).cycle = q.cycle :=
      fun q => (IncrementScrollY_store q).2.2.2.2.2.2.2
    have hys : ∀ q : PPU, (IncrementScrollY q).scanline = q.scanline :=
      fun q => (IncrementScrollY_store q).2.2.2.2.2.2.1
    unfold Clock
    rw [h3, clockVisible_eq, if_pos (by rw [a7]; exact ⟨hy0, hy1⟩), hf]
    unfold visibleScrollY
    rw [if_pos hx]
    unfold visibleReload
    rw [if_neg (by rw [hyc, hx]; decide)]
    unfold visibleTransferY
    rw [if_neg (by rw [hys, hs]; omega)]
    unfold visibleRender
    rw [if_pos (by rw [hyc, hx]; decide), hr]

theorem C27_increment_scroll_y_witness :
    (IncrementScrollY exScroll).vramAddr = 0x0805 ∧
      ScrollYSpec exScroll (IncrementScrollY exScroll) ∧
      (Clock exCart { exScroll with cycle := 256 }).vramAddr =
        (IncrementScrollY (IncrementScrollX (UpdateShifters
          (clockPreRender (clockVBlank { exScroll with cycle := 256 }))))).vramAddr :=
  ⟨by decide, (C27_increment_scroll_y exCart exScroll).1,
    (C27_increment_scroll_y exCart { exScroll with cycle := 256 }).2 (by decide) (by decide)
      rfl⟩

end PPU

end NES

namespace NES

namespace CPU

theorem PHA_eq (s : CPU) :
    (PHA s).2 =
      { s with
        mem := { s.mem with
          RAM := fun k => if k = 0x0100 + s.SP.val then s.A else s.mem.RAM k },
        SP := u8i ((s.SP.val : Int) - 1) } := by
  obtain ⟨w, v, _, _⟩ := stack_addr s.SP.val s.SP.isLt
  unfold PHA
  simp only [Write, Memory_Write_ram _ _ _ w, v]

theorem PLA_eq (s : CPU) :
    (PLA s).2 =
      { s with
        SP := u8 (s.SP.val + 1),
        A := s.mem.RAM (0x0100 + (s.SP.val + 1) % 256),
        P := setP (setP s.P ZERO
            (decide ((s.mem.RAM (0x0100 + (s.SP.val + 1) % 256)).val = 0x00))) NEGATIVE
          (decide (((s.mem.RAM (0x0100 + (s.SP.val + 1) % 256)).val &&& 0x80) ≠ 0)) } := by
  obtain ⟨w, v, _, _⟩ := stack_addr ((s.SP.val + 1) % 256) (Nat.mod_lt _ (by decide))
  unfold PLA
  simp only [Read_eq, SetFlag_eq, u8_val, Memory_Read_ram _ _ w, v]

/-- C28: `PHA` writes `A` at bus address `0x0100 + SP` and then leaves `SP = (SP - 1) mod 256`;
`PLA` first adds 1 to `SP` modulo 256, then loads `A` from `0x0100 + SP` and sets the zero and
negative flags from it, leaving the bus as it was; so `PLA` after `PHA` gives back `A` and
`SP` for every stack pointer, `0x00` included, and both accesses use an address in
`0x0100 .. 0x01FF`. -/
theorem C28_push_pull (s : CPU) :
    (PHA s).2.mem = s.mem.Write (u16 (0x0100 + s.SP.val)) s.A ∧
    (PHA s).2.mem.RAM = (fun k => if k = 0x0100 + s.SP.val then s.A else s.mem.RAM k) ∧
    (PHA s).2.SP.val = (((s.SP.val : Int) - 1) % 256).toNat ∧
    (PLA s).2.SP.val = (s.SP.val + 1) % 256 ∧
    (PLA s).2.A = (s.mem.Read (u16 (0x0100 + (s.SP.val + 1) % 256))).1 ∧
    (PLA s).2.A = s.mem.RAM (0x0100 + (s.SP.val + 1) % 256) ∧
    (PLA s).2.mem = s.mem ∧
    GetFlag (PLA s).2 ZERO = decide ((PLA s).2.A.val = 0) ∧
    GetFlag (PLA s).2 NEGATIVE = (PLA s).2.A.val.testBit 7 ∧
    (PLA (PHA s).2).2.A = s.A ∧ (PLA (PHA s).2).2.SP = s.SP ∧
    (0x0100 ≤ (u16 (0x0100 + s.SP.val)).val ∧ (u16 (0x0100 + s.SP.val)).val ≤ 0x01FF) ∧
    (0x0100 ≤ (u16 (0x0100 + (s.SP.val + 1) % 256)).val ∧
      (u16 (0x0100 + (s.SP.val + 1) % 256)).val ≤ 0x01FF) := by
  have hsp := s.SP.isLt
  obtain ⟨w, v, p1, p2⟩ := stack_addr s.SP.val hsp
  obtain ⟨w', v', p1', p2'⟩ := stack_addr ((s.SP.val + 1) % 256) (Nat.mod_lt _ (by decide))
  have hpha := PHA_eq s
  have hpla := PLA_eq s
  have hround := PLA_eq (PHA s).2
  have back : ((PHA s).2.SP.val + 1) % 256 = s.SP.val := by
    rw [hpha]
    show ((u8i ((s.SP.val : Int) - 1)).val + 1) % 256 = s.SP.val
    rw [u8i_val]
    omega
  have hA : (PLA s).2.A = s.mem.RAM (0x0100 + (s.SP.val + 1) % 256) := by rw [hpla]
  have hP : (PLA s).2.P = setP (setP s.P ZERO
      (decide ((s.mem.RAM (0x0100 + (s.SP.val + 1) % 256)).val = 0x00))) NEGATIVE
      (decide (((s.mem.RAM (0x0100 + (s.SP.val + 1) % 256)).val &&& 0x80) ≠ 0)) := by
    rw [hpla]
  refine ⟨rfl, by rw [hpha], by rw [hpha]; exact u8i_val _, by rw [hpla]; rfl, ?_,
    hA, by rw [hpla], ?_, ?_, ?_, ?_, ⟨p1, p2⟩, ⟨p1', p2'⟩⟩
  · rw [hA, Memory_Read_ram _ _ w', v']
  · rw [GetFlag_ZERO, hP, hA, testBit_setP_NEGATIVE, testBit_setP_ZERO]
    simp only [Nat.reduceEqDiff, reduceIte]
  · rw [GetFlag_NEGATIVE, hP, hA, testBit_setP_NEGATIVE, if_pos rfl, and_0x80, testBit7]
    have := (s.mem.RAM (0x0100 + (s.SP.val + 1) % 256)).isLt
    apply decide_eq_decide.mpr
    omega
  · rw [hround, back]
    show (PHA s).2.mem.RAM (0x0100 + s.SP.val) = s.A
    rw [hpha]
    exact if_pos rfl
  · rw [hround]
    apply Fin.ext
    show (u8 ((PHA s).2.SP.val + 1)).val = s.SP.val
    rw [u8_val, back]

end CPU

end NES

namespace NES

namespace CPU

set_option maxRecDepth 100000 in
theorem unused_bit : ∀ b : Byte,
    u8 (b.val ||| BREAK_FLAG.val ||| UNUSED.val) = u8 (b.val ||| 0x30) ∧
    (u8 (b.val ||| 0x30)).val.testBit 5 = true ∧
    (u8 ((b.val &&& 0xEF) ||| 0x24)).val.testBit 5 = true ∧
    setP b UNUSED true = u8 (b.val ||| 0x20) ∧
    (u8 (b.val ||| 0x20)).val.testBit 5 = true := by
  decide

/-- The RAM cell that holds the status byte pushed by `BRKInstruction`. -/
theorem BRK_pushed_status (s : CPU) :
    (BRKInstruction s).2.mem.RAM (0x0100 + (((s.SP.val : Int) - 2) % 256).toNat)
      = u8 (s.P.val ||| 0x30) := by
  have hsp := s.SP.isLt
  have e2 : u16 (0x0100 + (u8i ((s.SP.val : Int) - 1)).val)
      = u16 (0x0100 + (((s.SP.val : Int) - 1) % 256).toNat) := by rw [u8i_val]
  have e3 : u16 (0x0100 + (u8i (((u8i ((s.SP.val : Int) - 1)).val : Int) - 1)).val)
      = u16 (0x0100 + (((s.SP.val : Int) - 2) % 256).toNat) := by
    apply Fin.ext; simp only [u16_val, u8i_val]; omega
  obtain ⟨st1, _, _, _⟩ := brk_status s.P
  obtain ⟨w1, v1, _, _⟩ := stack_addr s.SP.val hsp
  obtain ⟨w2, v2, _, _⟩ := stack_addr (((s.SP.val : Int) - 1) % 256).toNat (by omega)
  obtain ⟨w3, v3, _, _⟩ := stack_addr (((s.SP.val : Int) - 2) % 256).toNat (by omega)
  have ra : (0x8000 : Nat) ≤ (0xFFFE : Word).val := by decide
  have rb : (0x8000 : Nat) ≤ (0xFFFF : Word).val := by decide
  unfold BRKInstruction
  simp only [Write, Read_eq, SetFlag_eq, e2, e3, st1, Memory_Read_prg _ _ ra,
    Memory_Read_prg _ _ rb]
  simp only [Memory_Write_ram _ _ _ w1, Memory_Write_ram _ _ _ w2, Memory_Write_ram _ _ _ w3,
    v1, v2, v3, if_true]

/-- The RAM cell that holds the status byte pushed by `NMI`. -/
theorem NMI_pushed_status (s : CPU) :
    (NMI s).mem.RAM (0x0100 + (((s.SP.val : Int) - 2) % 256).toNat)
      = u8 ((s.P.val &&& 0xEF) ||| 0x24) := by
  have hsp := s.SP.isLt
  have e2 : u16 (0x0100 + (u8i ((s.SP.val : Int) - 1)).val)
      = u16 (0x0100 + (((s.SP.val : Int) - 1) % 256).toNat) := by rw [u8i_val]
  have e3 : u16 (0x0100 + (u8i (((u8i ((s.SP.val : Int) - 1)).val : Int) - 1)).val)
      = u16 (0x0100 + (((s.SP.val : Int) - 2) % 256).toNat) := by
    apply Fin.ext; simp only [u16_val, u8i_val]; omega
  obtain ⟨st1, st2⟩ := nmi_status s.P
  rw [st1] at st2
  obtain ⟨w1, v1, _, _⟩ := stack_addr s.SP.val hsp
  obtain ⟨w2, v2, _, _⟩ := stack_addr (((s.SP.val : Int) - 1) % 256).toNat (by omega)
  obtain ⟨w3, v3, _, _⟩ := stack_addr (((s.SP.val : Int) - 2) % 256).toNat (by omega)
  have ra : (0x8000 : Nat) ≤ (0xFFFA : Word).val := by decide
  have rb : (0x8000 : Nat) ≤ (0xFFFB : Word).val := by decide
  unfold NMI
  simp only [Write, Read_eq, SetFlag_eq, e2, e3, st1, st2, Memory_Read_prg _ _ ra,
    Memory_Read_prg _ _ rb]
  simp only [Memory_Write_ram _ _ _ w1, Memory_Write_ram _ _ _ w2, Memory_Write_ram _ _ _ w3,
    v1, v2, v3, if_true]

/-- C29: the status byte that `PHP` stores at `0x0100 + SP` is `P | 0x30`, the one that
`BRKInstruction` stores at `0x0100 + (SP - 2) mod 256` is `P | 0x30`, the one that `NMI`
stores there is `(P & 0xEF) | 0x24`, and each has bit 5 set; after `PLP` the status register
is the pulled byte with bit 5 forced set. -/
theorem C29_unused_bit (s : CPU) :
    ((PHP s).2.mem.RAM (0x0100 + s.SP.val) = u8 (s.P.val ||| 0x30) ∧
      ((PHP s).2.mem.RAM (0x0100 + s.SP.val)).val.testBit 5 = true) ∧
    ((BRKInstruction s).2.mem.RAM (0x0100 + (((s.SP.val : Int) - 2) % 256).toNat)
        = u8 (s.P.val ||| 0x30) ∧
      ((BRKInstruction s).2.mem.RAM
        (0x0100 + (((s.SP.val : Int) - 2) % 256).toNat)).val.testBit 5 = true) ∧
    ((NMI s).mem.RAM (0x0100 + (((s.SP.val : Int) - 2) % 256).toNat)
        = u8 ((s.P.val &&& 0xEF) ||| 0x24) ∧
      ((NMI s).mem.RAM (0x0100 + (((s.SP.val : Int) - 2) % 256).toNat)).val.testBit 5 = true) ∧
    ((PLP s).2.P = u8 ((s.mem.RAM (0x0100 + (s.SP.val + 1) % 256)).val ||| 0x20) ∧
      (PLP s).2.P.val.testBit 5 = true ∧ GetFlag (PLP s).2 UNUSED = true) := by
  have hphp : (PHP s).2.mem.RAM (0x0100 + s.SP.val) = u8 (s.P.val ||| 0x30) := by
    obtain ⟨w, v, _, _⟩ := stack_addr s.SP.val s.SP.isLt
    unfold PHP
    simp only [Write, Memory_Write_ram _ _ _ w, v, if_true, (unused_bit s.P).1]
  have hplp : (PLP s).2.P = u8 ((s.mem.RAM (0x0100 + (s.SP.val + 1) % 256)).val ||| 0x20) := by
    obtain ⟨w, v, _, _⟩ := stack_addr ((s.SP.val + 1) % 256) (Nat.mod_lt _ (by decide))
    unfold PLP
    simp only [Read_eq, SetFlag_eq, u8_val, Memory_Read_ram _ _ w, v]
    exact (unused_bit _).2.2.2.1
  refine ⟨⟨hphp, ?_⟩, ⟨BRK_pushed_status s, ?_⟩, ⟨NMI_pushed_status s, ?_⟩, hplp, ?_, ?_⟩
  · rw [hphp]
    exact (unused_bit _).2.1
  · rw [BRK_pushed_status]
    exact (unused_bit _).2.1
  · rw [NMI_pushed_status]
    exact (unused_bit _).2.2.1
  · rw [hplp]
    exact (unused_bit _).2.2.2.2
  · rw [GetFlag_UNUSED, hplp]
    exact (unused_bit _).2.2.2.2

end CPU

end NES

namespace NES

namespace CPU

/-- The opcode bytes whose table slot differs from the default descriptor, and how many
slots each of the five assigned operations has. -/
theorem table_assigned :
    (List.range 256).filter (fun i => decide ((opcodeTable []).getD i default ≠ nopDescriptor))
      = [0x06, 0x0A, 0x0E, 0x16, 0x1E, 0x21, 0x25, 0x29, 0x2D, 0x31, 0x35, 0x39, 0x3D,
          0x61, 0x65, 0x69, 0x6D, 0x71, 0x75, 0x79, 0x7D, 0x90,
          0xA1, 0xA5, 0xA9, 0xAD, 0xB1, 0xB5, 0xB9, 0xBD] ∧
    ((List.range 256).filter (fun i =>
      decide (((opcodeTable []).getD i default).operate = some Operation.ADC))).length = 8 ∧
    ((List.range 256).filter (fun i =>
      decide (((opcodeTable []).getD i default).operate = some Operation.AND))).length = 8 ∧
    ((List.range 256).filter (fun i =>
      decide (((opcodeTable []).getD i default).operate = some Operation.LDA))).length = 8 ∧
    ((List.range 256).filter (fun i =>
      decide (((opcodeTable []).getD i default).operate = some Operation.ASL))).length = 5 ∧
    ((List.range 256).filter (fun i =>
      decide (((opcodeTable []).getD i default).operate = some Operation.BCC))) = [0x90] ∧
    assignedOpcodes.length = 30 ∧
    (∀ i : Fin 256, i.val ∈ assignedOpcodes ↔
      (opcodeTable []).getD i.val default ≠ nopDescriptor) ∧
    0x00 ∉ assignedOpcodes ∧ 0x4C ∉ assignedOpcodes ∧ 0x8D ∉ assignedOpcodes ∧
    0xC9 ∉ assignedOpcodes := by
  decide!

/-- C30: the table of `InitializeOpcodeTable` has exactly 30 slots that differ from the
default descriptor (8 for ADC, 8 for AND, 8 for LDA, 5 for ASL and `0x90` for BCC); and when a
running processor with this table and no pending cycles fetches any other opcode byte, the
call leaves the program counter one higher, `A`, `X`, `Y`, `SP`, `P` and the memories on the
bus unchanged (the whole bus state when the opcode is not fetched from a register address)
and the counter at 1, and the next call only takes the counter to 0: the opcode occupies two
calls and consumes no operand byte. -/
theorem C30_default_nop (s : CPU) (hl : s.lookup = opcodeTable []) (hr : s.running = true)
    (hc : s.cycles.val = 0) (hn : (FetchByte s).1.val ∉ assignedOpcodes) :
    ((List.range 256).filter
      (fun i => decide ((opcodeTable []).getD i default ≠ nopDescriptor))).length = 30 ∧
    slot s (FetchByte s).1.val = nopDescriptor ∧
    ExecuteInstruction s =
      { (FetchByte s).2 with opcode := (FetchByte s).1, fetched := s.A, cycles := 1 } ∧
    (ExecuteInstruction s).PC.val = (s.PC.val + 1) % 65536 ∧
    (ExecuteInstruction s).A = s.A ∧ (ExecuteInstruction s).X = s.X ∧
    (ExecuteInstruction s).Y = s.Y ∧ (ExecuteInstruction s).SP = s.SP ∧
    (ExecuteInstruction s).P = s.P ∧
    ((ExecuteInstruction s).mem.RAM = s.mem.RAM ∧
      (ExecuteInstruction s).mem.cartridge = s.mem.cartridge ∧
      (ExecuteInstruction s).mem.ppu.OAM = s.mem.ppu.OAM ∧
      (ExecuteInstruction s).mem.ppu.nameTable = s.mem.ppu.nameTable ∧
      (ExecuteInstruction s).mem.ppu.palette = s.mem.ppu.palette ∧
      (ExecuteInstruction s).mem.ppu.chrRam = s.mem.ppu.chrRam) ∧
    (sideEffectFree s.PC.val → (ExecuteInstruction s).mem = s.mem) ∧
    (ExecuteInstruction s).cycles.val = 1 ∧
    ExecuteInstruction (ExecuteInstruction s) = { ExecuteInstruction s with cycles := 0 } := by
  have hb := (FetchByte s).1.isLt
  have hs : slot s (FetchByte s).1.val = nopDescriptor := by
    rw [slot_table s hl]
    exact (table_facts_nat _ hb).2.2.2.2.1 hn
  have ha : afterAddr s = Implied (decoded s) := by
    unfold afterAddr
    rw [hs]
    rfl
  have ho : afterOp s = NOP (afterAddr s).2 := by
    unfold afterOp
    rw [hs]
    rfl
  have hd : decoded s = { (FetchByte s).2 with opcode := (FetchByte s).1, cycles := 2 } := by
    unfold decoded
    rw [hs]
    rfl
  have hstep : ExecuteInstruction s =
      { (FetchByte s).2 with opcode := (FetchByte s).1, fetched := s.A, cycles := 1 } := by
    have c : u8i (((u8 ((2 : Byte).val + ((0 : Byte).val &&& (0 : Byte).val))).val : Int) - 1)
        = 1 := by decide
    rw [ExecuteInstruction_fetch s hl hr hc, ho, ha, hd]
    simp only [Implied, NOP, FetchByte_A, c]
  have hst := Memory_Read_storage s.mem s.PC
  have hcount : ((List.range 256).filter
      (fun i => decide ((opcodeTable []).getD i default ≠ nopDescriptor))).length = 30 := by
    rw [table_assigned.1]
    rfl
  refine ⟨hcount, hs, hstep, ?_, ?_, ?_, ?_, ?_, ?_, ?_, ?_, ?_, ?_⟩
  · rw [hstep]
    exact u16_val _
  · rw [hstep]; rfl
  · rw [hstep]; rfl
  · rw [hstep]; rfl
  · rw [hstep]; rfl
  · rw [hstep]; rfl
  · rw [hstep]
    exact hst
  · intro hp
    rw [hstep]
    exact Memory_Read_pure s.mem s.PC hp
  · rw [hstep]; rfl
  · have hr2 : (ExecuteInstruction s).running = true := by
      rw [hstep]
      exact hr
    have hc2 : (ExecuteInstruction s).cycles.val = 1 := by
      rw [hstep]; rfl
    rw [ExecuteInstruction_unfold (ExecuteInstruction s), if_neg (by simp [hr2]),
      if_neg (by omega), hc2]
    rfl

theorem C30_default_nop_witness :
    (FetchByte (exCPU [0x4C, 0x34, 0x12] 0)).1.val = 0x4C ∧
      (ExecuteInstruction (exCPU [0x4C, 0x34, 0x12] 0)).PC.val
        = ((exCPU [0x4C, 0x34, 0x12] 0).PC.val + 1) % 65536 ∧
      (ExecuteInstruction (exCPU [0x4C, 0x34, 0x12] 0)).cycles.val = 1 :=
  ⟨by decide!,
    (C30_default_nop (exCPU [0x4C, 0x34, 0x12] 0) rfl rfl rfl (by decide!)).2.2.2.1,
    (C30_default_nop (exCPU [0x4C, 0x34, 0x12] 0) rfl rfl rfl (by decide!)).2.2.2.2.2.2.2.2.2.2.2.1⟩

end CPU

end NES

/-! # Claims C31 - C33: interrupt round trip, horizontal scroll period, subscripts -/

namespace NES

namespace CPU

/-- What `NMI` leaves, for every state. -/
theorem NMI_frame (s : CPU) : NMISpec s (NMI s) := by
  have hsp := s.SP.isLt
  have hpc := s.PC.isLt
  have e2 : u16 (0x0100 + (u8i ((s.SP.val : Int) - 1)).val)
      = u16 (0x0100 + (((s.SP.val : Int) - 1) % 256).toNat) := by rw [u8i_val]
  have e3 : u16 (0x0100 + (u8i (((u8i ((s.SP.val : Int) - 1)).val : Int) - 1)).val)
      = u16 (0x0100 + (((s.SP.val : Int) - 2) % 256).toNat) := by
    apply Fin.ext; simp only [u16_val, u8i_val]; omega
  have d1 : u8 ((s.PC.val >>> 8) &&& 0xFF) = u8 (s.PC.val / 256) := by
    apply Fin.ext
    simp only [u8_val, and_0x00FF, Nat.shiftRight_eq_div_pow]
    omega
  have d2 : u8 (s.PC.val &&& 0xFF) = u8 (s.PC.val % 256) := by
    apply Fin.ext
    simp only [u8_val, and_0x00FF]
  obtain ⟨st1, st2⟩ := nmi_status s.P
  rw [st1] at st2
  obtain ⟨w1, _, _, _⟩ := stack_addr s.SP.val hsp
  obtain ⟨w2, _, _, _⟩ := stack_addr (((s.SP.val : Int) - 1) % 256).toNat (by omega)
  obtain ⟨w3, _, _, _⟩ := stack_addr (((s.SP.val : Int) - 2) % 256).toNat (by omega)
  have v1 : (0x0100 + s.SP.val) % 65536 % 0x0800 = 0x0100 + s.SP.val := by omega
  have v2 : (0x0100 + (((s.SP.val : Int) - 1) % 256).toNat) % 65536 % 0x0800
      = 0x0100 + (((s.SP.val : Int) - 1) % 256).toNat := by omega
  have v3 : (0x0100 + (((s.SP.val : Int) - 2) % 256).toNat) % 65536 % 0x0800
      = 0x0100 + (((s.SP.val : Int) - 2) % 256).toNat := by omega
  have ra : (0x8000 : Nat) ≤ (0xFFFA : Word).val := by decide
  have rb : (0x8000 : Nat) ≤ (0xFFFB : Word).val := by decide
  have ca : (0xFFFA : Word).val - 0x8000 = 0x7FFA := by decide
  have cb : (0xFFFB : Word).val - 0x8000 = 0x7FFB := by decide
  have c7 : (7 : Byte).val = 7 := by decide
  have hlo := (s.mem.cartridge.PRG_ROM.getD (0x7FFA % s.mem.cartridge.PRG_ROM.length) 0).isLt
  have hhi := (s.mem.cartridge.PRG_ROM.getD (0x7FFB % s.mem.cartridge.PRG_ROM.length) 0).isLt
  unfold NMISpec NMI
  simp only [Write, Read_eq, SetFlag_eq, e2, e3, d1, d2, st1, st2,
    Memory_Read_prg _ _ ra, Memory_Read_prg _ _ rb]
  simp only [Memory_Write_ram _ _ _ w1, Memory_Write_ram _ _ _ w2, Memory_Write_ram _ _ _ w3,
    v1, v2, v3, u8i_val, u16_val, ca, cb, c7]
  refine ⟨trivial, trivial, trivial, trivial, trivial, by omega, ?_, trivial, trivial, trivial,
    trivial, trivial, trivial, trivial⟩
  rw [Nat.mod_eq_of_lt (by omega : (s.mem.cartridge.PRG_ROM.getD
        (0x7FFB % s.mem.cartridge.PRG_ROM.length) 0).val < 65536),
    Nat.mod_eq_of_lt (by omega : (s.mem.cartridge.PRG_ROM.getD
        (0x7FFA % s.mem.cartridge.PRG_ROM.length) 0).val < 65536),
    shl8_or _ _ hlo, or_shl8 _ _ hlo]
  omega

/-- What `RTI` leaves, for every state. -/
theorem RTI_frame (s : CPU) : RTISpec s (RTI s).2 := by
  have hsp := s.SP.isLt
  obtain ⟨w1, _, _, _⟩ := stack_addr ((s.SP.val + 1) % 256) (Nat.mod_lt _ (by decide))
  obtain ⟨w2, _, _, _⟩ := stack_addr ((s.SP.val + 2) % 256) (Nat.mod_lt _ (by decide))
  obtain ⟨w3, _, _, _⟩ := stack_addr ((s.SP.val + 3) % 256) (Nat.mod_lt _ (by decide))
  have v1 : (0x0100 + (s.SP.val + 1) % 256) % 65536 % 0x0800
      = 0x0100 + (s.SP.val + 1) % 256 := by omega
  have v2 : (0x0100 + (s.SP.val + 2) % 256) % 65536 % 0x0800
      = 0x0100 + (s.SP.val + 2) % 256 := by omega
  have v3 : (0x0100 + (s.SP.val + 3) % 256) % 65536 % 0x0800
      = 0x0100 + (s.SP.val + 3) % 256 := by omega
  have e2 : u16 (0x0100 + ((s.SP.val + 1) % 256 + 1) % 256)
      = u16 (0x0100 + (s.SP.val + 2) % 256) := by
    apply Fin.ext; simp only [u16_val]; omega
  have e3 : u16 (0x0100 + (((s.SP.val + 1) % 256 + 1) % 256 + 1) % 256)
      = u16 (0x0100 + (s.SP.val + 3) % 256) := by
    apply Fin.ext; simp only [u16_val]; omega
  have hw := vector_word (s.mem.RAM (0x0100 + (s.SP.val + 2) % 256))
    (s.mem.RAM (0x0100 + (s.SP.val + 3) % 256))
  unfold RTISpec RTI
  simp only [Read_eq, u8_val, e2, e3, Memory_Read_ram _ _ w1, Memory_Read_ram _ _ w2,
    Memory_Read_ram _ _ w3, rti_status]
  simp only [u16_val, v1, v2, v3, hw]
  refine ⟨trivial, trivial, trivial, trivial, trivial, by omega, trivial, trivial, trivial, trivial⟩

set_option maxRecDepth 100000 in
theorem nmi_rti_status : ∀ P : Byte,
    u8 ((u8 ((P.val &&& 0xEF) ||| 0x24)).val &&& 0xCF) = u8 ((P.val &&& 0xCB) ||| 0x04) ∧
    (u8 ((P.val &&& 0xCB) ||| 0x04)).val.testBit 0 = P.val.testBit 0 ∧
    (u8 ((P.val &&& 0xCB) ||| 0x04)).val.testBit 1 = P.val.testBit 1 ∧
    (u8 ((P.val &&& 0xCB) ||| 0x04)).val.testBit 3 = P.val.testBit 3 ∧
    (u8 ((P.val &&& 0xCB) ||| 0x04)).val.testBit 6 = P.val.testBit 6 ∧
    (u8 ((P.val &&& 0xCB) ||| 0x04)).val.testBit 7 = P.val.testBit 7 ∧
    (u8 ((P.val &&& 0xCB) ||| 0x04)).val.testBit 2 = true := by
  decide

/-- C31: `RTI` right after `NMI` gives back `PC`, `SP`, `A`, `X`, `Y` and the carry, zero,
decimal, overflow and negative flags of the state before the `NMI`; the status register is
then `(P & 0xCB) | 0x04` (interrupt-disable stays set, break and unused are clear); RAM differs
from before at most in the three stack cells `0x0100 + SP`, `0x0100 + (SP - 1) mod 256` and
`0x0100 + (SP - 2) mod 256`, and cartridge, picture unit and controller are as before. -/
theorem C31_nmi_rti (s : CPU) (_hprg : 0 < s.mem.cartridge.PRG_ROM.length) :
    (RTI (NMI s)).2.PC = s.PC ∧ (RTI (NMI s)).2.SP = s.SP ∧
    (RTI (NMI s)).2.A = s.A ∧ (RTI (NMI s)).2.X = s.X ∧ (RTI (NMI s)).2.Y = s.Y ∧
    GetFlag (RTI (NMI s)).2 CARRY = GetFlag s CARRY ∧
    GetFlag (RTI (NMI s)).2 ZERO = GetFlag s ZERO ∧
    GetFlag (RTI (NMI s)).2 DECIMAL = GetFlag s DECIMAL ∧
    GetFlag (RTI (NMI s)).2 OVERFLOW_FLAG = GetFlag s OVERFLOW_FLAG ∧
    GetFlag (RTI (NMI s)).2 NEGATIVE = GetFlag s NEGATIVE ∧
    (RTI (NMI s)).2.P = u8 ((s.P.val &&& 0xCB) ||| 0x04) ∧
    (∀ k, k ≠ 0x0100 + s.SP.val → k ≠ 0x0100 + (((s.SP.val : Int) - 1) % 256).toNat →
      k ≠ 0x0100 + (((s.SP.val : Int) - 2) % 256).toNat →
      (RTI (NMI s)).2.mem.RAM k = s.mem.RAM k) ∧
    (RTI (NMI s)).2.mem.cartridge = s.mem.cartridge ∧
    (RTI (NMI s)).2.mem.ppu = s.mem.ppu ∧
    (RTI (NMI s)).2.mem.controller = s.mem.controller := by
  have hsp := s.SP.isLt
  have hpc := s.PC.isLt
  obtain ⟨_, nRAM, nCart, nPpu, nCtl, nSP, _, _, _, _, _, nA, nX, nY⟩ := NMI_frame s
  obtain ⟨rP, rPC, r1, r2, r3, rSP, rA, rX, rY, rMem⟩ := RTI_frame (NMI s)
  have a1 : 0x0100 + ((NMI s).SP.val + 1) % 256
      = 0x0100 + (((s.SP.val : Int) - 2) % 256).toNat := by omega
  have a2 : 0x0100 + ((NMI s).SP.val + 2) % 256
      = 0x0100 + (((s.SP.val : Int) - 1) % 256).toNat := by omega
  have a3 : 0x0100 + ((NMI s).SP.val + 3) % 256 = 0x0100 + s.SP.val := by omega
  have n12 : 0x0100 + (((s.SP.val : Int) - 1) % 256).toNat
      ≠ 0x0100 + (((s.SP.val : Int) - 2) % 256).toNat := by omega
  have n13 : 0x0100 + s.SP.val ≠ 0x0100 + (((s.SP.val : Int) - 2) % 256).toNat := by omega
  have n23 : 0x0100 + s.SP.val ≠ 0x0100 + (((s.SP.val : Int) - 1) % 256).toNat := by omega
  rw [a1] at rP r1
  rw [a2, a3] at rPC
  rw [a2] at r2
  rw [a3] at r3
  rw [r1, nRAM] at rP
  rw [r2, r3, nRAM] at rPC
  simp only [if_true, if_neg n12, if_neg n13, if_neg n23] at rP rPC
  obtain ⟨q0, q1, q2, q3, q4, q5, _⟩ := nmi_rti_status s.P
  rw [q0] at rP
  refine ⟨?_, ?_, by rw [rA, nA], by rw [rX, nX], by rw [rY, nY], ?_, ?_, ?_, ?_, ?_, rP, ?_,
    by rw [rMem, nCart], by rw [rMem, nPpu], by rw [rMem, nCtl]⟩
  · apply Fin.ext
    rw [rPC, u8_val, u8_val, or_shl8 _ _ (Nat.mod_lt _ (by decide))]
    omega
  · apply Fin.ext
    rw [rSP]
    omega
  · rw [GetFlag_CARRY, GetFlag_CARRY, rP, q1]
  · rw [GetFlag_ZERO, GetFlag_ZERO, rP, q2]
  · rw [GetFlag_DECIMAL, GetFlag_DECIMAL, rP, q3]
  · rw [GetFlag_OVERFLOW_FLAG, GetFlag_OVERFLOW_FLAG, rP, q4]
  · rw [GetFlag_NEGATIVE, GetFlag_NEGATIVE, rP, q5]
  · intro k k1 k2 k3
    rw [rMem, nRAM]
    simp only [if_neg k1, if_neg k2, if_neg k3]

theorem C31_nmi_rti_witness :
    0 < (exCPU [] 0).mem.cartridge.PRG_ROM.length ∧
      (RTI (NMI (exCPU [] 0))).2.PC = (exCPU [] 0).PC ∧
      (RTI (NMI (exCPU [] 0))).2.SP = (exCPU [] 0).SP :=
  ⟨exCPU_prg_pos [] 0, (C31_nmi_rti (exCPU [] 0) (exCPU_prg_pos [] 0)).1,
    (C31_nmi_rti (exCPU [] 0) (exCPU_prg_pos [] 0)).2.1⟩

end CPU

end NES

namespace NES

namespace PPU

theorem and_cnot_0x001F (x : Nat) (hx : x < 65536) : x &&& cnot 0x001F = x - x % 32 := by
  have c : cnot 0x001F = 2 ^ 5 * (2 ^ 27 - 1) + (2 ^ 0 - 1) := by decide
  have h := and_hi_lo x 5 27 0 (by decide)
  rw [← c] at h
  norm_num at h
  omega

theorem xor_0x0400 (x : Nat) :
    x ^^^ 0x0400 = if x / 1024 % 2 = 0 then x + 1024 else x - 1024 := by
  have h := (split_bits (x / 2 ^ 10) (x % 2 ^ 10) 1 0 10
    (Nat.mod_lt _ (by decide)) (by decide)).2.2
  rw [Nat.div_add_mod, Nat.xor_zero, xor_one] at h
  norm_num at h
  rw [h]
  split_ifs <;> omega

/-- With rendering enabled `IncrementScrollX` replaces the current VRAM address by
`coarseXStep` of it and changes nothing else. -/
theorem IncrementScrollX_enabled (p : PPU)
    (hm : (p.regMask.val &&& 0x08) ≠ 0 ∨ (p.regMask.val &&& 0x10) ≠ 0) :
    IncrementScrollX p = { p with vramAddr := coarseXStep p.vramAddr } := by
  unfold IncrementScrollX coarseXStep
  rw [if_pos hm]
  split_ifs <;> rfl

theorem IncrementScrollX_iterate (p : PPU)
    (hm : (p.regMask.val &&& 0x08) ≠ 0 ∨ (p.regMask.val &&& 0x10) ≠ 0) (k : Nat) :
    IncrementScrollX^[k] p = { p with vramAddr := coarseXStep^[k] p.vramAddr } := by
  induction k with
  | zero => rfl
  | succ n ih =>
    rw [Function.iterate_succ_apply', Function.iterate_succ_apply', ih]
    exact IncrementScrollX_enabled { p with vramAddr := coarseXStep^[n] p.vramAddr } hm

/-- One step of coarse-X, in arithmetic. -/
theorem coarseXStep_value (v : Word) :
    (coarseXStep v).val =
      if v.val % 32 = 31 then
        (if v.val / 1024 % 2 = 0 then v.val - 31 + 1024 else v.val - 31 - 1024)
      else v.val + 1 := by
  have hv := v.isLt
  unfold coarseXStep
  rw [and_0x001F]
  by_cases h31 : v.val % 32 = 31
  · rw [if_pos h31, if_pos h31, u16_val, u16_val, and_cnot_0x001F _ hv, xor_0x0400,
      Nat.mod_eq_of_lt (by omega : v.val - v.val % 32 < 65536)]
    split_ifs <;> omega
  · rw [if_neg h31, if_neg h31, u16_val]
    omega

/-- After `k` steps coarse-X has advanced by `k` modulo 32 and bit `0x0400` has been toggled
once for every wrap of coarse-X. -/
theorem coarseXStep_iterate (v : Word) (k : Nat) :
    (coarseXStep^[k] v).val =
      v.val - v.val % 32 - v.val / 1024 % 2 * 1024
        + (v.val / 1024 % 2 + (v.val % 32 + k) / 32) % 2 * 1024
        + (v.val % 32 + k) % 32 := by
  have hv := v.isLt
  induction k with
  | zero =>
    show v.val = _
    omega
  | succ n ih =>
    rw [Function.iterate_succ_apply', coarseXStep_value, ih]
    split_ifs <;> omega

/-- C32: with rendering enabled `IncrementScrollX` changes only the current VRAM address, and
in it only bits of `0x041F`; 32 applications in a row give the original address with bit
`0x0400` toggled, and 64 applications give back the original state. -/
theorem C32_increment_scroll_x (p : PPU)
    (hm : (p.regMask.val &&& 0x08) ≠ 0 ∨ (p.regMask.val &&& 0x10) ≠ 0) :
    IncrementScrollX p = { p with vramAddr := (IncrementScrollX p).vramAddr } ∧
    ((IncrementScrollX p).vramAddr.val / 0x0800 = p.vramAddr.val / 0x0800 ∧
      (IncrementScrollX p).vramAddr.val / 32 % 32 = p.vramAddr.val / 32 % 32) ∧
    IncrementScrollX^[32] p = { p with vramAddr := u16 (p.vramAddr.val ^^^ 0x0400) } ∧
    IncrementScrollX^[64] p = p := by
  have hv := p.vramAddr.isLt
  have h1 : (IncrementScrollX p).vramAddr = coarseXStep p.vramAddr := by
    rw [IncrementScrollX_enabled p hm]
  have hval := coarseXStep_value p.vramAddr
  refine ⟨?_, ⟨?_, ?_⟩, ?_, ?_⟩
  · rw [h1]
    exact IncrementScrollX_enabled p hm
  · rw [h1, hval]
    split_ifs <;> omega
  · rw [h1, hval]
    split_ifs <;> omega
  · have e : coarseXStep^[32] p.vramAddr = u16 (p.vramAddr.val ^^^ 0x0400) := by
      apply Fin.ext
      rw [coarseXStep_iterate, u16_val, xor_0x0400]
      split_ifs <;> omega
    rw [IncrementScrollX_iterate p hm, e]
  · have e : coarseXStep^[64] p.vramAddr = p.vramAddr := by
      apply Fin.ext
      rw [coarseXStep_iterate]
      omega
    rw [IncrementScrollX_iterate p hm, e]

theorem C32_increment_scroll_x_witness :
    IncrementScrollX^[32] exScroll
      = { exScroll with vramAddr := u16 (exScroll.vramAddr.val ^^^ 0x0400) } ∧
    IncrementScrollX^[64] exScroll = exScroll :=
  ⟨(C32_increment_scroll_x exScroll (Or.inl (by decide))).2.2.1,
    (C32_increment_scroll_x exScroll (Or.inl (by decide))).2.2.2⟩

end PPU

end NES

namespace NES

/-! ## Fine-X is written by the scroll register only -/

namespace PPU

theorem stage_fineX (cart : Cartridge) (p : PPU) :
    (visibleFetch cart p).fineX = p.fineX ∧ (visibleScrollY p).fineX = p.fineX ∧
    (visibleReload p).fineX = p.fineX ∧ (visibleTransferY p).fineX = p.fineX ∧
    (visibleRender cart p).fineX = p.fineX := by
  have hU : ∀ q : PPU, (UpdateShifters q).fineX = q.fineX := by
    intro q; unfold UpdateShifters; split_ifs <;> rfl
  have hX : ∀ q : PPU, (IncrementScrollX q).fineX = q.fineX := by
    intro q; unfold IncrementScrollX; dsimp only; split_ifs <;> rfl
  have hY : ∀ q : PPU, (IncrementScrollY q).fineX = q.fineX := by
    intro q; unfold IncrementScrollY; dsimp only; split_ifs <;> rfl
  have hTX : ∀ q : PPU, (TransferAddressX q).fineX = q.fineX := by
    intro q; unfold TransferAddressX; split_ifs <;> rfl
  have hTY : ∀ q : PPU, (TransferAddressY q).fineX = q.fineX := by
    intro q; unfold TransferAddressY; split_ifs <;> rfl
  have hR : ∀ q : PPU, (RenderPixel cart q).fineX = q.fineX := by
    intro q; unfold RenderPixel SetPixel; dsimp only; split_ifs <;> rfl
  have hF : ∀ q : PPU, (clockFetch cart q).fineX = q.fineX := by
    intro q
    unfold clockFetch
    dsimp only
    split_ifs
    · rfl
    · rfl
    · rfl
    · rfl
    · exact hX q
    · rfl
  refine ⟨?_, ?_, ?_, ?_, ?_⟩
  · unfold visibleFetch; split_ifs
    · rw [hF, hU]
    · rfl
  · unfold visibleScrollY; split_ifs
    · exact hY p
    · rfl
  · unfold visibleReload; split_ifs
    · rw [hTX]; rfl
    · rfl
  · unfold visibleTransferY; split_ifs
    · exact hTY p
    · rfl
  · unfold visibleRender; split_ifs
    · exact hR p
    · rfl

theorem visible_stages_fineX (cart : Cartridge) (p : PPU) :
    (visibleTransferY (visibleReload (visibleScrollY (visibleFetch cart p)))).fineX
      = p.fineX := by
  rw [(stage_fineX cart _).2.2.2.1, (stage_fineX cart _).2.2.1, (stage_fineX cart _).2.1,
    (stage_fineX cart p).1]

theorem clock_head_fineX (p : PPU) : (clockPreRender (clockVBlank p)).fineX = p.fineX := by
  have h1 : (clockVBlank p).fineX = p.fineX := by
    unfold clockVBlank; dsimp only; split_ifs <;> rfl
  have h2 : (clockPreRender (clockVBlank p)).fineX = (clockVBlank p).fineX := by
    unfold clockPreRender; split_ifs <;> rfl
  rw [h2, h1]

theorem Clock_fineX (cart : Cartridge) (p : PPU) : (Clock cart p).fineX = p.fineX := by
  have h3 : ∀ q : PPU, (clockAdvance q).fineX = q.fineX := by
    intro q; unfold clockAdvance; dsimp only; split_ifs <;> rfl
  have hv : ∀ q : PPU, (clockVisible cart q).fineX = q.fineX := by
    intro q
    rw [clockVisible_eq]
    split_ifs
    · rw [(stage_fineX cart _).2.2.2.2, visible_stages_fineX]
    · rfl
  unfold Clock
  rw [h3, hv, clock_head_fineX]

theorem CPURead_fineX (cart : Cartridge) (p : PPU) (a : Word) :
    (CPURead cart p a).2.fineX = p.fineX := by
  unfold CPURead bumpVramAddr
  dsimp only
  split_ifs <;> rfl

theorem PPUWrite_fineX (cart : Cartridge) (p : PPU) (a : Word) (v : Byte) :
    (PPUWrite cart p a v).fineX = p.fineX := by
  unfold PPUWrite
  dsimp only
  split_ifs <;> rfl

theorem CPUWrite_fineX (cart : Cartridge) (p : PPU) (a : Word) (d : Byte)
    (h : p.fineX.val < 8) : (CPUWrite cart p a d).fineX.val < 8 := by
  have h7 : (u8 (d.val &&& 0x07)).val < 8 := by
    have := @Nat.and_le_right d.val 0x07
    rw [u8_val]
    omega
  unfold CPUWrite
  dsimp only
  split_ifs
  · exact h
  · exact h
  · exact h
  · exact h
  · exact h7
  · exact h
  · exact h
  · exact h
  · show (PPUWrite cart p p.vramAddr d).fineX.val < 8
    rw [PPUWrite_fineX]
    exact h
  · exact h

/-- Fine-X is below 8 in every state reached from `Reset` by register reads, register writes
and `Clock` calls. -/
theorem run_fineX (cart : Cartridge) (acts : List Action) (raw : PPU) :
    (run cart acts (Reset raw)).fineX.val < 8 := by
  have step : ∀ (acts : List Action) (p : PPU), p.fineX.val < 8 →
      (run cart acts p).fineX.val < 8 := by
    intro acts
    induction acts with
    | nil => exact fun p h => h
    | cons a rest ih =>
      intro p h
      show (run cart rest (act cart p a)).fineX.val < 8
      apply ih
      cases a with
      | read addr =>
        show (CPURead cart p addr).2.fineX.val < 8
        rw [CPURead_fineX]
        exact h
      | write addr data => exact CPUWrite_fineX cart p addr data h
      | clock =>
        show (Clock cart p).fineX.val < 8
        rw [Clock_fineX]
        exact h
  exact step acts (Reset raw) (show (0 : Byte).val < 8 by decide)

/-! ## Subscripts of the picture unit -/

theorem normIndex_lt (z : Nat) : normIndex z < 32 := by
  unfold normIndex
  split_ifs <;> omega

theorem PPUReadChecks_ok (cart : Cartridge)
    (hchr : cart.CHR_ROM.length = 0 ∨ 8192 ≤ cart.CHR_ROM.length) (addr : Word) :
    ∀ c ∈ PPUReadChecks cart addr, c.ok := by
  have e : (u16 (addr.val &&& 0x3FFF)).val = addr.val % 0x4000 := by
    rw [u16_val, and_0x3FFF]
    omega
  have hp := normIndex_lt (addr.val % 0x4000)
  unfold PPUReadChecks
  dsimp only
  rw [e, paletteIndex_eq]
  split_ifs with h1 h2 h3 h4 <;>
    simp only [List.forall_mem_cons, List.not_mem_nil, false_imp_iff, implies_true, and_true,
      Check.ok] <;> omega

theorem PPUWriteChecks_ok (cart : Cartridge) (addr : Word) :
    ∀ c ∈ PPUWriteChecks cart addr, c.ok := by
  have e : (u16 (addr.val &&& 0x3FFF)).val = addr.val % 0x4000 := by
    rw [u16_val, and_0x3FFF]
    omega
  have hp := normIndex_lt (addr.val % 0x4000)
  unfold PPUWriteChecks
  dsimp only
  rw [e, paletteIndex_eq]
  split_ifs with h1 h2 h3 h4 <;>
    simp only [List.forall_mem_cons, List.not_mem_nil, false_imp_iff, implies_true, and_true,
      Check.ok] <;> omega

theorem CPUReadChecks_ok (cart : Cartridge)
    (hchr : cart.CHR_ROM.length = 0 ∨ 8192 ≤ cart.CHR_ROM.length) (p : PPU) (addr : Word) :
    ∀ c ∈ CPUReadChecks cart p addr, c.ok := by
  have ho := p.regOAMAddr.isLt
  unfold CPUReadChecks
  dsimp only
  split_ifs
  · simp only [List.not_mem_nil, false_imp_iff, implies_true]
  · simp only [List.forall_mem_cons, List.not_mem_nil, false_imp_iff, implies_true, and_true,
      Check.ok]
    omega
  · exact PPUReadChecks_ok cart hchr _
  · simp only [List.not_mem_nil, false_imp_iff, implies_true]

theorem CPUWriteChecks_ok (cart : Cartridge) (p : PPU) (addr : Word) :
    ∀ c ∈ CPUWriteChecks cart p addr, c.ok := by
  have ho := p.regOAMAddr.isLt
  unfold CPUWriteChecks
  dsimp only
  split_ifs
  · simp only [List.forall_mem_cons, List.not_mem_nil, false_imp_iff, implies_true, and_true,
      Check.ok]
    omega
  · exact PPUWriteChecks_ok cart _
  · simp only [List.not_mem_nil, false_imp_iff, implies_true]

theorem colour_lt (cart : Cartridge) (p : PPU) (paletteNum pixel : Byte) :
    (GetColorFromPaletteRAM cart p paletteNum pixel).val < 64 := by
  unfold GetColorFromPaletteRAM
  split_ifs
  · have := @Nat.and_le_right (PPURead cart p 0x3F00).val 0x3F
    rw [u8_val]
    omega
  · have := @Nat.and_le_right
      (PPURead cart p (u16 (0x3F00 + (paletteNum.val <<< 2) + pixel.val))).val 0x3F
    rw [u8_val]
    omega

theorem RenderPixelChecks_ok (cart : Cartridge)
    (hchr : cart.CHR_ROM.length = 0 ∨ 8192 ≤ cart.CHR_ROM.length) (p : PPU)
    (hf : p.fineX.val < 8) : ∀ c ∈ RenderPixelChecks cart p, c.ok := by
  unfold RenderPixelChecks
  dsimp only
  intro c hc
  rw [List.mem_append, List.mem_append] at hc
  rcases hc with (hc | hc) | hc
  · split_ifs at hc
    · rw [List.mem_singleton] at hc
      rw [hc]
      show p.fineX.val < 32
      omega
    · exact absurd hc (List.not_mem_nil _)
  · unfold GetColorChecks at hc
    split_ifs at hc
    · exact PPUReadChecks_ok cart hchr _ c hc
    · exact PPUReadChecks_ok cart hchr _ c hc
  · have hcol := colour_lt cart p (backgroundPixel p).2 (backgroundPixel p).1
    unfold SetPixelChecks at hc
    split_ifs at hc with hg
    · rw [List.mem_cons, List.mem_singleton] at hc
      rcases hc with hc | hc
      · rw [hc]
        show (0 : Int) ≤ _ ∧ _
        omega
      · rw [hc]
        show (0 : Int) ≤ _ ∧ _
        omega
    · exact absurd hc (List.not_mem_nil _)

theorem clockFetchChecks_ok (cart : Cartridge)
    (hchr : cart.CHR_ROM.length = 0 ∨ 8192 ≤ cart.CHR_ROM.length) (p : PPU) :
    ∀ c ∈ clockFetchChecks cart p, c.ok := by
  unfold clockFetchChecks
  dsimp only
  split_ifs
  · exact PPUReadChecks_ok cart hchr _
  · exact PPUReadChecks_ok cart hchr _
  · exact PPUReadChecks_ok cart hchr _
  · exact PPUReadChecks_ok cart hchr _
  · exact fun c hc => absurd hc (List.not_mem_nil _)

theorem ClockChecks_ok (cart : Cartridge)
    (hchr : cart.CHR_ROM.length = 0 ∨ 8192 ≤ cart.CHR_ROM.length) (p : PPU)
    (hf : p.fineX.val < 8) : ∀ c ∈ ClockChecks cart p, c.ok := by
  have hq : (visibleTransferY (visibleReload (visibleScrollY
      (visibleFetch cart (clockPreRender (clockVBlank p)))))).fineX.val < 8 := by
    rw [visible_stages_fineX, clock_head_fineX]
    exact hf
  unfold ClockChecks
  dsimp only
  intro c hc
  split_ifs at hc
  · rw [List.mem_append] at hc
    rcases hc with hc | hc
    · exact clockFetchChecks_ok cart hchr _ c hc
    · exact RenderPixelChecks_ok cart hchr _ hq c hc
  · rw [List.mem_append] at hc
    rcases hc with hc | hc
    · exact clockFetchChecks_ok cart hchr _ c hc
    · exact absurd hc (List.not_mem_nil _)
  · rw [List.mem_append] at hc
    rcases hc with hc | hc
    · exact absurd hc (List.not_mem_nil _)
    · exact RenderPixelChecks_ok cart hchr _ hq c hc
  · rw [List.mem_append] at hc
    rcases hc with hc | hc
    · exact absurd hc (List.not_mem_nil _)
    · exact absurd hc (List.not_mem_nil _)
  · exact absurd hc (List.not_mem_nil _)

end PPU

/-! ## Subscripts of the bus -/

namespace Memory

theorem ReadChecks_ok (m : Memory) (hprg : 0 < m.cartridge.PRG_ROM.length)
    (hchr : m.cartridge.CHR_ROM.length = 0 ∨ 8192 ≤ m.cartridge.CHR_ROM.length) (a : Word) :
    ∀ c ∈ ReadChecks m a, c.ok := by
  unfold ReadChecks
  split_ifs
  · simp only [List.forall_mem_cons, List.not_mem_nil, false_imp_iff, implies_true, and_true,
      Check.ok]
    omega
  · exact PPU.CPUReadChecks_ok m.cartridge hchr _ _
  · simp only [List.not_mem_nil, false_imp_iff, implies_true]
  · have hlt := Nat.mod_lt (a.val - 0x8000) hprg
    simp only [List.forall_mem_cons, List.not_mem_nil, false_imp_iff, implies_true, and_true,
      Check.ok]
    omega
  · simp only [List.not_mem_nil, false_imp_iff, implies_true]

theorem dmaStep_frame (d : Word) (m : Memory) (i : Nat) :
    (dmaStep d m i).cartridge = m.cartridge ∧ (dmaStep d m i).ppu.fineX = m.ppu.fineX := by
  have h1 := (CPU.Memory_Read_storage m (u16 (d.val + i))).2.1
  have h2 : (Read m (u16 (d.val + i))).2.ppu.fineX = m.ppu.fineX := by
    unfold Read
    split_ifs
    · rfl
    · exact PPU.CPURead_fineX _ _ _
    · rfl
    · rfl
    · rfl
  unfold dmaStep
  exact ⟨h1, h2⟩

theorem dmaChecks_ok (d : Word) (l : List Nat) (m : Memory)
    (hprg : 0 < m.cartridge.PRG_ROM.length)
    (hchr : m.cartridge.CHR_ROM.length = 0 ∨ 8192 ≤ m.cartridge.CHR_ROM.length) :
    ∀ c ∈ dmaChecks d l m, c.ok := by
  induction l generalizing m with
  | nil => exact fun c hc => absurd hc (List.not_mem_nil _)
  | cons i rest ih =>
    intro c hc
    unfold dmaChecks at hc
    rw [List.mem_append, List.mem_append, List.mem_singleton] at hc
    rcases hc with (hc | hc) | hc
    · exact ReadChecks_ok m hprg hchr _ c hc
    · rw [hc]
      have := (Read m (u16 (d.val + i))).2.ppu.regOAMAddr.isLt
      show (0 : Int) ≤ _ ∧ _
      omega
    · have hf := (dmaStep_frame d m i).1
      exact ih (dmaStep d m i) (by rw [hf]; exact hprg) (by rw [hf]; exact hchr) c hc

theorem WriteChecks_ok (m : Memory) (hprg : 0 < m.cartridge.PRG_ROM.length)
    (hchr : m.cartridge.CHR_ROM.length = 0 ∨ 8192 ≤ m.cartridge.CHR_ROM.length) (a : Word)
    (v : Byte) : ∀ c ∈ WriteChecks m a v, c.ok := by
  unfold WriteChecks
  split_ifs
  · simp only [List.forall_mem_cons, List.not_mem_nil, false_imp_iff, implies_true, and_true,
      Check.ok]
    omega
  · exact PPU.CPUWriteChecks_ok m.cartridge _ _
  · exact dmaChecks_ok _ _ m hprg hchr
  · simp only [List.not_mem_nil, false_imp_iff, implies_true]

theorem dma_fold_fineX (d : Word) (l : List Nat) (m : Memory) :
    (l.foldl (dmaStep d) m).ppu.fineX = m.ppu.fineX ∧
      (l.foldl (dmaStep d) m).cartridge = m.cartridge := by
  induction l generalizing m with
  | nil => exact ⟨rfl, rfl⟩
  | cons i rest ih =>
    rw [List.foldl_cons]
    obtain ⟨h1, h2⟩ := ih (dmaStep d m i)
    rw [h1, h2]
    exact ⟨(dmaStep_frame d m i).2, (dmaStep_frame d m i).1⟩

/-- Bus reads and writes keep the cartridge and keep fine-X below 8. -/
theorem bus_frame (m : Memory) (a : Word) (v : Byte) (h : m.ppu.fineX.val < 8) :
    (m.Read a).2.cartridge = m.cartridge ∧ (m.Read a).2.ppu.fineX.val < 8 ∧
    (m.Write a v).cartridge = m.cartridge ∧ (m.Write a v).ppu.fineX.val < 8 := by
  refine ⟨(CPU.Memory_Read_storage m a).2.1, ?_, ?_, ?_⟩
  · unfold Read
    split_ifs
    · exact h
    · show (PPU.CPURead _ _ _).2.fineX.val < 8
      rw [PPU.CPURead_fineX]
      exact h
    · exact h
    · exact h
    · exact h
  · unfold Write
    split_ifs
    · rfl
    · rfl
    · exact (dma_fold_fineX _ _ m).2
    · rfl
    · rfl
    · rfl
  · unfold Write
    split_ifs
    · exact h
    · exact PPU.CPUWrite_fineX _ _ _ _ h
    · show ((List.range 256).foldl (dmaStep _) m).ppu.fineX.val < 8
      rw [(dma_fold_fineX _ _ m).1]
      exact h
    · exact h
    · exact h
    · exact h

end Memory

/-- C33: for a cartridge with non-empty program storage whose pattern storage is empty or
holds at least 8192 bytes, every array subscript, non-constant divisor and shift count that
`Memory::Read`, `Memory::Write`, `CPURead`, `CPUWrite`, `PPURead`, `PPUWrite` and `Clock`
evaluate is in range, for every address, every data byte and every state in which fine-X is
below 8; fine-X is below 8 after `Reset` and stays so under register reads and writes, `Clock`
calls and bus reads and writes, which also keep the cartridge; and the colour index is always
below 64. -/
theorem C33_subscripts (cart : Cartridge) (hprg : 0 < cart.PRG_ROM.length)
    (hchr : cart.CHR_ROM.length = 0 ∨ 8192 ≤ cart.CHR_ROM.length) :
    (∀ (m : Memory) (a : Word) (v : Byte), m.cartridge = cart →
      (∀ c ∈ m.ReadChecks a, c.ok) ∧ (∀ c ∈ m.WriteChecks a v, c.ok)) ∧
    (∀ (p : PPU) (a : Word),
      (∀ c ∈ PPU.CPUReadChecks cart p a, c.ok) ∧ (∀ c ∈ PPU.CPUWriteChecks cart p a, c.ok) ∧
      (∀ c ∈ PPU.PPUReadChecks cart a, c.ok) ∧ (∀ c ∈ PPU.PPUWriteChecks cart a, c.ok)) ∧
    (∀ p : PPU, p.fineX.val < 8 → ∀ c ∈ PPU.ClockChecks cart p, c.ok) ∧
    (∀ (acts : List PPU.Action) (raw : PPU),
      (PPU.run cart acts (PPU.Reset raw)).fineX.val < 8) ∧
    (∀ (m : Memory) (a : Word) (v : Byte), m.ppu.fineX.val < 8 →
      (m.Read a).2.cartridge = m.cartridge ∧ (m.Read a).2.ppu.fineX.val < 8 ∧
      (m.Write a v).cartridge = m.cartridge ∧ (m.Write a v).ppu.fineX.val < 8) ∧
    (∀ (p : PPU) (paletteNum pixel : Byte),
      (PPU.GetColorFromPaletteRAM cart p paletteNum pixel).val < 64) := by
  refine ⟨?_, ?_, ?_, ?_, ?_, ?_⟩
  · intro m a v hm
    subst hm
    exact ⟨Memory.ReadChecks_ok m hprg hchr a, Memory.WriteChecks_ok m hprg hchr a v⟩
  · intro p a
    exact ⟨PPU.CPUReadChecks_ok cart hchr p a, PPU.CPUWriteChecks_ok cart p a,
      PPU.PPUReadChecks_ok cart hchr a, PPU.PPUWriteChecks_ok cart a⟩
  · exact fun p hf => PPU.ClockChecks_ok cart hchr p hf
  · exact fun acts raw => PPU.run_fineX cart acts raw
  · exact fun m a v h => Memory.bus_frame m a v h
  · exact fun p n x => PPU.colour_lt cart p n x

theorem exCart_storage :
    0 < exCart.PRG_ROM.length ∧
      (exCart.CHR_ROM.length = 0 ∨ 8192 ≤ exCart.CHR_ROM.length) := by
  have h1 : exCart.PRG_ROM.length = 16384 := List.length_replicate _ _
  have h2 : exCart.CHR_ROM.length = 8192 := List.length_replicate _ _
  rw [h1, h2]
  exact ⟨by decide, Or.inr (Nat.le_refl _)⟩

theorem C33_subscripts_witness :
    (0 < exCart.PRG_ROM.length ∧
      (exCart.CHR_ROM.length = 0 ∨ 8192 ≤ exCart.CHR_ROM.length)) ∧
    (∀ c ∈ (exMem []).WriteChecks 0x4014 0x02, c.ok) ∧
    (∀ c ∈ PPU.ClockChecks exCart exDot, c.ok) :=
  ⟨exCart_storage,
    ((C33_subscripts exCart exCart_storage.1 exCart_storage.2).1 (exMem []) 0x4014 0x02 rfl).2,
    (C33_subscripts exCart exCart_storage.1 exCart_storage.2).2.2.1 exDot (by decide)⟩

end NES
